import Mathlib

/-!
PySyck: the `_syck` extension module (`ext/_syckmodule.c`).

A shallow embedding of the node model (`_syck.Scalar`, `_syck.Seq`, `_syck.Map`) and of the
parser callbacks of `ext/_syckmodule.c`, followed by theorems about them.

Conventions of the embedding.

* A `PyObject *` that points to a node is an address `Addr` into an explicit heap of node
  objects, so that "the same node instance" is equality of addresses.  Immutable Python values
  and the list / dict held in a node's `value` field are kept by value (`PyObject`).
* A C pointer that may be `NULL` is an `Option`.
* C `int`, `long`, `char` and `enum` fields are `Int`; byte strings are `List Nat`.
* `SYMID` is `unsigned long`; a `SYMID` argument is a `Nat` and a `SYMID` result is an `Int`,
  so that the sentinel `-1` of the source can be written as such.
* Memory allocation always succeeds: the `if (!object) goto error;` branches taken on memory
  exhaustion are not represented.
* Dereferencing `NULL` is a crash of the process; a function that can do so returns `Option`
  and `none` stands for the crash.
-/

namespace PySyck

/-! Python objects -/

/-- Address of a node object on the heap. -/
abbrev Addr := Nat

/-- The Python values the module handles through a non-NULL `PyObject *`.  `PyBool` holds
`Py_True` and `Py_False`, instances of a subtype of the integer type.  A list or a tuple holds
the addresses of its items in order.  `PyOther` is an object of any other type, such as a
file-like source, told apart by a number.  A dict is an association list from key address to value
address with at most one entry for each key; node objects hash and compare by identity.
The order of the association list is only a representation: CPython 2 iterates a dict in the
order of the hash slots of the keys' addresses, which the embedding does not represent. -/
inductive PyObject where
  | PyNone
  | PyString (ob_sval : List Nat)
  | PyInt (ob_ival : Int)
  | PyBool (ob_ival : Bool)
  | PyList (ob_item : List Addr)
  | PyDict (ma_table : List (Addr × Addr))
  | PyTuple (ob_item : List Addr)
  | PyOther (id : Nat)
  deriving DecidableEq, Repr

/-- The bytes of an ASCII literal of the source. -/
def cstr (s : String) : List Nat := s.toList.map Char.toNat

/-- The call `PyString_FromString(s)` for a NUL-terminated C string, given by its bytes before
the NUL. -/
def PyString_FromString (s : List Nat) : PyObject := .PyString s

/-- The call `PyString_FromStringAndSize(ptr, len)`: the `len` bytes at `ptr`, zero bytes
included. -/
def PyString_FromStringAndSize (ptr : List Nat) : PyObject := .PyString ptr

/-- The call `PyList_New(0)`. -/
def PyList_New : PyObject := .PyList []

/-- The call `PyDict_New()`. -/
def PyDict_New : PyObject := .PyDict []

/-- The call `PyList_GetItem(op, i)`: `none` is the `NULL` result, for an object that is not a
list and for an index outside `0 .. len-1`.  The index parameter of the C function is signed and
as wide as `SYMID`: a `SYMID` with the top bit set arrives negative and is rejected like one
past the end. -/
def PyList_GetItem (op : PyObject) (i : Nat) : Option Addr :=
  match op with
  | .PyList ob_item => ob_item[i]?
  | _ => none

/-- The call `PyList_Append(op, newitem)`: `none` is the result `-1` (not a list). -/
def PyList_Append (op : PyObject) (newitem : Addr) : Option PyObject :=
  match op with
  | .PyList ob_item => some (.PyList (ob_item ++ [newitem]))
  | _ => none

/-- The call `PyList_GET_SIZE(op)`. -/
def PyList_GET_SIZE (op : PyObject) : Int :=
  match op with
  | .PyList ob_item => ob_item.length
  | _ => 0

/-- Insert or replace in a dict table: an existing entry for `key` gets the new value, a new key
gets a new entry. -/
def insertdict (key value : Addr) : List (Addr × Addr) → List (Addr × Addr)
  | [] => [(key, value)]
  | (k, v) :: rest =>
    if k = key then (k, value) :: rest else (k, v) :: insertdict key value rest

/-- The call `PyDict_SetItem(mp, key, value)`: `none` is the result `-1` (not a dict). -/
def PyDict_SetItem (mp : PyObject) (key value : Addr) : Option PyObject :=
  match mp with
  | .PyDict ma_table => some (.PyDict (insertdict key value ma_table))
  | _ => none

/-- Look a key up in a dict table. -/
def lookdict (key : Addr) : List (Addr × Addr) → Option Addr
  | [] => none
  | (k, v) :: rest => if k = key then some v else lookdict key rest

/-- The call `PyDict_GetItem(mp, key)`: `none` is the `NULL` result (no entry, or not a dict). -/
def PyDict_GetItem (mp : PyObject) (key : Addr) : Option Addr :=
  match mp with
  | .PyDict ma_table => lookdict key ma_table
  | _ => none

/-- The call `PyDict_Size(mp)`: the number of entries; `-1` for an object that is not a dict. -/
def PyDict_Size (mp : PyObject) : Int :=
  match mp with
  | .PyDict ma_table => ma_table.length
  | _ => -1

/-- The call `PyString_Check(op)`. -/
def PyString_Check (op : PyObject) : Bool :=
  match op with
  | .PyString _ => true
  | _ => false

/-- The call `PyInt_Check(op)`: an integer or an instance of a subtype, such as a Boolean. -/
def PyInt_Check (op : PyObject) : Bool :=
  match op with
  | .PyInt _ => true
  | .PyBool _ => true
  | _ => false

/-- The call `PyInt_AS_LONG(op)` for an object that passed `PyInt_Check`. -/
def PyInt_AS_LONG (op : PyObject) : Int :=
  match op with
  | .PyInt ob_ival => ob_ival
  | .PyBool ob_ival => if ob_ival then 1 else 0
  | _ => 0

/-- The call `PySequence_Check(op)`: the type has the sequence item slot. -/
def PySequence_Check (op : PyObject) : Bool :=
  match op with
  | .PyString _ => true
  | .PyList _ => true
  | .PyTuple _ => true
  | _ => false

/-- The call `PyMapping_Check(op)`: the type has the mapping subscript slot and no sequence
slice slot. -/
def PyMapping_Check (op : PyObject) : Bool :=
  match op with
  | .PyDict _ => true
  | _ => false

/-- The bytes of the C string that `PyString_AsString` points to, as `strcmp` reads them: the
string's bytes up to its first zero byte. -/
def PyString_AsString (op : PyObject) : List Nat :=
  match op with
  | .PyString ob_sval => ob_sval.takeWhile (fun c => c != 0)
  | _ => []

/-- The test `strcmp(str, literal) == 0` for a literal without zero bytes. -/
def strcmp_eq (str literal : List Nat) : Bool := str = literal

/-- The conversion of a C `long` or `Py_ssize_t` to an `int` of 32 bits. -/
def long_to_int (n : Int) : Int := (n + 2 ^ 31) % 2 ^ 32 - 2 ^ 31

/-- The conversion of a C `int` to a `char` field of 8 bits. -/
def int_to_char (n : Int) : Int := (n + 2 ^ 7) % 2 ^ 8 - 2 ^ 7

/-- A Python exception in the error indicator: one raised by `PyErr_SetString` with its message,
or `_syck.error` raised by `PyErr_SetObject` with the tuple of message, line and column. -/
inductive PyErr where
  | TypeError (msg : String)
  | ValueError (msg : String)
  | RuntimeError (msg : String)
  | IndexError (msg : String)
  | SystemError (msg : String)
  | PySyck_Error (str : List Nat) (linect : Int) (column : Int)
  deriving DecidableEq, Repr

/-! Enumerators and macros of `syck.h` -/

/-- Modelled from the spec: `syck.h` is not among the sources.  The spec lists the scalar styles
unspecified, single-quoted, double-quoted, folded, literal, plain; the codes are those of
`enum scalar_style` in declaration order. -/
def scalar_none : Int := 0

/-- Modelled from the spec: second enumerator of `enum scalar_style` (single-quoted). -/
def scalar_1quote : Int := 1

/-- Modelled from the spec: third enumerator of `enum scalar_style` (double-quoted). -/
def scalar_2quote : Int := 2

/-- Modelled from the spec: fourth enumerator of `enum scalar_style` (folded). -/
def scalar_fold : Int := 3

/-- Modelled from the spec: fifth enumerator of `enum scalar_style` (literal). -/
def scalar_literal : Int := 4

/-- Modelled from the spec: sixth enumerator of `enum scalar_style` (plain). -/
def scalar_plain : Int := 5

/-- Modelled from the spec: `enum seq_style { seq_none, seq_inline }`, block style. -/
def seq_none : Int := 0

/-- Modelled from the spec: `enum seq_style { seq_none, seq_inline }`, flow style. -/
def seq_inline : Int := 1

/-- Modelled from the spec: `enum map_style { map_none, map_inline }`, block style. -/
def map_none : Int := 0

/-- Modelled from the spec: `enum map_style { map_none, map_inline }`, flow style. -/
def map_inline : Int := 1

/-- Modelled from the spec: the chomp code of "strip", the macro `NL_CHOMP` of `syck.h`; the
default "clip" is the code `0` that `PySyckScalar_new` stores. -/
def NL_CHOMP : Int := 40

/-- Modelled from the spec: the chomp code of "keep", the macro `NL_KEEP` of `syck.h`. -/
def NL_KEEP : Int := 50

/-! Module globals -/

/-- The global `PySyck_1QuoteStyle`. -/
def PySyck_1QuoteStyle : PyObject := PyString_FromString (cstr "1quote")

/-- The global `PySyck_2QuoteStyle`. -/
def PySyck_2QuoteStyle : PyObject := PyString_FromString (cstr "2quote")

/-- The global `PySyck_FoldStyle`. -/
def PySyck_FoldStyle : PyObject := PyString_FromString (cstr "fold")

/-- The global `PySyck_LiteralStyle`. -/
def PySyck_LiteralStyle : PyObject := PyString_FromString (cstr "literal")

/-- The global `PySyck_PlainStyle`. -/
def PySyck_PlainStyle : PyObject := PyString_FromString (cstr "plain")

/-- The global `PySyck_StripChomp`. -/
def PySyck_StripChomp : PyObject := PyString_FromString (cstr "-")

/-- The global `PySyck_KeepChomp`. -/
def PySyck_KeepChomp : PyObject := PyString_FromString (cstr "+")

/-! The node types -/

/-- The struct `PySyckNodeObject`: the fields common to all node types. -/
structure PySyckNodeObject where
  value : Option PyObject
  tag : Option PyObject
  anchor : Option PyObject
  deriving DecidableEq, Repr

/-- The struct `PySyckScalarObject`. -/
structure PySyckScalarObject extends PySyckNodeObject where
  style : Int
  indent : Int
  width : Int
  chomp : Int
  deriving DecidableEq, Repr

/-- The struct `PySyckSeqObject`. -/
structure PySyckSeqObject extends PySyckNodeObject where
  style : Int
  deriving DecidableEq, Repr

/-- The struct `PySyckMapObject`. -/
structure PySyckMapObject extends PySyckNodeObject where
  style : Int
  deriving DecidableEq, Repr

/-- A node object on the heap, of one of the three concrete node types. -/
inductive PySyckObject where
  | Scalar (o : PySyckScalarObject)
  | Seq (o : PySyckSeqObject)
  | Map (o : PySyckMapObject)
  deriving DecidableEq, Repr

/-- The heap of node objects: the object at address `a` is the `a`-th entry, and a new object
is allocated at the next free address. -/
abbrev Heap := List PySyckObject

/-- The view `(PySyckNodeObject *)object` of a node object. -/
def PySyckObject.node : PySyckObject → PySyckNodeObject
  | .Scalar o => o.toPySyckNodeObject
  | .Seq o => o.toPySyckNodeObject
  | .Map o => o.toPySyckNodeObject

/-- The assignment `object->value = v` through the common view. -/
def PySyckObject.set_value (object : PySyckObject) (v : Option PyObject) : PySyckObject :=
  match object with
  | .Scalar o => .Scalar { o with value := v }
  | .Seq o => .Seq { o with value := v }
  | .Map o => .Map { o with value := v }

/-- The assignment `object->tag = v` through the common view. -/
def PySyckObject.set_tag (object : PySyckObject) (v : Option PyObject) : PySyckObject :=
  match object with
  | .Scalar o => .Scalar { o with tag := v }
  | .Seq o => .Seq { o with tag := v }
  | .Map o => .Map { o with tag := v }

/-- The assignment `object->anchor = v` through the common view. -/
def PySyckObject.set_anchor (object : PySyckObject) (v : Option PyObject) : PySyckObject :=
  match object with
  | .Scalar o => .Scalar { o with anchor := v }
  | .Seq o => .Seq { o with anchor := v }
  | .Map o => .Map { o with anchor := v }

/-- The function `PySyckScalar_new`. -/
def PySyckScalar_new : PySyckScalarObject :=
  { value := some (PyString_FromString (cstr ""))
    tag := none
    anchor := none
    style := scalar_none
    indent := 0
    width := 0
    chomp := 0 }

/-- The function `PySyckSeq_new`. -/
def PySyckSeq_new : PySyckSeqObject :=
  { value := some PyList_New
    tag := none
    anchor := none
    style := seq_none }

/-- The function `PySyckMap_new`; the source stores the enumerator `seq_none` in the style field
of the map. -/
def PySyckMap_new : PySyckMapObject :=
  { value := some PyDict_New
    tag := none
    anchor := none
    style := seq_none }

/-- The function `PySyckNode_getvalue`: `none` is the crash on a `NULL` value field. -/
def PySyckNode_getvalue (self : PySyckNodeObject) : Option PyObject := self.value

/-- The function `PySyckNode_gettag`. -/
def PySyckNode_gettag (self : PySyckNodeObject) : PyObject :=
  match self.tag with
  | some tag => tag
  | none => .PyNone

/-- The function `PySyckNode_getanchor`. -/
def PySyckNode_getanchor (self : PySyckNodeObject) : PyObject :=
  match self.anchor with
  | some anchor => anchor
  | none => .PyNone

/-- The function `PySyckScalar_getstyle`. -/
def PySyckScalar_getstyle (self : PySyckScalarObject) : PyObject :=
  if self.style = scalar_1quote then PySyck_1QuoteStyle
  else if self.style = scalar_2quote then PySyck_2QuoteStyle
  else if self.style = scalar_fold then PySyck_FoldStyle
  else if self.style = scalar_literal then PySyck_LiteralStyle
  else if self.style = scalar_plain then PySyck_PlainStyle
  else .PyNone

/-- The function `PySyckScalar_getindent`. -/
def PySyckScalar_getindent (self : PySyckScalarObject) : PyObject := .PyInt self.indent

/-- The function `PySyckScalar_getwidth`. -/
def PySyckScalar_getwidth (self : PySyckScalarObject) : PyObject := .PyInt self.width

/-- The function `PySyckScalar_getchomp`. -/
def PySyckScalar_getchomp (self : PySyckScalarObject) : PyObject :=
  if self.chomp = NL_CHOMP then PySyck_StripChomp
  else if self.chomp = NL_KEEP then PySyck_KeepChomp
  else .PyNone

/-- The function `PySyckSeq_getinline`. -/
def PySyckSeq_getinline (self : PySyckSeqObject) : PyObject :=
  if self.style = seq_inline then .PyBool true else .PyBool false

/-- The function `PySyckMap_getinline`. -/
def PySyckMap_getinline (self : PySyckMapObject) : PyObject :=
  if self.style = map_inline then .PyBool true else .PyBool false

/-! Setters and `tp_init`

A setter receives the object and the assigned value (`none` is `NULL`, a request to delete the
attribute) and returns the object after the call together with the outcome: `none` is the
result `0`, `some e` is the result `-1` with the exception `e` set. -/

/-- The function `PySyckNode_settag`. -/
def PySyckNode_settag (self : PySyckNodeObject) (value : Option PyObject) :
    PySyckNodeObject × Option PyErr :=
  match value with
  | none => (self, some (.TypeError "cannot delete 'tag'"))
  | some value =>
    if value = .PyNone then ({ self with tag := none }, none)
    else if !PyString_Check value then (self, some (.TypeError "'tag' must be a string"))
    else ({ self with tag := some value }, none)

/-- The function `PySyckNode_setanchor`. -/
def PySyckNode_setanchor (self : PySyckNodeObject) (value : Option PyObject) :
    PySyckNodeObject × Option PyErr :=
  match value with
  | none => (self, some (.TypeError "cannot delete 'anchor'"))
  | some value =>
    if value = .PyNone then ({ self with anchor := none }, none)
    else if !PyString_Check value then (self, some (.TypeError "'anchor' must be a string"))
    else ({ self with anchor := some value }, none)

/-- The function `PySyckScalar_setvalue`. -/
def PySyckScalar_setvalue (self : PySyckScalarObject) (value : Option PyObject) :
    PySyckScalarObject × Option PyErr :=
  match value with
  | none => (self, some (.TypeError "cannot delete 'value'"))
  | some value =>
    if !PyString_Check value then (self, some (.TypeError "'value' must be a string"))
    else ({ self with value := some value }, none)

/-- The function `PySyckScalar_setstyle`. -/
def PySyckScalar_setstyle (self : PySyckScalarObject) (value : Option PyObject) :
    PySyckScalarObject × Option PyErr :=
  match value with
  | none => (self, some (.TypeError "cannot delete 'style'"))
  | some value =>
    if value = .PyNone then ({ self with style := scalar_none }, none)
    else if !PyString_Check value then
      (self, some (.TypeError "'style' must be a string or None"))
    else
      let str := PyString_AsString value
      if strcmp_eq str (cstr "1quote") then ({ self with style := scalar_1quote }, none)
      else if strcmp_eq str (cstr "2quote") then ({ self with style := scalar_2quote }, none)
      else if strcmp_eq str (cstr "fold") then ({ self with style := scalar_fold }, none)
      else if strcmp_eq str (cstr "literal") then ({ self with style := scalar_literal }, none)
      else if strcmp_eq str (cstr "plain") then ({ self with style := scalar_plain }, none)
      else (self, some (.TypeError "unknown 'style'"))

/-- The function `PySyckScalar_setindent`. -/
def PySyckScalar_setindent (self : PySyckScalarObject) (value : Option PyObject) :
    PySyckScalarObject × Option PyErr :=
  match value with
  | none => (self, some (.TypeError "cannot delete 'indent'"))
  | some value =>
    if !PyInt_Check value then (self, some (.TypeError "'indent' must be an integer"))
    else ({ self with indent := long_to_int (PyInt_AS_LONG value) }, none)

/-- The function `PySyckScalar_setwidth`. -/
def PySyckScalar_setwidth (self : PySyckScalarObject) (value : Option PyObject) :
    PySyckScalarObject × Option PyErr :=
  match value with
  | none => (self, some (.TypeError "cannot delete 'width'"))
  | some value =>
    if !PyInt_Check value then (self, some (.TypeError "'width' must be an integer"))
    else ({ self with width := long_to_int (PyInt_AS_LONG value) }, none)

/-- The function `PySyckScalar_setchomp`. -/
def PySyckScalar_setchomp (self : PySyckScalarObject) (value : Option PyObject) :
    PySyckScalarObject × Option PyErr :=
  match value with
  | none => (self, some (.TypeError "cannot delete 'chomp'"))
  | some value =>
    if value = .PyNone then ({ self with chomp := 0 }, none)
    else if !PyString_Check value then
      (self, some (.TypeError "'chomp' must be '+', '-', or None"))
    else
      let str := PyString_AsString value
      if strcmp_eq str (cstr "-") then ({ self with chomp := int_to_char NL_CHOMP }, none)
      else if strcmp_eq str (cstr "+") then ({ self with chomp := int_to_char NL_KEEP }, none)
      else (self, some (.TypeError "'chomp' must be '+', '-', or None"))

/-- The function `PySyckScalar_init` after `PyArg_ParseTupleAndKeywords` has succeeded; an
argument that was not supplied is `NULL`. -/
def PySyckScalar_init (self : PySyckScalarObject)
    (value tag anchor style indent width chomp : Option PyObject) :
    PySyckScalarObject × Option PyErr :=
  let r := if value.isSome then PySyckScalar_setvalue self value else (self, none)
  if r.2.isSome then r else
  let self := r.1
  let n := if tag.isSome then PySyckNode_settag self.toPySyckNodeObject tag
    else (self.toPySyckNodeObject, none)
  if n.2.isSome then ({ self with toPySyckNodeObject := n.1 }, n.2) else
  let self := { self with toPySyckNodeObject := n.1 }
  let n := if anchor.isSome then PySyckNode_setanchor self.toPySyckNodeObject anchor
    else (self.toPySyckNodeObject, none)
  if n.2.isSome then ({ self with toPySyckNodeObject := n.1 }, n.2) else
  let self := { self with toPySyckNodeObject := n.1 }
  let r := if style.isSome then PySyckScalar_setstyle self style else (self, none)
  if r.2.isSome then r else
  let self := r.1
  let r := if indent.isSome then PySyckScalar_setindent self indent else (self, none)
  if r.2.isSome then r else
  let self := r.1
  let r := if width.isSome then PySyckScalar_setwidth self width else (self, none)
  if r.2.isSome then r else
  let self := r.1
  if chomp.isSome then PySyckScalar_setchomp self chomp else (self, none)

/-- The function `PySyckSeq_setvalue`. -/
def PySyckSeq_setvalue (self : PySyckSeqObject) (value : Option PyObject) :
    PySyckSeqObject × Option PyErr :=
  match value with
  | none => (self, some (.TypeError "cannot delete 'value'"))
  | some value =>
    if !PySequence_Check value then (self, some (.TypeError "'value' must be a sequence"))
    else ({ self with value := some value }, none)

/-- The function `PySyckSeq_setinline`. -/
def PySyckSeq_setinline (self : PySyckSeqObject) (value : Option PyObject) :
    PySyckSeqObject × Option PyErr :=
  match value with
  | none => (self, some (.TypeError "cannot delete 'inline'"))
  | some value =>
    if !PyInt_Check value then (self, some (.TypeError "'inline' must be a Boolean object"))
    else ({ self with style := if PyInt_AS_LONG value ≠ 0 then seq_inline else seq_none }, none)

/-- The function `PySyckSeq_init` after `PyArg_ParseTupleAndKeywords` has succeeded; an argument
that was not supplied is `NULL`. -/
def PySyckSeq_init (self : PySyckSeqObject) (value tag anchor inline_ : Option PyObject) :
    PySyckSeqObject × Option PyErr :=
  let r := if value.isSome then PySyckSeq_setvalue self value else (self, none)
  if r.2.isSome then r else
  let self := r.1
  let n := if tag.isSome then PySyckNode_settag self.toPySyckNodeObject tag
    else (self.toPySyckNodeObject, none)
  if n.2.isSome then ({ self with toPySyckNodeObject := n.1 }, n.2) else
  let self := { self with toPySyckNodeObject := n.1 }
  let n := if anchor.isSome then PySyckNode_setanchor self.toPySyckNodeObject anchor
    else (self.toPySyckNodeObject, none)
  if n.2.isSome then ({ self with toPySyckNodeObject := n.1 }, n.2) else
  let self := { self with toPySyckNodeObject := n.1 }
  if inline_.isSome then PySyckSeq_setinline self inline_ else (self, none)

/-- The function `PySyckMap_setvalue`. -/
def PySyckMap_setvalue (self : PySyckMapObject) (value : Option PyObject) :
    PySyckMapObject × Option PyErr :=
  match value with
  | none => (self, some (.TypeError "cannot delete 'value'"))
  | some value =>
    if !PyMapping_Check value then (self, some (.TypeError "'value' must be a mapping"))
    else ({ self with value := some value }, none)

/-- The function `PySyckMap_setinline`. -/
def PySyckMap_setinline (self : PySyckMapObject) (value : Option PyObject) :
    PySyckMapObject × Option PyErr :=
  match value with
  | none => (self, some (.TypeError "cannot delete 'inline'"))
  | some value =>
    if !PyInt_Check value then (self, some (.TypeError "'inline' must be a Boolean object"))
    else ({ self with style := if PyInt_AS_LONG value ≠ 0 then map_inline else map_none }, none)

/-- The function `PySyckMap_init` after `PyArg_ParseTupleAndKeywords` has succeeded; an argument
that was not supplied is `NULL`. -/
def PySyckMap_init (self : PySyckMapObject) (value tag anchor inline_ : Option PyObject) :
    PySyckMapObject × Option PyErr :=
  let r := if value.isSome then PySyckMap_setvalue self value else (self, none)
  if r.2.isSome then r else
  let self := r.1
  let n := if tag.isSome then PySyckNode_settag self.toPySyckNodeObject tag
    else (self.toPySyckNodeObject, none)
  if n.2.isSome then ({ self with toPySyckNodeObject := n.1 }, n.2) else
  let self := { self with toPySyckNodeObject := n.1 }
  let n := if anchor.isSome then PySyckNode_setanchor self.toPySyckNodeObject anchor
    else (self.toPySyckNodeObject, none)
  if n.2.isSome then ({ self with toPySyckNodeObject := n.1 }, n.2) else
  let self := { self with toPySyckNodeObject := n.1 }
  if inline_.isSome then PySyckMap_setinline self inline_ else (self, none)

/-- The call `Scalar()` without arguments: `tp_new`, then `tp_init` with every argument `NULL`. -/
def Scalar_call : PySyckScalarObject × Option PyErr :=
  PySyckScalar_init PySyckScalar_new none none none none none none none

/-- The call `Seq()` without arguments: `tp_new`, then `tp_init` with every argument `NULL`. -/
def Seq_call : PySyckSeqObject × Option PyErr :=
  PySyckSeq_init PySyckSeq_new none none none none

/-- The call `Map()` without arguments: `tp_new`, then `tp_init` with every argument `NULL`. -/
def Map_call : PySyckMapObject × Option PyErr :=
  PySyckMap_init PySyckMap_new none none none none

/-! The parser and its node handler -/

/-- The fields of the scanner's `SyckParser` that the module reads. -/
structure SyckParser where
  linect : Int
  lineptr : Int
  cursor : Int
  eof : Int
  deriving DecidableEq, Repr

/-- The struct `PySyckParserObject`. -/
structure PySyckParserObject where
  source : Option PyObject
  implicit_typing : Int
  taguri_expansion : Int
  symbols : Option PyObject
  parser : Option SyckParser
  parsing : Int
  halt : Int
  deriving DecidableEq, Repr

/-- The kind of a scanner event with the member of the `data` union that belongs to it:
`str` is the byte range `ptr[0 .. len-1]`, `list` the child indices `items[0 .. idx-1]`, `pairs`
the index pairs `(keys[k], values[k])` for `k` in `0 .. idx-1`. -/
inductive SyckNodeData where
  | syck_str_kind (str : List Nat)
  | syck_seq_kind (list : List Nat)
  | syck_map_kind (pairs : List (Nat × Nat))
  deriving DecidableEq, Repr

/-- The fields of the scanner's `SyckNode` that the node handler reads. -/
structure SyckNode where
  data : SyckNodeData
  type_id : Option (List Nat)
  anchor : Option (List Nat)
  deriving DecidableEq, Repr

/-- The loop of the `syck_seq_kind` case over the remaining child indices, on the list held in
`object->value`; `none` is `goto error`. -/
def node_handler_seq_loop (symbols : PyObject) : List Nat → PyObject → Option PyObject
  | [], object_value => some object_value
  | index :: rest, object_value =>
    match PyList_GetItem symbols index with
    | none => none
    | some value =>
      match PyList_Append object_value value with
      | none => none
      | some object_value' => node_handler_seq_loop symbols rest object_value'

/-- The loop of the `syck_map_kind` case over the remaining index pairs, on the dict held in
`object->value`; `none` is `goto error`. -/
def node_handler_map_loop (symbols : PyObject) : List (Nat × Nat) → PyObject → Option PyObject
  | [], object_value => some object_value
  | (key_index, value_index) :: rest, object_value =>
    match PyList_GetItem symbols key_index with
    | none => none
    | some key =>
      match PyList_GetItem symbols value_index with
      | none => none
      | some value =>
        match PyDict_SetItem object_value key value with
        | none => none
        | some object_value' => node_handler_map_loop symbols rest object_value'

/-- The `switch (node->kind)` of `PySyckParser_node_handler`; `none` is `goto error`. -/
def node_handler_switch (symbols : PyObject) (node : SyckNode) : Option PySyckObject :=
  match node.data with
  | .syck_str_kind str =>
    let object := PySyckObject.Scalar PySyckScalar_new
    let value := PyString_FromStringAndSize str
    some (object.set_value (some value))
  | .syck_seq_kind list =>
    let object := PySyckObject.Seq PySyckSeq_new
    match object.node.value with
    | none => none
    | some object_value =>
      match node_handler_seq_loop symbols list object_value with
      | none => none
      | some object_value' => some (object.set_value (some object_value'))
  | .syck_map_kind pairs =>
    let object := PySyckObject.Map PySyckMap_new
    match object.node.value with
    | none => none
    | some object_value =>
      match node_handler_map_loop symbols pairs object_value with
      | none => none
      | some object_value' => some (object.set_value (some object_value'))

/-- The two `if` statements of `PySyckParser_node_handler` that attach the tag and the anchor. -/
def node_handler_attach (object : PySyckObject) (node : SyckNode) : PySyckObject :=
  let object :=
    match node.type_id with
    | some type_id => object.set_tag (some (PyString_FromString type_id))
    | none => object
  match node.anchor with
  | some anchor => object.set_anchor (some (PyString_FromString anchor))
  | none => object

/-- The function `PySyckParser_node_handler`.  The result is the heap, the parser object and the
returned `SYMID`; `none` is the crash on a `NULL` symbol table.  The label `error:` releases the
object under construction, which therefore never reaches the heap, sets `halt` and returns
`-1`. -/
def PySyckParser_node_handler (heap : Heap) (self : PySyckParserObject) (node : SyckNode) :
    Option (Heap × PySyckParserObject × Int) :=
  if self.halt ≠ 0 then
    some (heap, self, -1)
  else
    match self.symbols with
    | none => none
    | some symbols =>
      match node_handler_switch symbols node with
      | none => some (heap, { self with halt := 1 }, -1)
      | some object =>
        let object := node_handler_attach object node
        match PyList_Append symbols heap.length with
        | none => some (heap, { self with halt := 1 }, -1)
        | some symbols' =>
          some (heap ++ [object], { self with symbols := some symbols' },
            PyList_GET_SIZE symbols' - 1)

/-- The scanner calls the node handler once for each completed node of a document, children
before their parent; the run collects the returned `SYMID`s in call order. -/
def node_handler_run (heap : Heap) (self : PySyckParserObject) :
    List SyckNode → Option (Heap × PySyckParserObject × List Int)
  | [] => some (heap, self, [])
  | node :: rest =>
    match PySyckParser_node_handler heap self node with
    | none => none
    | some (heap', self', index) =>
      match node_handler_run heap' self' rest with
      | none => none
      | some (heap'', self'', indices) => some (heap'', self'', index :: indices)

/-! Properties used in the statements -/

/-- Some child, key or value index of the event is not an index of a table of length `len`. -/
def has_invalid_index (len : Nat) : SyckNodeData → Prop
  | .syck_str_kind _ => False
  | .syck_seq_kind list => ∃ i ∈ list, len ≤ i
  | .syck_map_kind pairs => ∃ kv ∈ pairs, len ≤ kv.1 ∨ len ≤ kv.2

/-- The dict `value` holds a pair for every position of `pairs`, resolved through `symbols`, and
has exactly as many entries as there are positions. -/
def holds_every_pair (symbols : PyObject) (pairs : List (Nat × Nat)) (value : PyObject) : Prop :=
  PyDict_Size value = pairs.length ∧
  ∀ kv ∈ pairs, ∃ key item, PyList_GetItem symbols kv.1 = some key ∧
    PyList_GetItem symbols kv.2 = some item ∧ PyDict_GetItem value key = some item

/-! Concrete states for the worked examples -/

/-- A parser inside `parse()`: not halted, with an empty symbol table. -/
def parser_start : PySyckParserObject :=
  { source := some (.PyString (cstr "- a\n- b\n"))
    implicit_typing := 1
    taguri_expansion := 1
    symbols := some PyList_New
    parser := some { linect := 0, lineptr := 0, cursor := 0, eof := 0 }
    parsing := 1
    halt := 0 }

/-- The scalar event `"a"` with tag `"t"` and anchor `"x"`. -/
def event_a : SyckNode :=
  { data := .syck_str_kind (cstr "a"), type_id := some (cstr "t"), anchor := some (cstr "x") }

/-- The scalar event `"b"` without tag and anchor. -/
def event_b : SyckNode :=
  { data := .syck_str_kind (cstr "b"), type_id := none, anchor := none }

/-- The Scalar node built from `event_a`. -/
def scalar_a : PySyckScalarObject :=
  { PySyckScalar_new with
    value := some (.PyString (cstr "a"))
    tag := some (.PyString (cstr "t"))
    anchor := some (.PyString (cstr "x")) }

/-- The Scalar node built from `event_b`. -/
def scalar_b : PySyckScalarObject :=
  { PySyckScalar_new with value := some (.PyString (cstr "b")) }

/-- The heap after `event_a` and `event_b` on an empty heap. -/
def heap_ab : Heap := [.Scalar scalar_a, .Scalar scalar_b]

/-- The parser after `event_a` and `event_b` from `parser_start`. -/
def parser_ab : PySyckParserObject := { parser_start with symbols := some (.PyList [0, 1]) }

/-- A halted parser. -/
def parser_halted : PySyckParserObject := { parser_ab with halt := 1 }

/-! Sequences of calls on a node -/

/-- A call on a Scalar from Python code: an assignment to one of its attributes (`none` is a
request to delete it) or a call of `__init__` with the arguments that were supplied. -/
inductive ScalarCall where
  | setvalue (value : Option PyObject)
  | settag (value : Option PyObject)
  | setanchor (value : Option PyObject)
  | setstyle (value : Option PyObject)
  | setindent (value : Option PyObject)
  | setwidth (value : Option PyObject)
  | setchomp (value : Option PyObject)
  | init (value tag anchor style indent width chomp : Option PyObject)
  deriving DecidableEq, Repr

/-- The Scalar after one call and the outcome of the call. -/
def ScalarCall.run (self : PySyckScalarObject) : ScalarCall → PySyckScalarObject × Option PyErr
  | .setvalue value => PySyckScalar_setvalue self value
  | .settag value =>
    let r := PySyckNode_settag self.toPySyckNodeObject value
    ({ self with toPySyckNodeObject := r.1 }, r.2)
  | .setanchor value =>
    let r := PySyckNode_setanchor self.toPySyckNodeObject value
    ({ self with toPySyckNodeObject := r.1 }, r.2)
  | .setstyle value => PySyckScalar_setstyle self value
  | .setindent value => PySyckScalar_setindent self value
  | .setwidth value => PySyckScalar_setwidth self value
  | .setchomp value => PySyckScalar_setchomp self value
  | .init value tag anchor style indent width chomp =>
    PySyckScalar_init self value tag anchor style indent width chomp

/-- The Scalar after a sequence of calls, whatever their outcomes. -/
def Scalar_after (self : PySyckScalarObject) (calls : List ScalarCall) : PySyckScalarObject :=
  calls.foldl (fun self call => (call.run self).1) self

/-- An assignment to `tag` or to `anchor` of a node of any type (`none` is a request to delete
the attribute). -/
inductive NodeCall where
  | settag (value : Option PyObject)
  | setanchor (value : Option PyObject)
  deriving DecidableEq, Repr

/-- The common fields of the node after one assignment and the outcome of the assignment. -/
def NodeCall.run (self : PySyckNodeObject) : NodeCall → PySyckNodeObject × Option PyErr
  | .settag value => PySyckNode_settag self value
  | .setanchor value => PySyckNode_setanchor self value

/-- The common fields of a node after a sequence of assignments to `tag` and `anchor`. -/
def Node_after (self : PySyckNodeObject) (calls : List NodeCall) : PySyckNodeObject :=
  calls.foldl (fun self call => (call.run self).1) self

/-- The Seq after a sequence of assignments to `value`. -/
def Seq_after (self : PySyckSeqObject) (values : List (Option PyObject)) : PySyckSeqObject :=
  values.foldl (fun self value => (PySyckSeq_setvalue self value).1) self

/-- The Map after a sequence of assignments to `value`. -/
def Map_after (self : PySyckMapObject) (values : List (Option PyObject)) : PySyckMapObject :=
  values.foldl (fun self value => (PySyckMap_setvalue self value).1) self

/-- The object has the method `append` and ordered iteration: among the values of the
embedding, a list. -/
def supports_append (op : PyObject) : Bool :=
  match op with
  | .PyList _ => true
  | _ => false

/-- The five style names that the documentation of the attribute `style` lists. -/
def style_names : List (List Nat) :=
  [cstr "1quote", cstr "2quote", cstr "fold", cstr "literal", cstr "plain"]

/-- The two chomp names that the documentation of the attribute `chomp` lists. -/
def chomp_names : List (List Nat) := [cstr "-", cstr "+"]

/-! The error handler, the read handler and `parse` -/

/-- The function `PySyckParser_error_handler`: `parser` is the scanner's struct at the time of
the call and `self` the object in `parser->bonus`.  The result is the parser object and the
exception the call raises, if any. -/
def PySyckParser_error_handler (parser : SyckParser) (self : PySyckParserObject)
    (str : List Nat) : PySyckParserObject × Option PyErr :=
  if self.halt ≠ 0 then (self, none)
  else
    ({ self with halt := 1 },
      some (.PySyck_Error str parser.linect (parser.cursor - parser.lineptr)))

/-- What the call `self->source.read(n)` gives back: an exception, or an object. -/
inductive ReadResult where
  | raised (e : PyErr)
  | returned (value : PyObject)
  deriving DecidableEq, Repr

/-- The call `PyString_CheckExact(op)`. -/
def PyString_CheckExact (op : PyObject) : Bool :=
  match op with
  | .PyString _ => true
  | _ => false

/-- The call `PyString_AS_STRING(op)`: all bytes of the string. -/
def PyString_AS_STRING (op : PyObject) : List Nat :=
  match op with
  | .PyString ob_sval => ob_sval
  | _ => []

/-- The call `PyString_GET_SIZE(op)`. -/
def PyString_GET_SIZE (op : PyObject) : Int :=
  match op with
  | .PyString ob_sval => ob_sval.length
  | _ => 0

/-- The call `memcpy(buf + skip, str, length)` on a buffer given by its byte at each offset.
For a negative `length`, which C converts to a `size_t` beyond every buffer so that the call is
undefined, nothing is copied. -/
def memcpy (buf : Int → Nat) (skip : Int) (str : List Nat) (length : Int) : Int → Nat :=
  fun p => if skip ≤ p ∧ p < skip + length then str.getD (p - skip).toNat 0 else buf p

/-- The function `PySyckParser_read_handler`: `buf` is the scanner's buffer, given by its byte
at each offset, `self` the object in `file->ptr`, and `read n` what `self->source.read(n)`
gives back.  The result is the buffer, the parser object, the returned length, the exception
the call raises, if any, and the arguments of the calls of `read` that were made, in order.
The variable `length` is an `int`: the size of the string, and later its sum with `skip`, are
converted to 32 bits when they are stored in it.  The requested size fits the `int` that the
format `(i)` takes. -/
def PySyckParser_read_handler (buf : Int → Nat) (self : PySyckParserObject)
    (max_size skip : Int) (read : Int → ReadResult) :
    (Int → Nat) × PySyckParserObject × Int × Option PyErr × List Int :=
  let buf := Function.update buf skip 0
  if self.halt ≠ 0 then (buf, self, skip, none, [])
  else
    let max_size := max_size - skip
    match self.source with
    | none =>
      (buf, { self with halt := 1 }, skip,
        some (.SystemError "null argument to internal routine"), [])
    | some _ =>
      match read max_size with
      | .raised e => (buf, { self with halt := 1 }, skip, some e, [max_size])
      | .returned value =>
        if !PyString_CheckExact value then
          (buf, { self with halt := 1 }, skip,
            some (.TypeError "file-like object should return a string"), [max_size])
        else
          let str := PyString_AS_STRING value
          let length := long_to_int (PyString_GET_SIZE value)
          if length = 0 then (buf, self, skip, none, [max_size])
          else if length > max_size then
            (buf, { self with halt := 1 }, skip,
              some (.ValueError "read returns an overly long string"), [max_size])
          else
            let buf := memcpy buf skip str length
            let length := long_to_int (length + skip)
            let buf := Function.update buf length 0
            (buf, self, length, none, [max_size])

/-- A call of the scanner into the module during `syck_parse`: of the node handler with a
completed node, of the error handler with the scanner's struct and a message, or of the read
handler with the scanner's buffer, the two sizes and the behaviour of the source. -/
inductive ScannerCall where
  | handler (node : SyckNode)
  | error_handler (parser : SyckParser) (str : List Nat)
  | read_handler (buf : Int → Nat) (max_size skip : Int) (read : Int → ReadResult)

/-- The effect of one call of the scanner: the heap, the parser object, the exception the call
leaves in the error indicator, if any, and the `SYMID` the scanner receives from the node
handler, if that was called.  A node handler that fails on a parser that was not halted does so
because `PyList_GetItem` raised `IndexError`. -/
def scanner_call (heap : Heap) (self : PySyckParserObject) :
    ScannerCall → Option (Heap × PySyckParserObject × Option PyErr × Option Int)
  | .handler node =>
    match PySyckParser_node_handler heap self node with
    | none => none
    | some (heap', self', index) =>
      some (heap', self',
        if self.halt = 0 ∧ index = -1 then some (.IndexError "list index out of range") else none,
        some index)
  | .error_handler parser str =>
    let r := PySyckParser_error_handler parser self str
    some (heap, r.1, r.2, none)
  | .read_handler buf max_size skip read =>
    let r := PySyckParser_read_handler buf self max_size skip read
    some (heap, r.2.1, r.2.2.2.1, none)

/-- The calls of the scanner in order.  `err` is the error indicator, which a call that raises
overwrites, and `ids` collects the `SYMID`s that the node handler returned. -/
def scanner_calls (heap : Heap) (self : PySyckParserObject) (err : Option PyErr)
    (ids : List Int) :
    List ScannerCall → Option (Heap × PySyckParserObject × Option PyErr × List Int)
  | [] => some (heap, self, err, ids)
  | call :: rest =>
    match scanner_call heap self call with
    | none => none
    | some (heap', self', raised, id) =>
      scanner_calls heap' self' (if raised.isSome then raised else err)
        (match id with
          | some index => ids ++ [index]
          | none => ids)
        rest

/-- What the scanner does during one `syck_parse`: the calls it makes into the module, its
struct when it returns (with the flag `eof`), and the `SYMID` it returns. -/
structure ScannerRun where
  calls : List ScannerCall
  parser : SyckParser
  root : Nat

/-- The call `syck_parse(self->parser)` of the Syck library, which is outside the repository:
what the scanner does during the call is the parameter `run`, any sequence of calls of the
three callbacks followed by any returned index.  The result is the heap, the parser object, the
error indicator, the `SYMID`s the node handler returned and the `SYMID` the scanner returns;
`none` is the crash on a `NULL` scanner handle. -/
def syck_parse (heap : Heap) (self : PySyckParserObject) (run : ScannerRun) :
    Option (Heap × PySyckParserObject × Option PyErr × List Int × Nat) :=
  match self.parser with
  | none => none
  | some _ =>
    match scanner_calls heap self none [] run.calls with
    | none => none
    | some (heap', self', err, ids) =>
      some (heap', { self' with parser := some run.parser }, err, ids, run.root)

/-- The value a method returns to the interpreter: `NULL` (an exception is raised), `Py_None`,
or a node object. -/
inductive PyReturn where
  | NULL
  | Py_None
  | object (value : Addr)
  deriving DecidableEq, Repr

/-- The function `PySyckParser_parse`, with what the scanner does during this call.  The result
is the heap, the parser object, the returned value and the error indicator; `none` is a crash
on a `NULL` pointer. -/
def PySyckParser_parse (heap : Heap) (self : PySyckParserObject) (run : ScannerRun) :
    Option (Heap × PySyckParserObject × PyReturn × Option PyErr) :=
  if self.parsing ≠ 0 then
    some (heap, self, .NULL,
      some (.RuntimeError "do not call Parser.parse while it is already parsing"))
  else if self.halt ≠ 0 then
    some (heap, self, .Py_None, none)
  else
    let self : PySyckParserObject := { self with symbols := some PyList_New }
    let self : PySyckParserObject := { self with parsing := 1 }
    match syck_parse heap self run with
    | none => none
    | some (heap, self, err, _, index) =>
      let self : PySyckParserObject := { self with parsing := 0 }
      if self.halt ≠ 0 then
        match self.symbols with
        | none => none
        | some _ => some (heap, { self with symbols := none }, .NULL, err)
      else
        match self.parser with
        | none => none
        | some parser =>
          if parser.eof ≠ 0 then
            match self.symbols with
            | none => none
            | some _ => some (heap, { self with symbols := none, halt := 1 }, .Py_None, err)
          else
            match self.symbols with
            | none => none
            | some symbols =>
              match PyList_GetItem symbols index with
              | none =>
                some (heap, { self with symbols := none }, .NULL,
                  some (.IndexError "list index out of range"))
              | some value => some (heap, { self with symbols := none }, .object value, err)

/-- Successive calls of `parse` on one parser, each with what the scanner does during it; the
returned values are collected in call order. -/
def parse_calls (heap : Heap) (self : PySyckParserObject) :
    List ScannerRun → Option (Heap × PySyckParserObject × List PyReturn)
  | [] => some (heap, self, [])
  | run :: rest =>
    match PySyckParser_parse heap self run with
    | none => none
    | some (heap', self', value, _) =>
      match parse_calls heap' self' rest with
      | none => none
      | some (heap'', self'', values) => some (heap'', self'', value :: values)

/-- A constructed and initialised parser outside `parse()`: not halted, no symbol table. -/
def parser_idle : PySyckParserObject :=
  { parser_start with symbols := none, parsing := 0 }

/-- The scanner reports the first of three nodes and then a syntax error on line 1, column 2
of that line. -/
def run_error_after_first : ScannerRun :=
  { calls := [.handler event_a,
      .error_handler { linect := 1, lineptr := 4, cursor := 6, eof := 0 } (cstr "syntax error")]
    parser := { linect := 1, lineptr := 4, cursor := 6, eof := 0 }
    root := 0 }

/-- The scanner reports the two scalars and the sequence of both, which is the root. -/
def run_document : ScannerRun :=
  { calls := [.handler event_a, .handler event_b,
      .handler { data := .syck_seq_kind [0, 1], type_id := none, anchor := none }]
    parser := { linect := 2, lineptr := 4, cursor := 8, eof := 0 }
    root := 2 }

/-! The life cycle of the parser object -/

/-- The function `PySyckParser_geteof`. -/
def PySyckParser_geteof (self : PySyckParserObject) : PyObject :=
  if self.halt ≠ 0 then .PyBool true else .PyBool false

/-- The function `PySyckParser_new`. -/
def PySyckParser_new : PySyckParserObject :=
  { source := none
    implicit_typing := 0
    taguri_expansion := 0
    symbols := none
    parser := none
    parsing := 0
    halt := 1 }

/-- The function `PySyckParser_clear`, which returns 0: the scanner is freed and the three
pointers are set to `NULL`. -/
def PySyckParser_clear (self : PySyckParserObject) : PySyckParserObject :=
  let self : PySyckParserObject := { self with parser := none }
  let self : PySyckParserObject := { self with source := none }
  { self with symbols := none }

/-- The function `PySyckParser_init`.  `args` is what `PyArg_ParseTupleAndKeywords` gives for
the format `O|ii`: its exception, or the source with the two flags (1 when not supplied).
`fresh` is the struct that `syck_new_parser()` of the Syck library returns. -/
def PySyckParser_init (self : PySyckParserObject) (args : Except PyErr (PyObject × Int × Int))
    (fresh : SyckParser) : PySyckParserObject × Option PyErr :=
  let self := PySyckParser_clear self
  match args with
  | .error e => (self, some e)
  | .ok (source, implicit_typing, taguri_expansion) =>
    let self : PySyckParserObject := { self with source := some source }
    let self : PySyckParserObject := { self with implicit_typing := implicit_typing }
    let self : PySyckParserObject := { self with taguri_expansion := taguri_expansion }
    let self : PySyckParserObject := { self with parser := some fresh }
    let self : PySyckParserObject := { self with parsing := 0 }
    ({ self with halt := 0 }, none)

/-- The read of the source fails or gives back an object that is not a string. -/
def read_fails (result : ReadResult) : Bool :=
  match result with
  | .raised _ => true
  | .returned value => !PyString_CheckExact value

/-! Concrete states for the worked examples of the callbacks -/

/-- A parser inside `parse()` whose source is a file-like object. -/
def parser_file : PySyckParserObject := { parser_start with source := some (.PyOther 0) }

/-- A scanner buffer that holds the byte 7 at every offset. -/
def buf_sevens : Int → Nat := fun _ => 7

/-- A source whose `read` gives back the string `"ab"`. -/
def read_ab : Int → ReadResult := fun _ => .returned (.PyString (cstr "ab"))

/-- A source whose `read` gives back the empty string. -/
def read_empty : Int → ReadResult := fun _ => .returned (.PyString [])

/-- A source whose `read` gives back five bytes whatever is asked for. -/
def read_five : Int → ReadResult := fun _ => .returned (.PyString (cstr "abcde"))

/-- A string of `2 ^ 32 + 3` bytes, each the letter `a`. -/
def huge_reply : List Nat := List.replicate (2 ^ 32 + 3) 97

/-- A source whose `read` gives back the `2 ^ 32 + 3` bytes whatever is asked for. -/
def read_huge : Int → ReadResult := fun _ => .returned (.PyString huge_reply)

/-- A source whose `read` raises an exception. -/
def read_raises : Int → ReadResult := fun _ => .raised (.RuntimeError "read failed")

/-- A source whose `read` gives back the integer 3. -/
def read_int : Int → ReadResult := fun _ => .returned (.PyInt 3)

/-- The scanner reaches the end of the stream at once. -/
def run_eof : ScannerRun :=
  { calls := []
    parser := { linect := 2, lineptr := 8, cursor := 8, eof := 1 }
    root := 0 }

/-- The scanner asks the source for bytes once, and the read fails. -/
def run_read_raises : ScannerRun :=
  { calls := [.read_handler buf_sevens 8 2 read_raises]
    parser := { linect := 0, lineptr := 0, cursor := 0, eof := 0 }
    root := 0 }

/-! Clearing a node, and the operations on a parser object -/

/-- The function `PySyckNode_clear`, with the returned `int`: the three blocks in the order of
the source, each with the assignment it makes. -/
def PySyckNode_clear (self : PySyckNodeObject) : PySyckNodeObject × Int :=
  let self : PySyckNodeObject := { self with value := none }
  let self : PySyckNodeObject := { self with tag := none }
  let self : PySyckNodeObject := { self with value := none }
  (self, 0)

/-- An operation on a parser object from outside: `__init__` (with the outcome of
`PyArg_ParseTupleAndKeywords` and the struct of `syck_new_parser()`), `tp_clear`, or `parse()`
with what the scanner does during the call. -/
inductive ParserCall where
  | init (args : Except PyErr (PyObject × Int × Int)) (fresh : SyckParser)
  | clear
  | parse (run : ScannerRun)

/-- The effect of one operation on the heap and the parser object; `none` is a crash. -/
def ParserCall.run (heap : Heap) (self : PySyckParserObject) :
    ParserCall → Option (Heap × PySyckParserObject)
  | .init args fresh => some (heap, (PySyckParser_init self args fresh).1)
  | .clear => some (heap, PySyckParser_clear self)
  | .parse run =>
    match PySyckParser_parse heap self run with
    | none => none
    | some (heap', self', _, _) => some (heap', self')

/-- The heap and the parser object after a sequence of operations; `none` is a crash. -/
def Parser_after (heap : Heap) (self : PySyckParserObject) :
    List ParserCall → Option (Heap × PySyckParserObject)
  | [] => some (heap, self)
  | call :: rest =>
    match call.run heap self with
    | none => none
    | some (heap', self') => Parser_after heap' self' rest

/-- The operation is `parse()` or an `__init__` whose arguments are accepted. -/
def ParserCall.keeps_handle : ParserCall → Bool
  | .init (.ok _) _ => true
  | .init (.error _) _ => false
  | .clear => false
  | .parse _ => true

/-! The arguments of `Scalar.__init__`, field by field -/

/-- The six values of the attribute `style` that its documentation lists. -/
def style_values : List PyObject := .PyNone :: style_names.map PyObject.PyString

/-- The three values of the attribute `chomp` that its documentation lists. -/
def chomp_values : List PyObject := .PyNone :: chomp_names.map PyObject.PyString

theorem insertdict_of_not_mem (key value : Addr) :
    ∀ t : List (Addr × Addr), key ∉ t.map Prod.fst →
      insertdict key value t = t ++ [(key, value)] := by
  intro t
  induction t with
  | nil => intro _; rfl
  | cons kv rest ih =>
    intro h
    obtain ⟨k, v⟩ := kv
    simp only [List.map_cons, List.mem_cons, not_or] at h
    have hk : ¬ k = key := fun e => h.1 e.symm
    simp [insertdict, hk, ih h.2]

theorem lookdict_of_mem (key value : Addr) :
    ∀ t : List (Addr × Addr), (t.map Prod.fst).Nodup → (key, value) ∈ t →
      lookdict key t = some value := by
  intro t
  induction t with
  | nil => intro _ h; simp at h
  | cons kv rest ih =>
    intro hnd hmem
    obtain ⟨k, v⟩ := kv
    simp only [List.map_cons, List.nodup_cons] at hnd
    rcases List.mem_cons.mp hmem with h | h
    · cases h
      simp [lookdict]
    · have hk : ¬ k = key := by
        intro e
        apply hnd.1
        rw [e]
        exact List.mem_map_of_mem Prod.fst h
      simp [lookdict, hk, ih hnd.2 h]

/-! Lemmas on the loops of the node handler -/

theorem seq_loop_valid (syms : List Addr) :
    ∀ (list : List Nat) (acc : List Addr), (∀ i ∈ list, i < syms.length) →
      ∃ vals : List Addr,
        node_handler_seq_loop (.PyList syms) list (.PyList acc) = some (.PyList (acc ++ vals)) ∧
        vals.map some = list.map (fun i => syms[i]?) := by
  intro list
  induction list with
  | nil => intro acc _; exact ⟨[], by simp [node_handler_seq_loop], rfl⟩
  | cons i rest ih =>
    intro acc h
    have hi : i < syms.length := h i (List.mem_cons_self _ _)
    obtain ⟨vals, hrun, hvals⟩ :=
      ih (acc ++ [syms[i]]) (fun j hj => h j (List.mem_cons_of_mem _ hj))
    refine ⟨syms[i] :: vals, ?_, ?_⟩
    · simp [node_handler_seq_loop, PyList_GetItem, PyList_Append,
        List.getElem?_eq_getElem hi, hrun]
    · simp [hvals, List.getElem?_eq_getElem hi]

theorem seq_loop_invalid (syms : List Addr) :
    ∀ (list : List Nat) (acc : PyObject), (∃ i ∈ list, syms.length ≤ i) →
      node_handler_seq_loop (.PyList syms) list acc = none := by
  intro list
  induction list with
  | nil => intro acc h; obtain ⟨i, hi, _⟩ := h; simp at hi
  | cons j rest ih =>
    intro acc h
    unfold node_handler_seq_loop
    cases hj : PyList_GetItem (.PyList syms) j with
    | none => rfl
    | some value =>
      have hlt : j < syms.length := by
        by_contra hge
        simp [PyList_GetItem, List.getElem?_eq_none (Nat.le_of_not_lt hge)] at hj
      have hrest : ∃ i ∈ rest, syms.length ≤ i := by
        obtain ⟨i, hi, hle⟩ := h
        rcases List.mem_cons.mp hi with e | hi
        · omega
        · exact ⟨i, hi, hle⟩
      cases happ : PyList_Append acc value with
      | none => simp [happ]
      | some acc' => simpa [happ] using ih acc' hrest

theorem map_loop_valid (syms : List Addr) :
    ∀ (pairs : List (Nat × Nat)) (t : List (Addr × Addr)),
      (∀ kv ∈ pairs, kv.1 < syms.length ∧ kv.2 < syms.length) →
      ∃ entries : List (Addr × Addr),
        node_handler_map_loop (.PyList syms) pairs (.PyDict t) =
          some (.PyDict (entries.foldl (fun t e => insertdict e.1 e.2 t) t)) ∧
        entries.map (fun e => (some e.1, some e.2)) =
          pairs.map (fun kv => (syms[kv.1]?, syms[kv.2]?)) := by
  intro pairs
  induction pairs with
  | nil => intro t _; exact ⟨[], by simp [node_handler_map_loop], rfl⟩
  | cons kv rest ih =>
    intro t h
    obtain ⟨ki, vi⟩ := kv
    have hkv := h (ki, vi) (List.mem_cons_self _ _)
    have hk : ki < syms.length := hkv.1
    have hv : vi < syms.length := hkv.2
    obtain ⟨entries, hrun, hent⟩ :=
      ih (insertdict syms[ki] syms[vi] t) (fun p hp => h p (List.mem_cons_of_mem _ hp))
    refine ⟨(syms[ki], syms[vi]) :: entries, ?_, ?_⟩
    · simp [node_handler_map_loop, PyList_GetItem, PyDict_SetItem,
        List.getElem?_eq_getElem hk, List.getElem?_eq_getElem hv, hrun]
    · simp [hent, List.getElem?_eq_getElem hk, List.getElem?_eq_getElem hv]

theorem map_loop_invalid (syms : List Addr) :
    ∀ (pairs : List (Nat × Nat)) (acc : PyObject),
      (∃ kv ∈ pairs, syms.length ≤ kv.1 ∨ syms.length ≤ kv.2) →
      node_handler_map_loop (.PyList syms) pairs acc = none := by
  intro pairs
  induction pairs with
  | nil => intro acc h; obtain ⟨kv, hkv, _⟩ := h; simp at hkv
  | cons p rest ih =>
    intro acc h
    obtain ⟨ki, vi⟩ := p
    unfold node_handler_map_loop
    cases hk : PyList_GetItem (.PyList syms) ki with
    | none => rfl
    | some key =>
      have hklt : ki < syms.length := by
        by_contra hge
        simp [PyList_GetItem, List.getElem?_eq_none (Nat.le_of_not_lt hge)] at hk
      cases hv : PyList_GetItem (.PyList syms) vi with
      | none => rfl
      | some value =>
        have hvlt : vi < syms.length := by
          by_contra hge
          simp [PyList_GetItem, List.getElem?_eq_none (Nat.le_of_not_lt hge)] at hv
        have hrest : ∃ kv ∈ rest, syms.length ≤ kv.1 ∨ syms.length ≤ kv.2 := by
          obtain ⟨kv, hmem, hle⟩ := h
          rcases List.mem_cons.mp hmem with e | hmem
          · subst e
            simp only at hle
            omega
          · exact ⟨kv, hmem, hle⟩
        cases hset : PyDict_SetItem acc key value with
        | none => simp [hset]
        | some acc' => simpa [hset] using ih acc' hrest

theorem foldl_insertdict_fresh :
    ∀ (entries t : List (Addr × Addr)), ((t ++ entries).map Prod.fst).Nodup →
      entries.foldl (fun t e => insertdict e.1 e.2 t) t = t ++ entries := by
  intro entries
  induction entries with
  | nil => intro t _; simp
  | cons e rest ih =>
    intro t h
    have hfresh : e.1 ∉ t.map Prod.fst := by
      intro hmem
      rw [List.map_append, List.map_cons] at h
      have := (List.nodup_append.mp h).2.2
      exact this hmem (List.mem_cons_self _ _)
    have h' : (((t ++ [e]) ++ rest).map Prod.fst).Nodup := by
      simpa using h
    simp only [List.foldl_cons]
    rw [insertdict_of_not_mem e.1 e.2 t hfresh]
    simpa using ih (t ++ [e]) h'

/-! Unfolding the node handler -/

theorem node_handler_built (heap : Heap) (self : PySyckParserObject) (node : SyckNode)
    (syms : List Addr) (object : PySyckObject)
    (hhalt : self.halt = 0) (hsym : self.symbols = some (.PyList syms))
    (hsw : node_handler_switch (.PyList syms) node = some object) :
    PySyckParser_node_handler heap self node =
      some (heap ++ [node_handler_attach object node],
        { self with symbols := some (.PyList (syms ++ [heap.length])) }, (syms.length : Int)) := by
  simp [PySyckParser_node_handler, hhalt, hsym, hsw, PyList_Append, PyList_GET_SIZE]

theorem node_handler_failed (heap : Heap) (self : PySyckParserObject) (node : SyckNode)
    (symbols : PyObject)
    (hhalt : self.halt = 0) (hsym : self.symbols = some symbols)
    (hsw : node_handler_switch symbols node = none) :
    PySyckParser_node_handler heap self node = some (heap, { self with halt := 1 }, -1) := by
  simp [PySyckParser_node_handler, hhalt, hsym, hsw]

theorem node_handler_attach_node (object : PySyckObject) (node : SyckNode) :
    (node_handler_attach object node).node =
      { value := object.node.value
        tag := match node.type_id with
          | some type_id => some (PyString_FromString type_id)
          | none => object.node.tag
        anchor := match node.anchor with
          | some anchor => some (PyString_FromString anchor)
          | none => object.node.anchor } := by
  obtain ⟨data, type_id, anchor⟩ := node
  cases object <;> cases type_id <;> cases anchor <;> rfl

theorem node_handler_result (heap heap' : Heap) (self self' : PySyckParserObject)
    (node : SyckNode) (index : Int)
    (hres : PySyckParser_node_handler heap self node = some (heap', self', index))
    (hok : index ≠ -1) :
    self.halt = 0 ∧ ∃ (syms : List Addr) (object : PySyckObject),
      self.symbols = some (.PyList syms) ∧
      node_handler_switch (.PyList syms) node = some object ∧
      heap' = heap ++ [node_handler_attach object node] ∧
      self' = { self with symbols := some (.PyList (syms ++ [heap.length])) } ∧
      index = syms.length := by
  unfold PySyckParser_node_handler at hres
  by_cases hhalt : self.halt = 0
  · refine ⟨hhalt, ?_⟩
    rw [if_neg (not_not.mpr hhalt)] at hres
    cases hsym : self.symbols with
    | none => simp [hsym] at hres
    | some symbols =>
      simp only [hsym] at hres
      cases hsw : node_handler_switch symbols node with
      | none =>
        simp only [hsw, Option.some.injEq, Prod.mk.injEq] at hres
        exact absurd hres.2.2.symm hok
      | some object =>
        simp only [hsw] at hres
        cases symbols with
        | PyList syms =>
          simp only [PyList_Append, PyList_GET_SIZE, Option.some.injEq, Prod.mk.injEq] at hres
          refine ⟨syms, object, rfl, hsw, hres.1.symm, ?_, ?_⟩
          · rw [← hres.2.1]
          · rw [← hres.2.2]
            simp
        | _ =>
          simp only [PyList_Append, Option.some.injEq, Prod.mk.injEq] at hres
          exact absurd hres.2.2.symm hok
  · simp only [ne_eq, hhalt, not_false_eq_true, if_true, Option.some.injEq, Prod.mk.injEq] at hres
    exact absurd hres.2.2.symm hok

theorem seq_event_built (heap : Heap) (self : PySyckParserObject) (syms : List Addr)
    (list : List Nat) (type_id anchor : Option (List Nat))
    (hhalt : self.halt = 0) (hsym : self.symbols = some (.PyList syms))
    (hidx : ∀ i ∈ list, i < syms.length) :
    ∃ (o : PySyckSeqObject) (vals : List Addr),
      PySyckParser_node_handler heap self
          { data := .syck_seq_kind list, type_id := type_id, anchor := anchor } =
        some (heap ++ [.Seq o], { self with symbols := some (.PyList (syms ++ [heap.length])) },
          (syms.length : Int)) ∧
      o.value = some (.PyList vals) ∧
      vals.map some = list.map (fun i => syms[i]?) := by
  obtain ⟨vals, hrun, hvals⟩ := seq_loop_valid syms list [] hidx
  have hsw : node_handler_switch (.PyList syms)
      { data := .syck_seq_kind list, type_id := type_id, anchor := anchor } =
      some (.Seq { PySyckSeq_new with value := some (.PyList vals) }) := by
    simp only [List.nil_append] at hrun
    simp [node_handler_switch, PySyckObject.node, PySyckSeq_new, PyList_New, hrun,
      PySyckObject.set_value]
  refine ⟨{ value := some (.PyList vals), tag := type_id.map PyString_FromString,
            anchor := anchor.map PyString_FromString, style := seq_none }, vals, ?_, rfl, hvals⟩
  rw [node_handler_built heap self _ syms _ hhalt hsym hsw]
  cases type_id <;> cases anchor <;> rfl

theorem node_handler_run_halted (heap : Heap) (self : PySyckParserObject)
    (hhalt : self.halt ≠ 0) :
    ∀ nodes : List SyckNode,
      node_handler_run heap self nodes = some (heap, self, List.replicate nodes.length (-1)) := by
  intro nodes
  induction nodes with
  | nil => rfl
  | cons node rest ih =>
    simp [node_handler_run, PySyckParser_node_handler, hhalt, ih, List.replicate_succ]

theorem node_handler_run_indices :
    ∀ (nodes : List SyckNode) (heap : Heap) (self : PySyckParserObject) (syms : List Addr),
      self.symbols = some (.PyList syms) →
      ∃ (heap' : Heap) (self' : PySyckParserObject) (indices : List Int),
        node_handler_run heap self nodes = some (heap', self', indices) ∧
        indices.length = nodes.length ∧
        ∀ (k : Nat) (v : Int), indices[k]? = some v → v ≠ -1 →
          v = (syms.length + k : Nat) := by
  intro nodes
  induction nodes with
  | nil =>
    intro heap self syms _
    exact ⟨heap, self, [], rfl, rfl, by simp⟩
  | cons node rest ih =>
    intro heap self syms hsym
    have hall : ∀ (n : Nat) (k : Nat) (v : Int),
        ((-1 : Int) :: List.replicate n (-1))[k]? = some v → v ≠ -1 →
          v = (syms.length + k : Nat) := by
      intro n k v hk hv
      exfalso
      apply hv
      have hmem : v ∈ ((-1 : Int) :: List.replicate n (-1)) := List.getElem?_mem hk
      rcases List.mem_cons.mp hmem with h | h
      · exact h
      · exact (List.mem_replicate.mp h).2
    by_cases hhalt : self.halt = 0
    · cases hsw : node_handler_switch (.PyList syms) node with
      | none =>
        have hstep := node_handler_failed heap self node _ hhalt hsym hsw
        have hrest := node_handler_run_halted heap { self with halt := 1 } (by simp) rest
        refine ⟨heap, { self with halt := 1 }, -1 :: List.replicate rest.length (-1), ?_, by simp,
          hall rest.length⟩
        simp [node_handler_run, hstep, hrest]
      | some object =>
        have hstep := node_handler_built heap self node syms object hhalt hsym hsw
        obtain ⟨heap', self', indices, hrun, hlen, hidx⟩ :=
          ih (heap ++ [node_handler_attach object node])
            { self with symbols := some (.PyList (syms ++ [heap.length])) }
            (syms ++ [heap.length]) rfl
        refine ⟨heap', self', (syms.length : Int) :: indices, ?_, by simp [hlen], ?_⟩
        · simp [node_handler_run, hstep, hrun]
        · intro k v hk hv
          cases k with
          | zero => simpa using hk.symm
          | succ k =>
            have := hidx k v (by simpa using hk) hv
            rw [this]
            simp only [List.length_append, List.length_singleton]
            congr 1
            omega
    · have hrun := node_handler_run_halted heap self hhalt (node :: rest)
      refine ⟨heap, self, _, hrun, by simp, ?_⟩
      simpa [List.replicate_succ] using hall rest.length



theorem node_handler_failed_halts (heap heap' : Heap) (self self' : PySyckParserObject)
    (node : SyckNode)
    (hres : PySyckParser_node_handler heap self node = some (heap', self', -1)) :
    self'.halt ≠ 0 ∧ heap' = heap := by
  unfold PySyckParser_node_handler at hres
  by_cases hhalt : self.halt = 0
  · rw [if_neg (not_not.mpr hhalt)] at hres
    cases hsym : self.symbols with
    | none => simp [hsym] at hres
    | some symbols =>
      simp only [hsym] at hres
      cases hsw : node_handler_switch symbols node with
      | none =>
        simp only [hsw, Option.some.injEq, Prod.mk.injEq] at hres
        refine ⟨?_, hres.1.symm⟩
        rw [← hres.2.1]
        simp
      | some object =>
        simp only [hsw] at hres
        cases symbols with
        | PyList syms =>
          simp only [PyList_Append, PyList_GET_SIZE, Option.some.injEq, Prod.mk.injEq] at hres
          have h := hres.2.2
          simp only [List.length_append, List.length_singleton, Nat.cast_add, Nat.cast_one] at h
          omega
        | _ =>
          simp only [PyList_Append, Option.some.injEq, Prod.mk.injEq] at hres
          refine ⟨?_, hres.1.symm⟩
          rw [← hres.2.1]
          simp
  · simp only [ne_eq, hhalt, not_false_eq_true, if_true, Option.some.injEq, Prod.mk.injEq] at hres
    refine ⟨?_, hres.1.symm⟩
    rw [← hres.2.1]
    exact hhalt

theorem node_handler_run_failed_stays :
    ∀ (nodes : List SyckNode) (heap heap1 : Heap) (self self1 : PySyckParserObject)
      (indices : List Int),
      node_handler_run heap self nodes = some (heap1, self1, indices) →
      ∀ (j k : Nat), j ≤ k → indices[j]? = some (-1) →
        ∀ v : Int, indices[k]? = some v → v = -1 := by
  intro nodes
  induction nodes with
  | nil =>
    intro heap heap1 self self1 indices hrun j k _ hj
    simp only [node_handler_run, Option.some.injEq, Prod.mk.injEq] at hrun
    rw [← hrun.2.2] at hj
    simp at hj
  | cons node rest ih =>
    intro heap heap1 self self1 indices hrun j k hjk hj v hv
    simp only [node_handler_run] at hrun
    cases hstep : PySyckParser_node_handler heap self node with
    | none => simp [hstep] at hrun
    | some r =>
      obtain ⟨heap', self', index⟩ := r
      simp only [hstep] at hrun
      cases hrest : node_handler_run heap' self' rest with
      | none => simp [hrest] at hrun
      | some r' =>
        obtain ⟨heap'', self'', indices'⟩ := r'
        simp only [hrest, Option.some.injEq, Prod.mk.injEq] at hrun
        have hind : indices = index :: indices' := hrun.2.2.symm
        subst hind
        cases j with
        | zero =>
          have hindex : index = -1 := by simpa using hj
          subst hindex
          have hh := (node_handler_failed_halts heap heap' self self' node hstep).1
          rw [node_handler_run_halted heap' self' hh rest] at hrest
          simp only [Option.some.injEq, Prod.mk.injEq] at hrest
          have hmem : v ∈ ((-1 : Int) :: indices') := List.getElem?_mem hv
          rw [← hrest.2.2] at hmem
          rcases List.mem_cons.mp hmem with h | h
          · exact h
          · exact (List.mem_replicate.mp h).2
        | succ j =>
          cases k with
          | zero => omega
          | succ k =>
            exact ih heap' heap'' self' self'' indices' hrest j k (by omega)
              (by simpa using hj) v (by simpa using hv)



theorem node_handler_switch_fresh (symbols : PyObject) (node : SyckNode) (built : PySyckObject)
    (hsw : node_handler_switch symbols node = some built) :
    built.node.tag = none ∧ built.node.anchor = none := by
  obtain ⟨data, type_id, anchor⟩ := node
  unfold node_handler_switch at hsw
  cases data with
  | syck_str_kind str =>
    simp only [Option.some.injEq] at hsw
    rw [← hsw]
    exact ⟨rfl, rfl⟩
  | syck_seq_kind list =>
    simp only [PySyckObject.node, PySyckSeq_new] at hsw
    cases hl : node_handler_seq_loop symbols list PyList_New with
    | none => simp [hl] at hsw
    | some v =>
      simp only [hl, Option.some.injEq] at hsw
      rw [← hsw]
      exact ⟨rfl, rfl⟩
  | syck_map_kind pairs =>
    simp only [PySyckObject.node, PySyckMap_new] at hsw
    cases hl : node_handler_map_loop symbols pairs PyDict_New with
    | none => simp [hl] at hsw
    | some v =>
      simp only [hl, Option.some.injEq] at hsw
      rw [← hsw]
      exact ⟨rfl, rfl⟩

/-! Reading the end of an extended list -/

theorem getElem?_append_one {α : Type} (l : List α) (a : α) :
    (l ++ [a])[l.length]? = some a := by
  induction l with
  | nil => rfl
  | cons x rest ih => simp

theorem getElem?_append_two_fst {α : Type} (l : List α) (a b : α) :
    (l ++ [a] ++ [b])[l.length]? = some a := by
  induction l with
  | nil => rfl
  | cons x rest ih => simpa using ih

theorem getElem?_append_two_snd {α : Type} (l : List α) (a b : α) :
    (l ++ [a] ++ [b])[l.length + 1]? = some b := by
  induction l with
  | nil => rfl
  | cons x rest ih => simpa using ih

/-! The claims on the node handler and the constructors -/

/-- C1: on a non-halted parser whose symbol table is the list `syms`, a sequence event whose
child indices are all below the length of the table makes the node handler build a Seq node
whose value is the list of the table entries at those indices, in the order of the event and
of the same length (the empty list for an event without children). -/
theorem C1_seq_value_is_resolved_children (heap : Heap) (self : PySyckParserObject)
    (syms : List Addr) (list : List Nat) (type_id anchor : Option (List Nat))
    (hhalt : self.halt = 0) (hsym : self.symbols = some (.PyList syms))
    (hidx : ∀ i ∈ list, i < syms.length) :
    ∃ (o : PySyckSeqObject) (vals : List Addr),
      PySyckParser_node_handler heap self
          { data := .syck_seq_kind list, type_id := type_id, anchor := anchor } =
        some (heap ++ [.Seq o], { self with symbols := some (.PyList (syms ++ [heap.length])) },
          (syms.length : Int)) ∧
      PySyckNode_getvalue o.toPySyckNodeObject = some (.PyList vals) ∧
      vals.length = list.length ∧
      vals.map some = list.map (fun i => syms[i]?) ∧
      (list = [] → vals = []) := by
  obtain ⟨o, vals, hres, hval, hvals⟩ := seq_event_built heap self syms list type_id anchor
    hhalt hsym hidx
  have hlen : vals.length = list.length := by
    have := congrArg List.length hvals
    simpa using this
  refine ⟨o, vals, hres, hval, hlen, hvals, ?_⟩
  intro hnil
  rw [hnil] at hlen
  exact List.length_eq_zero.mp hlen

/-- C1, worked example: with the Scalars `"a"` and `"b"` at indices 0 and 1, the sequence event
`[0, 1]` yields a Seq whose value is the two Scalar nodes, `"a"` then `"b"`. -/
theorem C1_seq_value_witness :
    (heap_ab[0]? = some (.Scalar scalar_a) ∧ heap_ab[1]? = some (.Scalar scalar_b)) ∧
    ∃ (o : PySyckSeqObject) (vals : List Addr),
      PySyckParser_node_handler heap_ab parser_ab
          { data := .syck_seq_kind [0, 1], type_id := none, anchor := none } =
        some (heap_ab ++ [.Seq o],
          { parser_ab with symbols := some (.PyList ([0, 1] ++ [heap_ab.length])) },
          (([0, 1] : List Addr).length : Int)) ∧
      PySyckNode_getvalue o.toPySyckNodeObject = some (.PyList vals) ∧
      vals.length = ([0, 1] : List Nat).length ∧
      vals.map some = ([0, 1] : List Nat).map (fun i => ([0, 1] : List Addr)[i]?) ∧
      (([0, 1] : List Nat) = [] → vals = []) :=
  ⟨by decide, C1_seq_value_is_resolved_children heap_ab parser_ab [0, 1] [0, 1] none none rfl rfl
    (by decide)⟩

/-- C2: from an empty symbol table on a non-halted parser, a scalar event with tag `"t"` and
anchor `"x"` returns index 0 and a following sequence event with the single child index 0
returns index 1; the one element of the Seq's value is the address stored at index 0 of the
symbol table, and the node at that address still has tag `"t"` and anchor `"x"`.  In general
the element at each position of a built Seq's value is the address the symbol table holds at
that position's child index. -/
theorem C2_child_is_the_node_in_the_table (heap : Heap) (self : PySyckParserObject)
    (str : List Nat) (type_id anchor : Option (List Nat))
    (hhalt : self.halt = 0) (hsym : self.symbols = some (.PyList [])) :
    (∃ (heap1 heap2 : Heap) (self1 self2 : PySyckParserObject)
        (scalar : PySyckScalarObject) (seq : PySyckSeqObject),
      PySyckParser_node_handler heap self
          { data := .syck_str_kind str, type_id := some (cstr "t"), anchor := some (cstr "x") } =
        some (heap1, self1, 0) ∧
      PySyckParser_node_handler heap1 self1
          { data := .syck_seq_kind [0], type_id := type_id, anchor := anchor } =
        some (heap2, self2, 1) ∧
      self2.symbols = some (.PyList [heap.length, heap.length + 1]) ∧
      self2.symbols.bind (fun symbols => PyList_GetItem symbols 0) = some heap.length ∧
      heap2[heap.length + 1]? = some (.Seq seq) ∧
      PySyckNode_getvalue seq.toPySyckNodeObject = some (.PyList [heap.length]) ∧
      heap1[heap.length]? = some (.Scalar scalar) ∧
      heap2[heap.length]? = some (.Scalar scalar) ∧
      PySyckNode_gettag scalar.toPySyckNodeObject = .PyString (cstr "t") ∧
      PySyckNode_getanchor scalar.toPySyckNodeObject = .PyString (cstr "x")) ∧
    (∀ (heap0 heap' : Heap) (self0 self' : PySyckParserObject) (symbols : PyObject)
        (list : List Nat) (type_id0 anchor0 : Option (List Nat)) (index : Int),
      self0.symbols = some symbols →
      PySyckParser_node_handler heap0 self0
          { data := .syck_seq_kind list, type_id := type_id0, anchor := anchor0 } =
        some (heap', self', index) →
      index ≠ -1 →
      ∃ (o : PySyckSeqObject) (vals : List Addr),
        heap' = heap0 ++ [.Seq o] ∧ o.value = some (.PyList vals) ∧
        vals.length = list.length ∧
        ∀ (k : Nat) (hk : k < list.length), vals[k]? = PyList_GetItem symbols list[k]) := by
  constructor
  · have hsc : ∃ sc : PySyckScalarObject, sc = { PySyckScalar_new with
          value := some (PyObject.PyString str)
          tag := some (PyObject.PyString (cstr "t"))
          anchor := some (PyObject.PyString (cstr "x")) } := ⟨_, rfl⟩
    obtain ⟨sc, hscdef⟩ := hsc
    have hs1 : ∃ s1 : PySyckParserObject,
        s1 = { self with symbols := some (.PyList [heap.length]) } := ⟨_, rfl⟩
    obtain ⟨s1, hs1def⟩ := hs1
    have hhalt1 : s1.halt = 0 := by rw [hs1def]; exact hhalt
    have hsym1 : s1.symbols = some (.PyList [heap.length]) := by rw [hs1def]
    obtain ⟨o, vals, hres, hval, hvals⟩ :=
      seq_event_built (heap ++ [.Scalar sc]) s1 [heap.length] [0] type_id anchor
        hhalt1 hsym1 (by simp)
    have hvals' : vals = [heap.length] := by
      cases vals with
      | nil => simp at hvals
      | cons v rest =>
        cases rest with
        | nil => simpa using hvals
        | cons w rest => simp at hvals
    subst hvals'
    refine ⟨heap ++ [.Scalar sc], heap ++ [.Scalar sc] ++ [.Seq o], s1,
      { s1 with symbols := some (.PyList ([heap.length] ++
          [(heap ++ [PySyckObject.Scalar sc]).length])) },
      sc, o, ?_, ?_, ?_, ?_, ?_, ?_, ?_, ?_, ?_, ?_⟩
    · have hsw : node_handler_switch (.PyList [])
          { data := .syck_str_kind str, type_id := some (cstr "t"), anchor := some (cstr "x") } =
          some (.Scalar { PySyckScalar_new with value := some (.PyString str) }) := rfl
      rw [node_handler_built heap self _ [] _ hhalt hsym hsw, hscdef, hs1def]
      rfl
    · simpa using hres
    · simp
    · simp [PyList_GetItem]
    · exact getElem?_append_two_snd heap _ _
    · exact hval
    · exact getElem?_append_one heap _
    · exact getElem?_append_two_fst heap _ _
    · rw [hscdef]; rfl
    · rw [hscdef]; rfl
  · intro heap0 heap' self0 self' symbols list type_id0 anchor0 index hsym0 hres hok
    obtain ⟨hhalt0, syms, object, hsyms, hsw, hheap, _, _⟩ :=
      node_handler_result heap0 heap' self0 self' _ index hres hok
    rw [hsym0] at hsyms
    cases hsyms
    have hvalid : ∀ i ∈ list, i < syms.length := by
      intro i hi
      by_contra hge
      have hnone := seq_loop_invalid syms list PyList_New ⟨i, hi, Nat.le_of_not_lt hge⟩
      simp [node_handler_switch, PySyckObject.node, PySyckSeq_new, hnone] at hsw
    obtain ⟨o, vals, hres', hval, hvals⟩ :=
      seq_event_built heap0 self0 syms list type_id0 anchor0 hhalt0 hsym0 hvalid
    rw [hres] at hres'
    simp only [Option.some.injEq, Prod.mk.injEq] at hres'
    have hlen : vals.length = list.length := by
      have := congrArg List.length hvals
      simpa using this
    refine ⟨o, vals, hres'.1, hval, hlen, ?_⟩
    intro k hk
    have := congrArg (fun l => l[k]?) hvals
    simp only [List.getElem?_map] at this
    rw [List.getElem?_eq_getElem hk] at this
    simp only [Option.map_some'] at this
    simp only [PyList_GetItem]
    cases hv : vals[k]? with
    | none => simp [hv] at this
    | some v => simpa [hv] using this

/-- C2, worked example from the empty heap and the starting parser. -/
theorem C2_child_witness :
    ∃ (heap1 heap2 : Heap) (self1 self2 : PySyckParserObject)
        (scalar : PySyckScalarObject) (seq : PySyckSeqObject),
      PySyckParser_node_handler [] parser_start
          { data := .syck_str_kind (cstr "a"), type_id := some (cstr "t"),
            anchor := some (cstr "x") } =
        some (heap1, self1, 0) ∧
      PySyckParser_node_handler heap1 self1
          { data := .syck_seq_kind [0], type_id := none, anchor := none } =
        some (heap2, self2, 1) ∧
      self2.symbols = some (.PyList [0, 1]) ∧
      self2.symbols.bind (fun symbols => PyList_GetItem symbols 0) = some 0 ∧
      heap2[1]? = some (.Seq seq) ∧
      PySyckNode_getvalue seq.toPySyckNodeObject = some (.PyList [0]) ∧
      heap1[0]? = some (.Scalar scalar) ∧
      heap2[0]? = some (.Scalar scalar) ∧
      PySyckNode_gettag scalar.toPySyckNodeObject = .PyString (cstr "t") ∧
      PySyckNode_getanchor scalar.toPySyckNodeObject = .PyString (cstr "x") :=
  (C2_child_is_the_node_in_the_table [] parser_start (cstr "a") none none rfl rfl).1

/-- C3: on a non-halted parser with a symbol table, a scalar event with the byte range `str`
makes the node handler build a Scalar whose value is the string of exactly those bytes, zero
bytes included; for an empty range the value is the empty string, and in no case is the value
absent. -/
theorem C3_scalar_value_is_byte_range (heap : Heap) (self : PySyckParserObject)
    (syms : List Addr) (str : List Nat) (type_id anchor : Option (List Nat))
    (hhalt : self.halt = 0) (hsym : self.symbols = some (.PyList syms)) :
    ∃ o : PySyckScalarObject,
      PySyckParser_node_handler heap self
          { data := .syck_str_kind str, type_id := type_id, anchor := anchor } =
        some (heap ++ [.Scalar o],
          { self with symbols := some (.PyList (syms ++ [heap.length])) }, (syms.length : Int)) ∧
      PySyckNode_getvalue o.toPySyckNodeObject = some (.PyString str) ∧
      (str = [] →
        PySyckNode_getvalue o.toPySyckNodeObject = some (PyString_FromString (cstr ""))) ∧
      PySyckNode_getvalue o.toPySyckNodeObject ≠ none := by
  have hsw : node_handler_switch (.PyList syms)
      { data := .syck_str_kind str, type_id := type_id, anchor := anchor } =
      some (.Scalar { PySyckScalar_new with value := some (.PyString str) }) := rfl
  refine ⟨{ PySyckScalar_new with
      value := some (.PyString str)
      tag := type_id.map PyString_FromString
      anchor := anchor.map PyString_FromString }, ?_, rfl, ?_, ?_⟩
  · rw [node_handler_built heap self _ syms _ hhalt hsym hsw]
    cases type_id <;> cases anchor <;> rfl
  · intro h
    subst h
    rfl
  · simp [PySyckNode_getvalue]

/-- C3, worked example: the byte range `a`, zero, `b`. -/
theorem C3_scalar_value_witness :
    ∃ o : PySyckScalarObject,
      PySyckParser_node_handler heap_ab parser_ab
          { data := .syck_str_kind [97, 0, 98], type_id := none, anchor := none } =
        some (heap_ab ++ [.Scalar o],
          { parser_ab with symbols := some (.PyList ([0, 1] ++ [heap_ab.length])) },
          (([0, 1] : List Addr).length : Int)) ∧
      PySyckNode_getvalue o.toPySyckNodeObject = some (.PyString [97, 0, 98]) ∧
      (([97, 0, 98] : List Nat) = [] →
        PySyckNode_getvalue o.toPySyckNodeObject = some (PyString_FromString (cstr ""))) ∧
      PySyckNode_getvalue o.toPySyckNodeObject ≠ none :=
  C3_scalar_value_is_byte_range heap_ab parser_ab [0, 1] [97, 0, 98] none none rfl rfl

/-- C4, as stated, fails: with the table `[0, 1]` the mapping event with the pairs `(0, 0)` and
`(0, 1)` repeats the key index 0; the handler builds a Map with the single pair `0 -> 1`, so the
Map has one pair and not two, and looking up the key of the first pair yields the value of the
second. -/
theorem C4_counterexample_repeated_key :
    PySyckParser_node_handler heap_ab parser_ab
        { data := .syck_map_kind [(0, 0), (0, 1)], type_id := none, anchor := none } =
      some (heap_ab ++ [.Map { PySyckMap_new with value := some (.PyDict [(0, 1)]) }],
        { parser_ab with symbols := some (.PyList [0, 1, 2]) }, 2) ∧
    PyDict_Size (.PyDict [(0, 1)]) = 1 ∧
    PyList_GetItem (.PyList [0, 1]) 0 = some 0 ∧
    PyDict_GetItem (.PyDict [(0, 1)]) 0 = some 1 ∧
    ¬ holds_every_pair (.PyList [0, 1]) [(0, 0), (0, 1)] (.PyDict [(0, 1)]) := by
  refine ⟨by decide, by decide, by decide, by decide, ?_⟩
  intro h
  have hsize := h.1
  simp [PyDict_Size] at hsize

/-- C4, amended: on a non-halted parser whose symbol table is the list `syms`, a mapping event
whose indices are all below the length of the table and whose keys resolve to pairwise distinct
nodes makes the node handler build a Map whose value has exactly one pair for each position of
the event, and looking up the node of a position's key index yields the node of its value
index. -/
theorem C4_map_holds_pairs_of_distinct_keys (heap : Heap) (self : PySyckParserObject)
    (syms : List Addr) (pairs : List (Nat × Nat)) (type_id anchor : Option (List Nat))
    (hhalt : self.halt = 0) (hsym : self.symbols = some (.PyList syms))
    (hidx : ∀ kv ∈ pairs, kv.1 < syms.length ∧ kv.2 < syms.length)
    (hkeys : (pairs.map (fun kv => syms[kv.1]?)).Nodup) :
    ∃ (o : PySyckMapObject) (value : PyObject),
      PySyckParser_node_handler heap self
          { data := .syck_map_kind pairs, type_id := type_id, anchor := anchor } =
        some (heap ++ [.Map o], { self with symbols := some (.PyList (syms ++ [heap.length])) },
          (syms.length : Int)) ∧
      PySyckNode_getvalue o.toPySyckNodeObject = some value ∧
      holds_every_pair (.PyList syms) pairs value ∧
      (pairs = [] → value = PyDict_New) := by
  obtain ⟨entries, hrun, hent⟩ := map_loop_valid syms pairs [] hidx
  have hlen : entries.length = pairs.length := by
    have := congrArg List.length hent
    simpa using this
  have hkeymap : (entries.map Prod.fst).map some = pairs.map (fun kv => syms[kv.1]?) := by
    have := congrArg (List.map Prod.fst) hent
    simpa [List.map_map, Function.comp_def] using this
  have hnodup : (entries.map Prod.fst).Nodup := by
    rw [← hkeymap] at hkeys
    exact List.Nodup.of_map _ hkeys
  have htable : entries.foldl (fun t e => insertdict e.1 e.2 t) [] = entries := by
    simpa using foldl_insertdict_fresh entries [] (by simpa using hnodup)
  rw [htable] at hrun
  have hsw : node_handler_switch (.PyList syms)
      { data := .syck_map_kind pairs, type_id := type_id, anchor := anchor } =
      some (.Map { PySyckMap_new with value := some (.PyDict entries) }) := by
    simp [node_handler_switch, PySyckObject.node, PySyckMap_new, PyDict_New, hrun,
      PySyckObject.set_value]
  refine ⟨{ value := some (.PyDict entries), tag := type_id.map PyString_FromString,
            anchor := anchor.map PyString_FromString, style := seq_none }, .PyDict entries,
          ?_, rfl, ⟨?_, ?_⟩, ?_⟩
  · rw [node_handler_built heap self _ syms _ hhalt hsym hsw]
    cases type_id <;> cases anchor <;> rfl
  · simp [PyDict_Size, hlen]
  · intro kv hkv
    obtain ⟨hk, hv⟩ := hidx kv hkv
    refine ⟨syms[kv.1], syms[kv.2], ?_, ?_, ?_⟩
    · simp [PyList_GetItem, List.getElem?_eq_getElem hk]
    · simp [PyList_GetItem, List.getElem?_eq_getElem hv]
    · have hmem : (some syms[kv.1], some syms[kv.2]) ∈
          entries.map (fun e => (some e.1, some e.2)) := by
        rw [hent]
        refine List.mem_map.mpr ⟨kv, hkv, ?_⟩
        simp [List.getElem?_eq_getElem hk, List.getElem?_eq_getElem hv]
      obtain ⟨e, he, heq⟩ := List.mem_map.mp hmem
      simp only [Prod.mk.injEq, Option.some.injEq] at heq
      have he' : (syms[kv.1], syms[kv.2]) ∈ entries := by
        rw [← heq.1, ← heq.2]
        exact he
      exact lookdict_of_mem _ _ entries hnodup he'
  · intro hnil
    rw [hnil] at hlen
    rw [List.length_eq_zero.mp hlen]
    rfl

/-- C4, amended, worked example: the pairs `(0, 1)` and `(1, 0)` over the table `[0, 1]`. -/
theorem C4_map_holds_pairs_witness :
    ∃ (o : PySyckMapObject) (value : PyObject),
      PySyckParser_node_handler heap_ab parser_ab
          { data := .syck_map_kind [(0, 1), (1, 0)], type_id := none, anchor := none } =
        some (heap_ab ++ [.Map o],
          { parser_ab with symbols := some (.PyList ([0, 1] ++ [heap_ab.length])) },
          (([0, 1] : List Addr).length : Int)) ∧
      PySyckNode_getvalue o.toPySyckNodeObject = some value ∧
      holds_every_pair (.PyList [0, 1]) [(0, 1), (1, 0)] value ∧
      (([(0, 1), (1, 0)] : List (Nat × Nat)) = [] → value = PyDict_New) :=
  C4_map_holds_pairs_of_distinct_keys heap_ab parser_ab [0, 1] [(0, 1), (1, 0)] none none rfl rfl
    (by decide) (by decide)

/-- C6: on a parser whose symbol table has length `L`, a handler call that builds its node (does
not return `-1`, which a halted parser always returns) returns `L`; afterwards the table has
length `L + 1`, holds at index `L` the address of the new node, which is the one object added
to the heap, and holds at the indices below `L` what it held before.  Hence, in the calls of
one document, which start from an empty table, the call at position `k` returns `k` unless it
returns `-1`, and the calls that do not return `-1` come first. -/
theorem C6_table_is_append_only (heap heap' : Heap) (self self' : PySyckParserObject)
    (syms : List Addr) (node : SyckNode) (index : Int)
    (hsym : self.symbols = some (.PyList syms))
    (hres : PySyckParser_node_handler heap self node = some (heap', self', index))
    (hok : index ≠ -1) :
    (index = (syms.length : Int) ∧
      ∃ (syms' : List Addr) (object : PySyckObject),
        self'.symbols = some (.PyList syms') ∧
        syms'.length = syms.length + 1 ∧
        syms'[syms.length]? = some heap.length ∧
        heap' = heap ++ [object] ∧
        heap'[heap.length]? = some object ∧
        (∀ i, i < syms.length → syms'[i]? = syms[i]?) ∧
        (∀ a, a < heap.length → heap'[a]? = heap[a]?)) ∧
    (∀ (heap0 : Heap) (self0 : PySyckParserObject) (nodes : List SyckNode),
      self0.symbols = some PyList_New →
      ∃ (heap1 : Heap) (self1 : PySyckParserObject) (indices : List Int),
        node_handler_run heap0 self0 nodes = some (heap1, self1, indices) ∧
        indices.length = nodes.length ∧
        (∀ (k : Nat) (v : Int), indices[k]? = some v → v ≠ -1 → v = (k : Int)) ∧
        (∀ (j k : Nat), j ≤ k → indices[j]? = some (-1) → k < indices.length →
          indices[k]? = some (-1))) := by
  constructor
  · obtain ⟨_, syms0, object, hsyms, _, hheap, hself, hindex⟩ :=
      node_handler_result heap heap' self self' node index hres hok
    rw [hsym] at hsyms
    cases hsyms
    refine ⟨hindex, syms ++ [heap.length], node_handler_attach object node, ?_, by simp,
      getElem?_append_one syms _, hheap, ?_, ?_, ?_⟩
    · rw [hself]
    · rw [hheap]
      exact getElem?_append_one heap _
    · intro i hi
      exact List.getElem?_append_left hi
    · intro a ha
      rw [hheap]
      exact List.getElem?_append_left ha
  · intro heap0 self0 nodes hsym0
    obtain ⟨heap1, self1, indices, hrun, hlen, hidx⟩ :=
      node_handler_run_indices nodes heap0 self0 [] hsym0
    refine ⟨heap1, self1, indices, hrun, hlen, ?_, ?_⟩
    · intro k v hk hv
      simpa using hidx k v hk hv
    · intro j k hjk hj hklt
      have hv : indices[k]? = some indices[k] := List.getElem?_eq_getElem hklt
      rw [hv]
      congr 1
      exact node_handler_run_failed_stays nodes heap0 heap1 self0 self1 indices hrun j k hjk hj
        _ hv

/-- C6, worked example: the sequence event `[0, 1]` on the table `[0, 1]` returns 2. -/
theorem C6_table_is_append_only_witness :
    ((2 : Int) = (([0, 1] : List Addr).length : Int) ∧
      ∃ (syms' : List Addr) (object : PySyckObject),
        ({ parser_ab with symbols := some (.PyList [0, 1, 2]) } : PySyckParserObject).symbols =
          some (.PyList syms') ∧
        syms'.length = ([0, 1] : List Addr).length + 1 ∧
        syms'[([0, 1] : List Addr).length]? = some heap_ab.length ∧
        heap_ab ++ [.Seq { PySyckSeq_new with value := some (.PyList [0, 1]) }] =
          heap_ab ++ [object] ∧
        (heap_ab ++ [.Seq { PySyckSeq_new with value := some (.PyList [0, 1]) }])[heap_ab.length]? =
          some object ∧
        (∀ i, i < ([0, 1] : List Addr).length → syms'[i]? = ([0, 1] : List Addr)[i]?) ∧
        (∀ a, a < heap_ab.length →
          (heap_ab ++ [.Seq { PySyckSeq_new with value := some (.PyList [0, 1]) }])[a]? =
            heap_ab[a]?)) ∧
    (∀ (heap0 : Heap) (self0 : PySyckParserObject) (nodes : List SyckNode),
      self0.symbols = some PyList_New →
      ∃ (heap1 : Heap) (self1 : PySyckParserObject) (indices : List Int),
        node_handler_run heap0 self0 nodes = some (heap1, self1, indices) ∧
        indices.length = nodes.length ∧
        (∀ (k : Nat) (v : Int), indices[k]? = some v → v ≠ -1 → v = (k : Int)) ∧
        (∀ (j k : Nat), j ≤ k → indices[j]? = some (-1) → k < indices.length →
          indices[k]? = some (-1))) :=
  C6_table_is_append_only heap_ab
    (heap_ab ++ [.Seq { PySyckSeq_new with value := some (.PyList [0, 1]) }])
    parser_ab { parser_ab with symbols := some (.PyList [0, 1, 2]) } [0, 1]
    { data := .syck_seq_kind [0, 1], type_id := none, anchor := none } 2
    rfl (by decide) (by decide)

/-- C7: on a halted parser the node handler returns `-1` for every event and changes nothing:
the heap and every field of the parser, the symbol table and the halt flag among them, are as
before. -/
theorem C7_halted_handler_refuses (heap : Heap) (self : PySyckParserObject) (node : SyckNode)
    (hhalt : self.halt ≠ 0) :
    PySyckParser_node_handler heap self node = some (heap, self, -1) := by
  simp [PySyckParser_node_handler, hhalt]

/-- C7, worked example: a scalar event on the halted parser. -/
theorem C7_halted_handler_witness :
    PySyckParser_node_handler heap_ab parser_halted event_a = some (heap_ab, parser_halted, -1) :=
  C7_halted_handler_refuses heap_ab parser_halted event_a (by decide)

/-- C8: on a non-halted parser whose symbol table is a list of length `L`, a sequence or
mapping event in which some child, key or value index is not below `L` makes the node handler
return `-1` and set the halt flag; the symbol table, the other parser fields and the heap are
unchanged, so the node under construction is not appended. -/
theorem C8_invalid_index_halts (heap : Heap) (self : PySyckParserObject) (syms : List Addr)
    (node : SyckNode)
    (hhalt : self.halt = 0) (hsym : self.symbols = some (.PyList syms))
    (hbad : has_invalid_index syms.length node.data) :
    ∃ self' : PySyckParserObject,
      PySyckParser_node_handler heap self node = some (heap, self', -1) ∧
      self'.halt = 1 ∧ self'.symbols = some (.PyList syms) ∧
      self' = { self with halt := 1 } := by
  have hsw : node_handler_switch (.PyList syms) node = none := by
    obtain ⟨data, type_id, anchor⟩ := node
    cases data with
    | syck_str_kind str => exact absurd hbad (by simp [has_invalid_index])
    | syck_seq_kind list =>
      have := seq_loop_invalid syms list PyList_New hbad
      simp [node_handler_switch, PySyckObject.node, PySyckSeq_new, this]
    | syck_map_kind pairs =>
      have := map_loop_invalid syms pairs PyDict_New hbad
      simp [node_handler_switch, PySyckObject.node, PySyckMap_new, this]
  exact ⟨{ self with halt := 1 }, node_handler_failed heap self node _ hhalt hsym hsw, rfl, hsym,
    rfl⟩

/-- C8, worked example: a mapping event whose second value index is the table length. -/
theorem C8_invalid_index_witness :
    ∃ self' : PySyckParserObject,
      PySyckParser_node_handler heap_ab parser_ab
          { data := .syck_map_kind [(0, 1), (1, 2)], type_id := none, anchor := none } =
        some (heap_ab, self', -1) ∧
      self'.halt = 1 ∧ self'.symbols = some (.PyList [0, 1]) ∧
      self' = { parser_ab with halt := 1 } :=
  C8_invalid_index_halts heap_ab parser_ab [0, 1]
    { data := .syck_map_kind [(0, 1), (1, 2)], type_id := none, anchor := none } rfl rfl
    ⟨(1, 2), by decide, Or.inr (by decide)⟩

/-- C9: when the node handler builds a node of any kind (does not return `-1`), the tag of the
node is the string of the event's type tag when the event reports one and is absent otherwise,
so that it reads back as that string or as `None`; the same holds for the anchor and the
event's anchor name; and the value of the node is the one the kind's case built, unchanged by
attaching tag and anchor. -/
theorem C9_tag_and_anchor_attached (heap heap' : Heap) (self self' : PySyckParserObject)
    (node : SyckNode) (index : Int)
    (hres : PySyckParser_node_handler heap self node = some (heap', self', index))
    (hok : index ≠ -1) :
    ∃ (symbols : PyObject) (built object : PySyckObject),
      self.symbols = some symbols ∧
      node_handler_switch symbols node = some built ∧
      heap' = heap ++ [object] ∧
      object.node.tag = node.type_id.map PyObject.PyString ∧
      object.node.anchor = node.anchor.map PyObject.PyString ∧
      PySyckNode_gettag object.node = (node.type_id.map PyObject.PyString).getD .PyNone ∧
      PySyckNode_getanchor object.node = (node.anchor.map PyObject.PyString).getD .PyNone ∧
      object.node.value = built.node.value := by
  obtain ⟨_, syms, built, hsyms, hsw, hheap, _, _⟩ :=
    node_handler_result heap heap' self self' node index hres hok
  have hfresh := node_handler_switch_fresh (.PyList syms) node built hsw
  have hnode := node_handler_attach_node built node
  refine ⟨.PyList syms, built, node_handler_attach built node, hsyms, hsw, hheap,
    ?_, ?_, ?_, ?_, ?_⟩
  · rw [hnode]
    cases node.type_id <;> simp [hfresh.1, PyString_FromString]
  · rw [hnode]
    cases node.anchor <;> simp [hfresh.2, PyString_FromString]
  · rw [hnode]
    cases node.type_id <;> simp [PySyckNode_gettag, hfresh.1, PyString_FromString]
  · rw [hnode]
    cases node.anchor <;> simp [PySyckNode_getanchor, hfresh.2, PyString_FromString]
  · rw [hnode]

/-- C9, worked example: the scalar event `"a"` with tag `"t"` and anchor `"x"`. -/
theorem C9_tag_and_anchor_witness :
    ∃ (symbols : PyObject) (built object : PySyckObject),
      parser_start.symbols = some symbols ∧
      node_handler_switch symbols event_a = some built ∧
      [PySyckObject.Scalar scalar_a] = [] ++ [object] ∧
      object.node.tag = event_a.type_id.map PyObject.PyString ∧
      object.node.anchor = event_a.anchor.map PyObject.PyString ∧
      PySyckNode_gettag object.node = (event_a.type_id.map PyObject.PyString).getD .PyNone ∧
      PySyckNode_getanchor object.node = (event_a.anchor.map PyObject.PyString).getD .PyNone ∧
      object.node.value = built.node.value :=
  C9_tag_and_anchor_attached [] [.Scalar scalar_a] parser_start
    { parser_start with symbols := some (.PyList [0]) } event_a 0 (by decide) (by decide)

/-- C10: a Scalar, a Seq and a Map created by the constructor without arguments are the objects
of `tp_new`, left as they are by `tp_init`.  The value is present and is the empty string, the
empty list or the empty dict; tag and anchor are absent and read back as `None`; a Scalar has
style `None`, indent 0, width 0 and chomp `None`; a Seq and a Map have inline `False`. -/
theorem C10_constructor_defaults :
    (Scalar_call = (PySyckScalar_new, none) ∧
      PySyckNode_getvalue Scalar_call.1.toPySyckNodeObject = some (.PyString []) ∧
      Scalar_call.1.tag = none ∧ Scalar_call.1.anchor = none ∧
      PySyckNode_gettag Scalar_call.1.toPySyckNodeObject = .PyNone ∧
      PySyckNode_getanchor Scalar_call.1.toPySyckNodeObject = .PyNone ∧
      PySyckScalar_getstyle Scalar_call.1 = .PyNone ∧
      PySyckScalar_getindent Scalar_call.1 = .PyInt 0 ∧
      PySyckScalar_getwidth Scalar_call.1 = .PyInt 0 ∧
      PySyckScalar_getchomp Scalar_call.1 = .PyNone) ∧
    (Seq_call = (PySyckSeq_new, none) ∧
      PySyckNode_getvalue Seq_call.1.toPySyckNodeObject = some (.PyList []) ∧
      Seq_call.1.tag = none ∧ Seq_call.1.anchor = none ∧
      PySyckNode_gettag Seq_call.1.toPySyckNodeObject = .PyNone ∧
      PySyckNode_getanchor Seq_call.1.toPySyckNodeObject = .PyNone ∧
      PySyckSeq_getinline Seq_call.1 = .PyBool false) ∧
    (Map_call = (PySyckMap_new, none) ∧
      PySyckNode_getvalue Map_call.1.toPySyckNodeObject = some (.PyDict []) ∧
      Map_call.1.tag = none ∧ Map_call.1.anchor = none ∧
      PySyckNode_gettag Map_call.1.toPySyckNodeObject = .PyNone ∧
      PySyckNode_getanchor Map_call.1.toPySyckNodeObject = .PyNone ∧
      PySyckMap_getinline Map_call.1 = .PyBool false) := by
  decide

/-! The claims on the setters and on `parse` -/

theorem PySyckScalar_init_preserves (P : PySyckScalarObject → Prop)
    (hvalue : ∀ self v, P self → P (PySyckScalar_setvalue self v).1)
    (htag : ∀ (self : PySyckScalarObject) v, P self →
      P { self with toPySyckNodeObject := (PySyckNode_settag self.toPySyckNodeObject v).1 })
    (hanchor : ∀ (self : PySyckScalarObject) v, P self →
      P { self with toPySyckNodeObject := (PySyckNode_setanchor self.toPySyckNodeObject v).1 })
    (hstyle : ∀ self v, P self → P (PySyckScalar_setstyle self v).1)
    (hindent : ∀ self v, P self → P (PySyckScalar_setindent self v).1)
    (hwidth : ∀ self v, P self → P (PySyckScalar_setwidth self v).1)
    (hchomp : ∀ self v, P self → P (PySyckScalar_setchomp self v).1)
    (self : PySyckScalarObject) (value tag anchor style indent width chomp : Option PyObject)
    (h : P self) :
    P (PySyckScalar_init self value tag anchor style indent width chomp).1 := by
  unfold PySyckScalar_init
  lift_lets
  intro r1 s1 n2 s2 n3 s3 r4 s4 r5 s5 r6 s6
  have h1 : P r1.1 := by
    show P (if value.isSome then PySyckScalar_setvalue self value else (self, none)).1
    split
    · exact hvalue _ _ h
    · exact h
  have h2 : P s2 := by
    show P { s1 with toPySyckNodeObject :=
      (if tag.isSome then PySyckNode_settag s1.toPySyckNodeObject tag
        else (s1.toPySyckNodeObject, none)).1 }
    split
    · exact htag _ _ h1
    · exact h1
  have h3 : P s3 := by
    show P { s2 with toPySyckNodeObject :=
      (if anchor.isSome then PySyckNode_setanchor s2.toPySyckNodeObject anchor
        else (s2.toPySyckNodeObject, none)).1 }
    split
    · exact hanchor _ _ h2
    · exact h2
  have h4 : P r4.1 := by
    show P (if style.isSome then PySyckScalar_setstyle s3 style else (s3, none)).1
    split
    · exact hstyle _ _ h3
    · exact h3
  have h5 : P r5.1 := by
    show P (if indent.isSome then PySyckScalar_setindent s4 indent else (s4, none)).1
    split
    · exact hindent _ _ h4
    · exact h4
  have h6 : P r6.1 := by
    show P (if width.isSome then PySyckScalar_setwidth s5 width else (s5, none)).1
    split
    · exact hwidth _ _ h5
    · exact h5
  clear_value r1 r4 r5 r6
  split_ifs
  · exact h1
  · exact h2
  · exact h3
  · exact h4
  · exact h5
  · exact h6
  · exact hchomp _ _ h6
  · exact h6

theorem PyString_Check_eq_true (o : PyObject) (h : PyString_Check o = true) :
    ∃ s, o = .PyString s := by
  cases o <;> simp [PyString_Check] at h
  exact ⟨_, rfl⟩

theorem PySyckNode_settag_frame (self : PySyckNodeObject) (v : Option PyObject) :
    (PySyckNode_settag self v).1 = { self with tag := (PySyckNode_settag self v).1.tag } ∧
    ((PySyckNode_settag self v).2 ≠ none → (PySyckNode_settag self v).1 = self) := by
  unfold PySyckNode_settag
  cases v with
  | none => simp
  | some o => dsimp only; split_ifs <;> simp

theorem PySyckNode_setanchor_frame (self : PySyckNodeObject) (v : Option PyObject) :
    (PySyckNode_setanchor self v).1 =
      { self with anchor := (PySyckNode_setanchor self v).1.anchor } ∧
    ((PySyckNode_setanchor self v).2 ≠ none → (PySyckNode_setanchor self v).1 = self) := by
  unfold PySyckNode_setanchor
  cases v with
  | none => simp
  | some o => dsimp only; split_ifs <;> simp

theorem PySyckScalar_setvalue_frame (self : PySyckScalarObject) (v : Option PyObject) :
    (PySyckScalar_setvalue self v).1 =
      { self with value := (PySyckScalar_setvalue self v).1.value } ∧
    ((PySyckScalar_setvalue self v).2 ≠ none → (PySyckScalar_setvalue self v).1 = self) := by
  unfold PySyckScalar_setvalue
  cases v with
  | none => simp
  | some o => dsimp only; split_ifs <;> simp

theorem PySyckScalar_setstyle_frame (self : PySyckScalarObject) (v : Option PyObject) :
    (PySyckScalar_setstyle self v).1 =
      { self with style := (PySyckScalar_setstyle self v).1.style } ∧
    ((PySyckScalar_setstyle self v).2 ≠ none → (PySyckScalar_setstyle self v).1 = self) := by
  unfold PySyckScalar_setstyle
  cases v with
  | none => simp
  | some o => dsimp only; split_ifs <;> simp

theorem PySyckScalar_setindent_frame (self : PySyckScalarObject) (v : Option PyObject) :
    (PySyckScalar_setindent self v).1 =
      { self with indent := (PySyckScalar_setindent self v).1.indent } ∧
    ((PySyckScalar_setindent self v).2 ≠ none → (PySyckScalar_setindent self v).1 = self) := by
  unfold PySyckScalar_setindent
  cases v with
  | none => simp
  | some o => dsimp only; split_ifs <;> simp

theorem PySyckScalar_setwidth_frame (self : PySyckScalarObject) (v : Option PyObject) :
    (PySyckScalar_setwidth self v).1 =
      { self with width := (PySyckScalar_setwidth self v).1.width } ∧
    ((PySyckScalar_setwidth self v).2 ≠ none → (PySyckScalar_setwidth self v).1 = self) := by
  unfold PySyckScalar_setwidth
  cases v with
  | none => simp
  | some o => dsimp only; split_ifs <;> simp

theorem PySyckScalar_setchomp_frame (self : PySyckScalarObject) (v : Option PyObject) :
    (PySyckScalar_setchomp self v).1 =
      { self with chomp := (PySyckScalar_setchomp self v).1.chomp } ∧
    ((PySyckScalar_setchomp self v).2 ≠ none → (PySyckScalar_setchomp self v).1 = self) := by
  unfold PySyckScalar_setchomp
  cases v with
  | none => simp
  | some o => dsimp only; split_ifs <;> simp

theorem PySyckSeq_setvalue_frame (self : PySyckSeqObject) (v : Option PyObject) :
    (PySyckSeq_setvalue self v).1 = { self with value := (PySyckSeq_setvalue self v).1.value } ∧
    ((PySyckSeq_setvalue self v).2 ≠ none → (PySyckSeq_setvalue self v).1 = self) := by
  unfold PySyckSeq_setvalue
  cases v with
  | none => simp
  | some o => dsimp only; split_ifs <;> simp

theorem PySyckSeq_setinline_frame (self : PySyckSeqObject) (v : Option PyObject) :
    (PySyckSeq_setinline self v).1 = { self with style := (PySyckSeq_setinline self v).1.style } ∧
    ((PySyckSeq_setinline self v).2 ≠ none → (PySyckSeq_setinline self v).1 = self) := by
  unfold PySyckSeq_setinline
  cases v with
  | none => simp
  | some o => dsimp only; split_ifs <;> simp

theorem PySyckMap_setvalue_frame (self : PySyckMapObject) (v : Option PyObject) :
    (PySyckMap_setvalue self v).1 = { self with value := (PySyckMap_setvalue self v).1.value } ∧
    ((PySyckMap_setvalue self v).2 ≠ none → (PySyckMap_setvalue self v).1 = self) := by
  unfold PySyckMap_setvalue
  cases v with
  | none => simp
  | some o => dsimp only; split_ifs <;> simp

theorem PySyckMap_setinline_frame (self : PySyckMapObject) (v : Option PyObject) :
    (PySyckMap_setinline self v).1 = { self with style := (PySyckMap_setinline self v).1.style } ∧
    ((PySyckMap_setinline self v).2 ≠ none → (PySyckMap_setinline self v).1 = self) := by
  unfold PySyckMap_setinline
  cases v with
  | none => simp
  | some o => dsimp only; split_ifs <;> simp

theorem PySyckScalar_setvalue_string (self : PySyckScalarObject) (v : Option PyObject)
    (h : ∃ s, self.value = some (.PyString s)) :
    ∃ s, (PySyckScalar_setvalue self v).1.value = some (.PyString s) := by
  unfold PySyckScalar_setvalue
  cases v with
  | none => exact h
  | some o =>
    by_cases hc : PyString_Check o = true
    · obtain ⟨s, hs⟩ := PyString_Check_eq_true o hc
      subst hs
      exact ⟨s, by simp [PyString_Check]⟩
    · simpa [hc] using h

theorem ScalarCall_run_string (self : PySyckScalarObject) (call : ScalarCall)
    (h : ∃ s, self.value = some (.PyString s)) :
    ∃ s, (call.run self).1.value = some (.PyString s) := by
  have hvalue := PySyckScalar_setvalue_string
  have htag : ∀ (self : PySyckScalarObject) v, (∃ s, self.value = some (.PyString s)) →
      ∃ s, ({ self with toPySyckNodeObject :=
        (PySyckNode_settag self.toPySyckNodeObject v).1 } : PySyckScalarObject).value =
          some (.PyString s) := by
    intro self v h
    have := (PySyckNode_settag_frame self.toPySyckNodeObject v).1
    simp only []
    rw [this]
    exact h
  have hanchor : ∀ (self : PySyckScalarObject) v, (∃ s, self.value = some (.PyString s)) →
      ∃ s, ({ self with toPySyckNodeObject :=
        (PySyckNode_setanchor self.toPySyckNodeObject v).1 } : PySyckScalarObject).value =
          some (.PyString s) := by
    intro self v h
    have := (PySyckNode_setanchor_frame self.toPySyckNodeObject v).1
    simp only []
    rw [this]
    exact h
  have hstyle : ∀ self v, (∃ s, self.value = some (.PyString s)) →
      ∃ s, (PySyckScalar_setstyle self v).1.value = some (.PyString s) := by
    intro self v h
    rw [(PySyckScalar_setstyle_frame self v).1]
    exact h
  have hindent : ∀ self v, (∃ s, self.value = some (.PyString s)) →
      ∃ s, (PySyckScalar_setindent self v).1.value = some (.PyString s) := by
    intro self v h
    rw [(PySyckScalar_setindent_frame self v).1]
    exact h
  have hwidth : ∀ self v, (∃ s, self.value = some (.PyString s)) →
      ∃ s, (PySyckScalar_setwidth self v).1.value = some (.PyString s) := by
    intro self v h
    rw [(PySyckScalar_setwidth_frame self v).1]
    exact h
  have hchomp : ∀ self v, (∃ s, self.value = some (.PyString s)) →
      ∃ s, (PySyckScalar_setchomp self v).1.value = some (.PyString s) := by
    intro self v h
    rw [(PySyckScalar_setchomp_frame self v).1]
    exact h
  cases call with
  | setvalue v => exact hvalue self v h
  | settag v => exact htag self v h
  | setanchor v => exact hanchor self v h
  | setstyle v => exact hstyle self v h
  | setindent v => exact hindent self v h
  | setwidth v => exact hwidth self v h
  | setchomp v => exact hchomp self v h
  | init value tag anchor style indent width chomp =>
    exact PySyckScalar_init_preserves (fun self => ∃ s, self.value = some (.PyString s))
      hvalue htag hanchor hstyle hindent hwidth hchomp self value tag anchor style indent width
      chomp h

theorem Scalar_after_string (calls : List ScalarCall) :
    ∀ self : PySyckScalarObject, (∃ s, self.value = some (.PyString s)) →
      ∃ s, (Scalar_after self calls).value = some (.PyString s) := by
  induction calls with
  | nil => intro self h; exact h
  | cons call rest ih =>
    intro self h
    exact ih _ (ScalarCall_run_string self call h)

/-- C11: the code at the failing input.  The string `plain`, a zero byte, `x` is not one of the
five style names, yet `PySyckScalar_setstyle` accepts it and stores the style plain, which
reads back as `"plain"`.  In general the setter accepts a string exactly when its bytes before
the first zero byte are one of the five names, so it meets the claim on strings without a zero
byte; a rejected call leaves the Scalar as it was. -/
theorem C11_setstyle_reads_up_to_zero_byte :
    PySyckScalar_setstyle PySyckScalar_new (some (.PyString (cstr "plain" ++ [0, 120]))) =
      ({ PySyckScalar_new with style := scalar_plain }, none) ∧
    cstr "plain" ++ [0, 120] ∉ style_names ∧
    PySyckScalar_getstyle
        (PySyckScalar_setstyle PySyckScalar_new
          (some (.PyString (cstr "plain" ++ [0, 120])))).1 = .PyString (cstr "plain") ∧
    (∀ (self : PySyckScalarObject) (s : List Nat),
      ((PySyckScalar_setstyle self (some (.PyString s))).2 = none ↔
        s.takeWhile (fun c => c != 0) ∈ style_names) ∧
      ((PySyckScalar_setstyle self (some (.PyString s))).2 ≠ none →
        (PySyckScalar_setstyle self (some (.PyString s))).1 = self) ∧
      (0 ∉ s →
        ((PySyckScalar_setstyle self (some (.PyString s))).2 = none ↔ s ∈ style_names))) := by
  refine ⟨by decide, by decide, by decide, ?_⟩
  intro self s
  have hiff : (PySyckScalar_setstyle self (some (.PyString s))).2 = none ↔
      s.takeWhile (fun c => c != 0) ∈ style_names := by
    simp only [PySyckScalar_setstyle, PyString_Check, PyString_AsString, strcmp_eq, style_names]
    split_ifs <;> simp_all
  refine ⟨hiff, ?_, ?_⟩
  · simp only [PySyckScalar_setstyle, PyString_Check, PyString_AsString, strcmp_eq]
    split_ifs <;> simp_all
  · intro h0
    have htw : s.takeWhile (fun c => c != 0) = s := by
      apply List.takeWhile_eq_self_iff.mpr
      intro c hc
      have : c ≠ 0 := fun e => h0 (e ▸ hc)
      simpa using this
    rw [hiff, htw]

/-- C12: the code at the failing input.  The string `+`, a zero byte, `x` is neither `"-"` nor
`"+"`, yet `PySyckScalar_setchomp` accepts it and stores the chomp code of keep, which reads
back as `"+"`.  In general the setter accepts a string exactly when its bytes before the first
zero byte are one of the two names, so it meets the claim on strings without a zero byte; a
rejected call leaves the Scalar as it was. -/
theorem C12_setchomp_reads_up_to_zero_byte :
    PySyckScalar_setchomp PySyckScalar_new (some (.PyString (cstr "+" ++ [0, 120]))) =
      ({ PySyckScalar_new with chomp := NL_KEEP }, none) ∧
    cstr "+" ++ [0, 120] ∉ chomp_names ∧
    PySyckScalar_getchomp
        (PySyckScalar_setchomp PySyckScalar_new
          (some (.PyString (cstr "+" ++ [0, 120])))).1 = .PyString (cstr "+") ∧
    (∀ (self : PySyckScalarObject) (s : List Nat),
      ((PySyckScalar_setchomp self (some (.PyString s))).2 = none ↔
        s.takeWhile (fun c => c != 0) ∈ chomp_names) ∧
      ((PySyckScalar_setchomp self (some (.PyString s))).2 ≠ none →
        (PySyckScalar_setchomp self (some (.PyString s))).1 = self) ∧
      (0 ∉ s →
        ((PySyckScalar_setchomp self (some (.PyString s))).2 = none ↔ s ∈ chomp_names))) := by
  refine ⟨by decide, by decide, by decide, ?_⟩
  intro self s
  have hiff : (PySyckScalar_setchomp self (some (.PyString s))).2 = none ↔
      s.takeWhile (fun c => c != 0) ∈ chomp_names := by
    simp only [PySyckScalar_setchomp, PyString_Check, PyString_AsString, strcmp_eq, chomp_names]
    split_ifs <;> simp_all
  refine ⟨hiff, ?_, ?_⟩
  · simp only [PySyckScalar_setchomp, PyString_Check, PyString_AsString, strcmp_eq]
    split_ifs <;> simp_all
  · intro h0
    have htw : s.takeWhile (fun c => c != 0) = s := by
      apply List.takeWhile_eq_self_iff.mpr
      intro c hc
      have : c ≠ 0 := fun e => h0 (e ▸ hc)
      simpa using this
    rw [hiff, htw]

theorem Node_after_absent_or_string (calls : List NodeCall) :
    ∀ self : PySyckNodeObject,
      (self.tag = none ∨ ∃ s, self.tag = some (.PyString s)) →
      (self.anchor = none ∨ ∃ s, self.anchor = some (.PyString s)) →
      ((Node_after self calls).tag = none ∨
        ∃ s, (Node_after self calls).tag = some (.PyString s)) ∧
      ((Node_after self calls).anchor = none ∨
        ∃ s, (Node_after self calls).anchor = some (.PyString s)) := by
  induction calls with
  | nil => intro self ht ha; exact ⟨ht, ha⟩
  | cons call rest ih =>
    intro self ht ha
    apply ih
    · cases call with
      | settag v =>
        simp only [NodeCall.run, PySyckNode_settag]
        cases v with
        | none => exact ht
        | some o =>
          dsimp only
          by_cases h1 : o = .PyNone
          · simp [h1]
          · by_cases h2 : PyString_Check o = true
            · obtain ⟨s, hs⟩ := PyString_Check_eq_true o h2
              subst hs
              right
              exact ⟨s, by simp [PyString_Check]⟩
            · simpa [h1, h2] using ht
      | setanchor v =>
        simp only [NodeCall.run]
        rw [(PySyckNode_setanchor_frame self v).1]
        exact ht
    · cases call with
      | settag v =>
        simp only [NodeCall.run]
        rw [(PySyckNode_settag_frame self v).1]
        exact ha
      | setanchor v =>
        simp only [NodeCall.run, PySyckNode_setanchor]
        cases v with
        | none => exact ha
        | some o =>
          dsimp only
          by_cases h1 : o = .PyNone
          · simp [h1]
          · by_cases h2 : PyString_Check o = true
            · obtain ⟨s, hs⟩ := PyString_Check_eq_true o h2
              subst hs
              right
              exact ⟨s, by simp [PyString_Check]⟩
            · simpa [h1, h2] using ha

theorem Seq_after_sequence (values : List (Option PyObject)) :
    ∀ self : PySyckSeqObject, (∃ v, self.value = some v ∧ PySequence_Check v = true) →
      ∃ v, (Seq_after self values).value = some v ∧ PySequence_Check v = true := by
  induction values with
  | nil => intro self h; exact h
  | cons value rest ih =>
    intro self h
    apply ih
    unfold PySyckSeq_setvalue
    cases value with
    | none => exact h
    | some o =>
      dsimp only
      by_cases hc : PySequence_Check o = true
      · exact ⟨o, by simp [hc], hc⟩
      · simpa [hc] using h

theorem Map_after_mapping (values : List (Option PyObject)) :
    ∀ self : PySyckMapObject, (∃ v, self.value = some v ∧ PyMapping_Check v = true) →
      ∃ v, (Map_after self values).value = some v ∧ PyMapping_Check v = true := by
  induction values with
  | nil => intro self h; exact h
  | cons value rest ih =>
    intro self h
    apply ih
    unfold PySyckMap_setvalue
    cases value with
    | none => exact h
    | some o =>
      dsimp only
      by_cases hc : PyMapping_Check o = true
      · exact ⟨o, by simp [hc], hc⟩
      · simpa [hc] using h

/-- C13: after any sequence of calls on a constructed Scalar (assignments to its attributes,
requests to delete them, calls of `__init__`) the value of the Scalar is a string.
`PySyckScalar_setvalue` with a string replaces the value by that string and changes nothing
else; with an object that is not a string, or with a request to delete, it raises an error and
leaves the Scalar as it was. -/
theorem C13_scalar_value_is_a_string (calls : List ScalarCall) (self : PySyckScalarObject)
    (s : List Nat) (o : PyObject) (ho : PyString_Check o = false) :
    (∃ s', (Scalar_after PySyckScalar_new calls).value = some (.PyString s')) ∧
    PySyckScalar_setvalue self (some (.PyString s)) =
      ({ self with value := some (.PyString s) }, none) ∧
    PySyckScalar_setvalue self (some o) =
      (self, some (.TypeError "'value' must be a string")) ∧
    PySyckScalar_setvalue self none = (self, some (.TypeError "cannot delete 'value'")) := by
  refine ⟨Scalar_after_string calls PySyckScalar_new ⟨[], rfl⟩, ?_, ?_, rfl⟩
  · simp [PySyckScalar_setvalue, PyString_Check]
  · simp [PySyckScalar_setvalue, ho]

/-- C13, worked example: a string, an integer and a delete request assigned to `value`, then
`__init__` with an integer as value. -/
theorem C13_scalar_value_witness :
    (∃ s', (Scalar_after PySyckScalar_new
        [.setvalue (some (.PyString (cstr "a"))), .setvalue (some (.PyInt 3)), .setvalue none,
          .init (some (.PyInt 4)) none none none none none none]).value =
        some (.PyString s')) ∧
    PySyckScalar_setvalue scalar_a (some (.PyString (cstr "b"))) =
      ({ scalar_a with value := some (.PyString (cstr "b")) }, none) ∧
    PySyckScalar_setvalue scalar_a (some (.PyInt 3)) =
      (scalar_a, some (.TypeError "'value' must be a string")) ∧
    PySyckScalar_setvalue scalar_a none =
      (scalar_a, some (.TypeError "cannot delete 'value'")) :=
  C13_scalar_value_is_a_string _ scalar_a (cstr "b") (.PyInt 3) rfl

/-- C14: for the common fields of a node of any type, assigning `None` to `tag` succeeds and
makes the tag absent, so that it reads back as `None`; a request to delete `tag` raises an
error and leaves the node as it was; assigning an object that is neither `None` nor a string
raises an error and leaves the node as it was.  The same holds for `anchor`. -/
theorem C14_tag_and_anchor_none_delete_other (self : PySyckNodeObject) (o : PyObject)
    (hnone : o ≠ .PyNone) (hstring : PyString_Check o = false) :
    (PySyckNode_settag self (some .PyNone) = ({ self with tag := none }, none) ∧
      PySyckNode_gettag (PySyckNode_settag self (some .PyNone)).1 = .PyNone ∧
      PySyckNode_settag self none = (self, some (.TypeError "cannot delete 'tag'")) ∧
      PySyckNode_settag self (some o) = (self, some (.TypeError "'tag' must be a string"))) ∧
    (PySyckNode_setanchor self (some .PyNone) = ({ self with anchor := none }, none) ∧
      PySyckNode_getanchor (PySyckNode_setanchor self (some .PyNone)).1 = .PyNone ∧
      PySyckNode_setanchor self none = (self, some (.TypeError "cannot delete 'anchor'")) ∧
      PySyckNode_setanchor self (some o) =
        (self, some (.TypeError "'anchor' must be a string"))) := by
  refine ⟨⟨rfl, rfl, rfl, ?_⟩, ⟨rfl, rfl, rfl, ?_⟩⟩
  · simp [PySyckNode_settag, hnone, hstring]
  · simp [PySyckNode_setanchor, hnone, hstring]

/-- C14, worked example: the node of `scalar_a`, with tag `"t"` and anchor `"x"`, and the
integer 3 as the rejected value. -/
theorem C14_tag_and_anchor_witness :
    (PySyckNode_settag scalar_a.toPySyckNodeObject (some .PyNone) =
        ({ scalar_a.toPySyckNodeObject with tag := none }, none) ∧
      PySyckNode_gettag (PySyckNode_settag scalar_a.toPySyckNodeObject (some .PyNone)).1 =
        .PyNone ∧
      PySyckNode_settag scalar_a.toPySyckNodeObject none =
        (scalar_a.toPySyckNodeObject, some (.TypeError "cannot delete 'tag'")) ∧
      PySyckNode_settag scalar_a.toPySyckNodeObject (some (.PyInt 3)) =
        (scalar_a.toPySyckNodeObject, some (.TypeError "'tag' must be a string"))) ∧
    (PySyckNode_setanchor scalar_a.toPySyckNodeObject (some .PyNone) =
        ({ scalar_a.toPySyckNodeObject with anchor := none }, none) ∧
      PySyckNode_getanchor (PySyckNode_setanchor scalar_a.toPySyckNodeObject (some .PyNone)).1 =
        .PyNone ∧
      PySyckNode_setanchor scalar_a.toPySyckNodeObject none =
        (scalar_a.toPySyckNodeObject, some (.TypeError "cannot delete 'anchor'")) ∧
      PySyckNode_setanchor scalar_a.toPySyckNodeObject (some (.PyInt 3)) =
        (scalar_a.toPySyckNodeObject, some (.TypeError "'anchor' must be a string"))) :=
  C14_tag_and_anchor_none_delete_other scalar_a.toPySyckNodeObject (.PyInt 3) (by decide) rfl

/-- C15, as stated, fails: assigning the empty string to `tag` of a constructed node succeeds,
and the tag is then present and empty; the same holds for `anchor`. -/
theorem C15_counterexample_empty_string :
    PySyckNode_settag PySyckScalar_new.toPySyckNodeObject (some (.PyString [])) =
      ({ PySyckScalar_new.toPySyckNodeObject with tag := some (.PyString []) }, none) ∧
    (Node_after PySyckScalar_new.toPySyckNodeObject
      [.settag (some (.PyString [])), .setanchor (some (.PyString []))]).tag =
        some (.PyString []) ∧
    (Node_after PySyckScalar_new.toPySyckNodeObject
      [.settag (some (.PyString [])), .setanchor (some (.PyString []))]).anchor =
        some (.PyString []) ∧
    ¬ ((Node_after PySyckScalar_new.toPySyckNodeObject
        [.settag (some (.PyString [])), .setanchor (some (.PyString []))]).tag = none ∨
      ∃ s, s ≠ [] ∧ (Node_after PySyckScalar_new.toPySyckNodeObject
        [.settag (some (.PyString [])), .setanchor (some (.PyString []))]).tag =
          some (.PyString s)) := by
  refine ⟨by decide, by decide, by decide, ?_⟩
  have h : (Node_after PySyckScalar_new.toPySyckNodeObject
      [.settag (some (.PyString [])), .setanchor (some (.PyString []))]).tag =
        some (.PyString []) := by decide
  rw [h]
  rintro (h1 | ⟨s, hs, h2⟩)
  · cases h1
  · apply hs
    injection h2 with h3
    injection h3 with h4
    exact h4.symm

/-- C15, amended: in every node state reached from a node whose tag and anchor are each absent
or a string, as they are after construction, by any sequence of assignments to `tag` and
`anchor`, the tag and the anchor are each absent or a string, which may be empty. -/
theorem C15_tag_and_anchor_absent_or_string (self : PySyckNodeObject) (calls : List NodeCall)
    (htag : self.tag = none ∨ ∃ s, self.tag = some (.PyString s))
    (hanchor : self.anchor = none ∨ ∃ s, self.anchor = some (.PyString s)) :
    ((Node_after self calls).tag = none ∨
      ∃ s, (Node_after self calls).tag = some (.PyString s)) ∧
    ((Node_after self calls).anchor = none ∨
      ∃ s, (Node_after self calls).anchor = some (.PyString s)) :=
  Node_after_absent_or_string calls self htag hanchor

/-- C15, amended, worked example: a constructed Seq, with a string, an integer and `None`
assigned to `tag` and a string to `anchor`. -/
theorem C15_tag_and_anchor_witness :
    ((Node_after PySyckSeq_new.toPySyckNodeObject
        [.settag (some (.PyString (cstr "t"))), .settag (some (.PyInt 3)),
          .setanchor (some (.PyString (cstr "x"))), .settag (some .PyNone)]).tag = none ∨
      ∃ s, (Node_after PySyckSeq_new.toPySyckNodeObject
        [.settag (some (.PyString (cstr "t"))), .settag (some (.PyInt 3)),
          .setanchor (some (.PyString (cstr "x"))), .settag (some .PyNone)]).tag =
            some (.PyString s)) ∧
    ((Node_after PySyckSeq_new.toPySyckNodeObject
        [.settag (some (.PyString (cstr "t"))), .settag (some (.PyInt 3)),
          .setanchor (some (.PyString (cstr "x"))), .settag (some .PyNone)]).anchor = none ∨
      ∃ s, (Node_after PySyckSeq_new.toPySyckNodeObject
        [.settag (some (.PyString (cstr "t"))), .settag (some (.PyInt 3)),
          .setanchor (some (.PyString (cstr "x"))), .settag (some .PyNone)]).anchor =
            some (.PyString s)) :=
  C15_tag_and_anchor_absent_or_string PySyckSeq_new.toPySyckNodeObject _ (Or.inl rfl)
    (Or.inl rfl)

/-- C16: for each setter (tag and anchor of a node; value, style, indent, width and chomp of a
Scalar; value and inline of a Seq and of a Map, inline being kept in the field `style`) and
every argument, the object after the call differs from the object before at most in the field
the setter is named for, and a call that raises an error leaves the object exactly as it was. -/
theorem C16_setters_change_one_field_or_nothing :
    (∀ (self : PySyckNodeObject) (v : Option PyObject),
      (PySyckNode_settag self v).1 = { self with tag := (PySyckNode_settag self v).1.tag } ∧
      ((PySyckNode_settag self v).2 ≠ none → (PySyckNode_settag self v).1 = self)) ∧
    (∀ (self : PySyckNodeObject) (v : Option PyObject),
      (PySyckNode_setanchor self v).1 =
        { self with anchor := (PySyckNode_setanchor self v).1.anchor } ∧
      ((PySyckNode_setanchor self v).2 ≠ none → (PySyckNode_setanchor self v).1 = self)) ∧
    (∀ (self : PySyckScalarObject) (v : Option PyObject),
      (PySyckScalar_setvalue self v).1 =
        { self with value := (PySyckScalar_setvalue self v).1.value } ∧
      ((PySyckScalar_setvalue self v).2 ≠ none → (PySyckScalar_setvalue self v).1 = self)) ∧
    (∀ (self : PySyckScalarObject) (v : Option PyObject),
      (PySyckScalar_setstyle self v).1 =
        { self with style := (PySyckScalar_setstyle self v).1.style } ∧
      ((PySyckScalar_setstyle self v).2 ≠ none → (PySyckScalar_setstyle self v).1 = self)) ∧
    (∀ (self : PySyckScalarObject) (v : Option PyObject),
      (PySyckScalar_setindent self v).1 =
        { self with indent := (PySyckScalar_setindent self v).1.indent } ∧
      ((PySyckScalar_setindent self v).2 ≠ none → (PySyckScalar_setindent self v).1 = self)) ∧
    (∀ (self : PySyckScalarObject) (v : Option PyObject),
      (PySyckScalar_setwidth self v).1 =
        { self with width := (PySyckScalar_setwidth self v).1.width } ∧
      ((PySyckScalar_setwidth self v).2 ≠ none → (PySyckScalar_setwidth self v).1 = self)) ∧
    (∀ (self : PySyckScalarObject) (v : Option PyObject),
      (PySyckScalar_setchomp self v).1 =
        { self with chomp := (PySyckScalar_setchomp self v).1.chomp } ∧
      ((PySyckScalar_setchomp self v).2 ≠ none → (PySyckScalar_setchomp self v).1 = self)) ∧
    (∀ (self : PySyckSeqObject) (v : Option PyObject),
      (PySyckSeq_setvalue self v).1 = { self with value := (PySyckSeq_setvalue self v).1.value } ∧
      ((PySyckSeq_setvalue self v).2 ≠ none → (PySyckSeq_setvalue self v).1 = self)) ∧
    (∀ (self : PySyckSeqObject) (v : Option PyObject),
      (PySyckSeq_setinline self v).1 =
        { self with style := (PySyckSeq_setinline self v).1.style } ∧
      ((PySyckSeq_setinline self v).2 ≠ none → (PySyckSeq_setinline self v).1 = self)) ∧
    (∀ (self : PySyckMapObject) (v : Option PyObject),
      (PySyckMap_setvalue self v).1 = { self with value := (PySyckMap_setvalue self v).1.value } ∧
      ((PySyckMap_setvalue self v).2 ≠ none → (PySyckMap_setvalue self v).1 = self)) ∧
    (∀ (self : PySyckMapObject) (v : Option PyObject),
      (PySyckMap_setinline self v).1 =
        { self with style := (PySyckMap_setinline self v).1.style } ∧
      ((PySyckMap_setinline self v).2 ≠ none → (PySyckMap_setinline self v).1 = self)) :=
  ⟨PySyckNode_settag_frame, PySyckNode_setanchor_frame, PySyckScalar_setvalue_frame,
    PySyckScalar_setstyle_frame, PySyckScalar_setindent_frame, PySyckScalar_setwidth_frame,
    PySyckScalar_setchomp_frame, PySyckSeq_setvalue_frame, PySyckSeq_setinline_frame,
    PySyckMap_setvalue_frame, PySyckMap_setinline_frame⟩

/-- C17, as stated, fails: `PySyckSeq_setvalue` accepts a string and a tuple, which pass
`PySequence_Check` and have no `append`; the value of the Seq is then that string or tuple. -/
theorem C17_counterexample_string_as_seq_value :
    PySyckSeq_setvalue PySyckSeq_new (some (.PyString (cstr "ab"))) =
      ({ PySyckSeq_new with value := some (.PyString (cstr "ab")) }, none) ∧
    supports_append (.PyString (cstr "ab")) = false ∧
    (Seq_after PySyckSeq_new [some (.PyString (cstr "ab"))]).value =
      some (.PyString (cstr "ab")) ∧
    PySyckSeq_setvalue PySyckSeq_new (some (.PyTuple [])) =
      ({ PySyckSeq_new with value := some (.PyTuple []) }, none) ∧
    supports_append (.PyTuple []) = false := by
  decide

/-- C17, amended: after any sequence of assignments to `value` of a constructed Seq the value
is an object that passes `PySequence_Check`, and after any such sequence on a constructed Map
the value is an object that passes `PyMapping_Check`.  Each setter accepts an object that
passes its check, storing it, and rejects an object that fails the check and a request to
delete, leaving the node as it was. -/
theorem C17_value_passes_the_check_of_its_setter (values : List (Option PyObject))
    (seq : PySyckSeqObject) (map : PySyckMapObject) (o : PyObject) :
    ((∃ v, (Seq_after PySyckSeq_new values).value = some v ∧ PySequence_Check v = true) ∧
      (PySequence_Check o = true →
        PySyckSeq_setvalue seq (some o) = ({ seq with value := some o }, none)) ∧
      (PySequence_Check o = false →
        PySyckSeq_setvalue seq (some o) =
          (seq, some (.TypeError "'value' must be a sequence"))) ∧
      PySyckSeq_setvalue seq none = (seq, some (.TypeError "cannot delete 'value'"))) ∧
    ((∃ v, (Map_after PySyckMap_new values).value = some v ∧ PyMapping_Check v = true) ∧
      (PyMapping_Check o = true →
        PySyckMap_setvalue map (some o) = ({ map with value := some o }, none)) ∧
      (PyMapping_Check o = false →
        PySyckMap_setvalue map (some o) =
          (map, some (.TypeError "'value' must be a mapping"))) ∧
      PySyckMap_setvalue map none = (map, some (.TypeError "cannot delete 'value'"))) := by
  refine ⟨⟨Seq_after_sequence values PySyckSeq_new ⟨_, rfl, rfl⟩, ?_, ?_, rfl⟩,
    ⟨Map_after_mapping values PySyckMap_new ⟨_, rfl, rfl⟩, ?_, ?_, rfl⟩⟩
  · intro h
    simp [PySyckSeq_setvalue, h]
  · intro h
    simp [PySyckSeq_setvalue, h]
  · intro h
    simp [PySyckMap_setvalue, h]
  · intro h
    simp [PySyckMap_setvalue, h]

theorem parser_symbols_eta (self : PySyckParserObject) (syms : List Addr)
    (hsym : self.symbols = some (.PyList syms)) :
    self = { self with symbols := some (.PyList syms), halt := self.halt } := by
  cases self
  simp_all

theorem node_handler_halted (heap : Heap) (self : PySyckParserObject) (node : SyckNode)
    (hhalt : self.halt ≠ 0) :
    PySyckParser_node_handler heap self node = some (heap, self, -1) := by
  simp [PySyckParser_node_handler, hhalt]

/-- What one call of the scanner does to a parser whose symbol table is a list: the call
returns, only `symbols` and `halt` can change, the table keeps its entries, a set halt flag
stays set, a halt flag that becomes set comes with an exception, and an index returned on a
parser that is not halted is an index of the table. -/
theorem scanner_call_spec (heap : Heap) (self : PySyckParserObject) (syms : List Addr)
    (call : ScannerCall) (hsym : self.symbols = some (.PyList syms)) :
    ∃ (heap' : Heap) (self' : PySyckParserObject) (raised : Option PyErr) (id : Option Int)
        (syms' : List Addr),
      scanner_call heap self call = some (heap', self', raised, id) ∧
      self' = { self with symbols := some (.PyList syms'), halt := self'.halt } ∧
      syms.length ≤ syms'.length ∧
      (self.halt ≠ 0 → self' = self ∧ raised = none) ∧
      (self.halt = 0 → self'.halt ≠ 0 → raised.isSome) ∧
      (∀ i, id = some i → self'.halt = 0 → 0 ≤ i ∧ i < (syms'.length : Int)) := by
  cases call with
  | handler node =>
    by_cases hhalt : self.halt = 0
    · cases hsw : node_handler_switch (.PyList syms) node with
      | none =>
        refine ⟨heap, { self with halt := 1 }, some (.IndexError "list index out of range"),
          some (-1), syms, ?_, ?_, le_refl _, ?_, ?_, ?_⟩
        · simp [scanner_call, node_handler_failed heap self node _ hhalt hsym hsw, hhalt]
        · simp [hsym]
        · intro h; exact absurd hhalt h
        · intro _ _; rfl
        · intro i _ h; simp at h
      | some object =>
        refine ⟨heap ++ [node_handler_attach object node],
          { self with symbols := some (.PyList (syms ++ [heap.length])) }, none,
          some (syms.length : Int), syms ++ [heap.length], ?_, ?_, by simp, ?_, ?_, ?_⟩
        · have hne : ¬ ((syms.length : Int) = -1) := by omega
          simp [scanner_call, node_handler_built heap self node syms object hhalt hsym hsw, hne]
        · rfl
        · intro h; exact absurd hhalt h
        · intro _ h; exact absurd hhalt h
        · intro i hi _
          simp only [Option.some.injEq] at hi
          subst hi
          simp
    · refine ⟨heap, self, none, some (-1), syms, ?_, ?_, le_refl _, ?_, ?_, ?_⟩
      · simp [scanner_call, node_handler_halted heap self node hhalt, hhalt]
      · exact parser_symbols_eta self syms hsym
      · intro _; exact ⟨rfl, rfl⟩
      · intro h; exact absurd h hhalt
      · intro i _ h; exact absurd h hhalt
  | error_handler parser str =>
    by_cases hhalt : self.halt = 0
    · refine ⟨heap, { self with halt := 1 },
        some (.PySyck_Error str parser.linect (parser.cursor - parser.lineptr)), none, syms,
        ?_, ?_, le_refl _, ?_, ?_, ?_⟩
      · simp [scanner_call, PySyckParser_error_handler, hhalt]
      · simp [hsym]
      · intro h; exact absurd hhalt h
      · intro _ _; rfl
      · intro i hi; simp at hi
    · refine ⟨heap, self, none, none, syms, ?_, ?_, le_refl _, ?_, ?_, ?_⟩
      · simp [scanner_call, PySyckParser_error_handler, hhalt]
      · exact parser_symbols_eta self syms hsym
      · intro _; exact ⟨rfl, rfl⟩
      · intro h; exact absurd h hhalt
      · intro i hi; simp at hi
  | read_handler buf max_size skip read =>
    have hshape : ∀ r : (Int → Nat) × PySyckParserObject × Int × Option PyErr × List Int,
        r = PySyckParser_read_handler buf self max_size skip read →
        (r.2.1 = self ∧ (self.halt ≠ 0 → r.2.2.2.1 = none)) ∨
        (self.halt = 0 ∧ r.2.1 = { self with halt := 1 } ∧ r.2.2.2.1.isSome) := by
      intro r hr
      subst hr
      unfold PySyckParser_read_handler
      by_cases hhalt : self.halt = 0
      · simp only [hhalt, ne_eq, not_true_eq_false, if_false]
        cases hsrc : self.source with
        | none => right; simp
        | some src =>
          dsimp only
          cases hread : read (max_size - skip) with
          | raised e => right; simp
          | returned value =>
            dsimp only
            split_ifs
            · right; simp
            · left; simp
            · right; simp
            · left; simp
      · left
        simp [hhalt]
    rcases hshape _ rfl with ⟨h1, h2⟩ | ⟨h0, h1, h2⟩
    · refine ⟨heap, self, (PySyckParser_read_handler buf self max_size skip read).2.2.2.1, none,
        syms, ?_, ?_, le_refl _, ?_, ?_, ?_⟩
      · simp [scanner_call, h1]
      · exact parser_symbols_eta self syms hsym
      · intro h; exact ⟨rfl, h2 h⟩
      · intro h hne; exact absurd h hne
      · intro i hi; simp at hi
    · refine ⟨heap, { self with halt := 1 },
        (PySyckParser_read_handler buf self max_size skip read).2.2.2.1, none, syms,
        ?_, ?_, le_refl _, ?_, ?_, ?_⟩
      · simp [scanner_call, h1]
      · simp [hsym]
      · intro h; exact absurd h0 h
      · intro _ _; exact h2
      · intro i hi; simp at hi

theorem scanner_calls_spec :
    ∀ (calls : List ScannerCall) (heap : Heap) (self : PySyckParserObject)
      (err : Option PyErr) (ids : List Int) (syms : List Addr),
      self.symbols = some (.PyList syms) →
      (self.halt ≠ 0 → err.isSome) →
      (self.halt = 0 → ∀ i ∈ ids, 0 ≤ i ∧ i < (syms.length : Int)) →
      ∃ (heap' : Heap) (self' : PySyckParserObject) (err' : Option PyErr) (ids' : List Int)
          (syms' : List Addr),
        scanner_calls heap self err ids calls = some (heap', self', err', ids') ∧
        self' = { self with symbols := some (.PyList syms'), halt := self'.halt } ∧
        (self.halt ≠ 0 → self'.halt ≠ 0) ∧
        (self'.halt ≠ 0 → err'.isSome) ∧
        (self'.halt = 0 → ∀ i ∈ ids', 0 ≤ i ∧ i < (syms'.length : Int)) := by
  intro calls
  induction calls with
  | nil =>
    intro heap self err ids syms hsym herr hids
    exact ⟨heap, self, err, ids, syms, rfl, parser_symbols_eta self syms hsym, id, herr, hids⟩
  | cons call rest ih =>
    intro heap self err ids syms hsym herr hids
    obtain ⟨heap1, self1, raised, id1, syms1, hstep, hself1, hlen, hhalted, hraised, hid⟩ :=
      scanner_call_spec heap self syms call hsym
    have hsym1 : self1.symbols = some (.PyList syms1) := by rw [hself1]
    have hback : self1.halt = 0 → self.halt = 0 := by
      intro h1
      by_contra h
      rw [(hhalted h).1] at h1
      exact h h1
    have herr1 : self1.halt ≠ 0 → (if raised.isSome then raised else err).isSome := by
      intro h1
      by_cases h : self.halt = 0
      · have := hraised h h1
        simp [this]
      · have hr := (hhalted h).2
        subst hr
        simpa using herr h
    have hids1 : self1.halt = 0 → ∀ i ∈ (match id1 with
        | some index => ids ++ [index]
        | none => ids), 0 ≤ i ∧ i < (syms1.length : Int) := by
      intro h1 i hi
      have hold : ∀ j ∈ ids, 0 ≤ j ∧ j < (syms1.length : Int) := by
        intro j hj
        have := hids (hback h1) j hj
        constructor
        · exact this.1
        · have hl : (syms.length : Int) ≤ syms1.length := by exact_mod_cast hlen
          omega
      cases id1 with
      | none => exact hold i hi
      | some index =>
        simp only [List.mem_append, List.mem_singleton] at hi
        rcases hi with hi | hi
        · exact hold i hi
        · subst hi
          exact hid _ rfl h1
    obtain ⟨heap', self', err', ids', syms', hrun, hself', hmono, herr', hids'⟩ :=
      ih heap1 self1 _ _ syms1 hsym1 herr1 hids1
    refine ⟨heap', self', err', ids', syms', ?_, ?_, ?_, herr', hids'⟩
    · simp only [scanner_calls, hstep]
      exact hrun
    · rw [hself', hself1]
    · intro h
      apply hmono
      rw [(hhalted h).1]
      exact h

/-- The three ways `parse` ends after the scanner has run on a parser that was neither parsing
nor halted. -/
theorem parse_after_scan (heap heap1 : Heap) (self self1 : PySyckParserObject)
    (run : ScannerRun) (err : Option PyErr) (ids : List Int) (syms1 : List Addr)
    (hparsing : self.parsing = 0) (hhalt : self.halt = 0) (hparser : self.parser ≠ none)
    (hscan : scanner_calls heap { self with symbols := some PyList_New, parsing := 1 } none []
      run.calls = some (heap1, self1, err, ids))
    (hsym1 : self1.symbols = some (.PyList syms1)) :
    PySyckParser_parse heap self run =
      if self1.halt ≠ 0 then
        some (heap1, { self1 with parser := some run.parser, parsing := 0, symbols := none },
          .NULL, err)
      else if run.parser.eof ≠ 0 then
        some (heap1,
          { self1 with parser := some run.parser, parsing := 0, symbols := none, halt := 1 },
          .Py_None, err)
      else
        match syms1[run.root]? with
        | none =>
          some (heap1, { self1 with parser := some run.parser, parsing := 0, symbols := none },
            .NULL, some (.IndexError "list index out of range"))
        | some value =>
          some (heap1, { self1 with parser := some run.parser, parsing := 0, symbols := none },
            .object value, err) := by
  obtain ⟨p, hp⟩ := Option.ne_none_iff_exists'.mp hparser
  obtain ⟨source, implicit_typing, taguri_expansion, symbols, parser, parsing, halt⟩ := self
  simp only at hparsing hhalt hp hscan
  subst hparsing hhalt hp
  unfold PySyckParser_parse syck_parse
  simp only [ne_eq, not_true_eq_false, if_false, hscan]
  by_cases h1 : self1.halt = 0
  · simp only [h1, not_true_eq_false, if_false]
    by_cases h2 : run.parser.eof = 0
    · simp only [h2, not_true_eq_false, if_false, hsym1, PyList_GetItem]
    · simp [h2, hsym1]
  · simp [h1, hsym1]

theorem parse_halted (heap : Heap) (self : PySyckParserObject) (run : ScannerRun)
    (hhalt : self.halt ≠ 0) (hparsing : self.parsing = 0) :
    PySyckParser_parse heap self run = some (heap, self, .Py_None, none) := by
  simp [PySyckParser_parse, hhalt, hparsing]

theorem parse_calls_halted (heap : Heap) (self : PySyckParserObject)
    (hhalt : self.halt ≠ 0) (hparsing : self.parsing = 0) :
    ∀ runs : List ScannerRun,
      parse_calls heap self runs = some (heap, self, List.replicate runs.length .Py_None) := by
  intro runs
  induction runs with
  | nil => rfl
  | cons run rest ih =>
    simp [parse_calls, parse_halted heap self run hhalt hparsing, ih, List.replicate_succ]

/-- C18: on a parser with `halt` set and `parsing` clear, `parse()` returns `None` and raises
nothing, whatever the scanner would do (it is not run), and leaves the heap and every field of
the parser as they were; hence every further call returns `None` as well. -/
theorem C18_parse_when_halted (heap : Heap) (self : PySyckParserObject) (run : ScannerRun)
    (hhalt : self.halt ≠ 0) (hparsing : self.parsing = 0) :
    PySyckParser_parse heap self run = some (heap, self, .Py_None, none) ∧
    ∀ runs : List ScannerRun,
      parse_calls heap self runs = some (heap, self, List.replicate runs.length .Py_None) :=
  ⟨parse_halted heap self run hhalt hparsing, parse_calls_halted heap self hhalt hparsing⟩

/-- C18, worked example: a halted parser outside `parse()`. -/
theorem C18_parse_when_halted_witness :
    PySyckParser_parse heap_ab { parser_idle with halt := 1 } run_document =
      some (heap_ab, { parser_idle with halt := 1 }, .Py_None, none) ∧
    ∀ runs : List ScannerRun,
      parse_calls heap_ab { parser_idle with halt := 1 } runs =
        some (heap_ab, { parser_idle with halt := 1 }, List.replicate runs.length .Py_None) :=
  C18_parse_when_halted heap_ab { parser_idle with halt := 1 } run_document (by decide) rfl

/-- C19: when the halt flag becomes set while the scanner runs during a `parse()` call on a
parser that was neither parsing nor halted (a callback set it: the error handler, a failing
node handler or a failing read handler), the call returns `NULL` with the exception of that
callback raised; on return the halt flag is set, `parsing` is clear and the symbol table is
gone.  The next `parse()` call, with any scanner behaviour, returns `None`, raises nothing and
changes nothing. -/
theorem C19_halt_during_parse_is_an_error (heap heap1 : Heap)
    (self self1 : PySyckParserObject) (run : ScannerRun) (err : Option PyErr) (ids : List Int)
    (hparsing : self.parsing = 0) (hhalt : self.halt = 0) (hparser : self.parser ≠ none)
    (hscan : scanner_calls heap { self with symbols := some PyList_New, parsing := 1 } none []
      run.calls = some (heap1, self1, err, ids))
    (hset : self1.halt ≠ 0) :
    ∃ (self2 : PySyckParserObject) (e : PyErr),
      PySyckParser_parse heap self run = some (heap1, self2, .NULL, some e) ∧
      err = some e ∧
      self2.halt ≠ 0 ∧ self2.parsing = 0 ∧ self2.symbols = none ∧
      ∀ next : ScannerRun,
        PySyckParser_parse heap1 self2 next = some (heap1, self2, .Py_None, none) := by
  obtain ⟨heap', self', err', ids', syms', hrun, hself', _, herr', _⟩ :=
    scanner_calls_spec run.calls heap { self with symbols := some PyList_New, parsing := 1 }
      none [] [] rfl (fun h => absurd hhalt h) (fun _ i hi => by simp at hi)
  rw [hscan] at hrun
  simp only [Option.some.injEq, Prod.mk.injEq] at hrun
  obtain ⟨_, hs, he, _⟩ := hrun
  subst hs he
  have hsym1 : self1.symbols = some (.PyList syms') := by rw [hself']
  obtain ⟨e, he⟩ := Option.isSome_iff_exists.mp (herr' hset)
  refine ⟨{ self1 with parser := some run.parser, parsing := 0, symbols := none }, e, ?_, he,
    hset, rfl, rfl, ?_⟩
  · rw [parse_after_scan heap heap1 self self1 run err ids syms' hparsing hhalt hparser hscan
      hsym1, if_pos hset, he]
  · intro next
    exact parse_halted heap1 _ next hset rfl

/-- C19, worked example: the scanner reports the first of three nodes and then a syntax error;
`parse()` raises that error and the next call returns `None`. -/
theorem C19_halt_during_parse_witness :
    ∃ (self2 : PySyckParserObject) (e : PyErr),
      PySyckParser_parse [] parser_idle run_error_after_first =
        some ([.Scalar scalar_a], self2, .NULL, some e) ∧
      some (PyErr.PySyck_Error (cstr "syntax error") 1 2) = some e ∧
      self2.halt ≠ 0 ∧ self2.parsing = 0 ∧ self2.symbols = none ∧
      ∀ next : ScannerRun,
        PySyckParser_parse [.Scalar scalar_a] self2 next =
          some ([.Scalar scalar_a], self2, .Py_None, none) :=
  C19_halt_during_parse_is_an_error [] [.Scalar scalar_a] parser_idle
    { parser_idle with symbols := some (.PyList [0]), parsing := 1, halt := 1 }
    run_error_after_first (some (.PySyck_Error (cstr "syntax error") 1 2)) [0]
    rfl rfl (by decide) (by decide) (by decide)

/-- C17, amended, worked example: a list, a string, an integer and a delete request assigned to
the value of a Seq, and a dict and a list assigned to the value of a Map. -/
theorem C17_value_passes_the_check_witness :
    (∃ v, (Seq_after PySyckSeq_new
        [some (.PyList [0]), some (.PyString (cstr "ab")), some (.PyInt 3), none]).value =
          some v ∧ PySequence_Check v = true) ∧
    PySyckSeq_setvalue PySyckSeq_new (some (.PyList [0])) =
      ({ PySyckSeq_new with value := some (.PyList [0]) }, none) ∧
    PySyckMap_setvalue PySyckMap_new (some (.PyList [0])) =
      (PySyckMap_new, some (.TypeError "'value' must be a mapping")) :=
  ⟨(C17_value_passes_the_check_of_its_setter
      [some (.PyList [0]), some (.PyString (cstr "ab")), some (.PyInt 3), none]
      PySyckSeq_new PySyckMap_new (.PyList [0])).1.1,
    (C17_value_passes_the_check_of_its_setter [] PySyckSeq_new PySyckMap_new
      (.PyList [0])).1.2.1 rfl,
    (C17_value_passes_the_check_of_its_setter [] PySyckSeq_new PySyckMap_new
      (.PyList [0])).2.2.2.1 rfl⟩

/-- The read handler leaves the parser object as it was or, on a parser that was not halted,
sets its halt flag and raises. -/
theorem read_handler_self (buf : Int → Nat) (self : PySyckParserObject)
    (max_size skip : Int) (read : Int → ReadResult) :
    ((PySyckParser_read_handler buf self max_size skip read).2.1 = self ∧
      (PySyckParser_read_handler buf self max_size skip read).2.2.2.1 = none) ∨
    (self.halt = 0 ∧
      (PySyckParser_read_handler buf self max_size skip read).2.1 = { self with halt := 1 } ∧
      (PySyckParser_read_handler buf self max_size skip read).2.2.2.1.isSome) := by
  unfold PySyckParser_read_handler
  by_cases hhalt : self.halt = 0
  · simp only [hhalt, ne_eq, not_true_eq_false, if_false]
    cases hsrc : self.source with
    | none => right; simp
    | some src =>
      dsimp only
      cases hread : read (max_size - skip) with
      | raised e => right; simp
      | returned value =>
        dsimp only
        split_ifs
        · right; simp
        · left; simp
        · right; simp
        · left; simp
  · left
    simp [hhalt]

/-- A call of the scanner on a halted parser changes neither the heap nor the parser and
raises nothing; the node handler returns -1. -/
theorem scanner_call_halted (heap : Heap) (self : PySyckParserObject) (call : ScannerCall)
    (hhalt : self.halt ≠ 0) :
    scanner_call heap self call = some (heap, self, none, none) ∨
    scanner_call heap self call = some (heap, self, none, some (-1)) := by
  cases call with
  | handler node =>
    right
    simp [scanner_call, node_handler_halted heap self node hhalt, hhalt]
  | error_handler parser str =>
    left
    simp [scanner_call, PySyckParser_error_handler, hhalt]
  | read_handler buf max_size skip read =>
    left
    simp [scanner_call, PySyckParser_read_handler, hhalt]

/-- A call of the scanner that raises leaves the halt flag set. -/
theorem scanner_call_raised_halts (heap heap' : Heap) (self self' : PySyckParserObject)
    (call : ScannerCall) (raised : Option PyErr) (id : Option Int)
    (hcall : scanner_call heap self call = some (heap', self', raised, id))
    (hraised : raised.isSome) : self'.halt ≠ 0 := by
  cases call with
  | handler node =>
    simp only [scanner_call] at hcall
    cases hres : PySyckParser_node_handler heap self node with
    | none => simp [hres] at hcall
    | some r =>
      obtain ⟨heap1, self1, index⟩ := r
      simp only [hres, Option.some.injEq, Prod.mk.injEq] at hcall
      obtain ⟨_, hs, hr, _⟩ := hcall
      subst hs
      by_cases hc : self.halt = 0 ∧ index = -1
      · obtain ⟨_, hi⟩ := hc
        subst hi
        exact (node_handler_failed_halts heap heap1 self self1 node hres).1
      · rw [if_neg hc] at hr
        subst hr
        simp at hraised
  | error_handler parser str =>
    simp only [scanner_call, PySyckParser_error_handler, Option.some.injEq,
      Prod.mk.injEq] at hcall
    obtain ⟨_, hs, hr, _⟩ := hcall
    by_cases hhalt : self.halt = 0
    · rw [if_neg (not_not.mpr hhalt)] at hs
      subst hs
      simp
    · rw [if_pos hhalt] at hr
      subst hr
      simp at hraised
  | read_handler buf max_size skip read =>
    simp only [scanner_call, Option.some.injEq, Prod.mk.injEq] at hcall
    obtain ⟨_, hs, hr, _⟩ := hcall
    rcases read_handler_self buf self max_size skip read with ⟨_, h2⟩ | ⟨_, h1, _⟩
    · rw [h2] at hr
      subst hr
      simp at hraised
    · rw [h1] at hs
      subst hs
      simp

/-- Calls of the scanner on a halted parser change neither the heap, the parser nor the error
indicator. -/
theorem scanner_calls_halted :
    ∀ (calls : List ScannerCall) (heap : Heap) (self : PySyckParserObject)
      (err : Option PyErr) (ids : List Int), self.halt ≠ 0 →
      ∃ ids', scanner_calls heap self err ids calls = some (heap, self, err, ids') := by
  intro calls
  induction calls with
  | nil =>
    intro heap self err ids _
    exact ⟨ids, rfl⟩
  | cons call rest ih =>
    intro heap self err ids hhalt
    rcases scanner_call_halted heap self call hhalt with h | h
    · obtain ⟨ids', hrest⟩ := ih heap self err ids hhalt
      exact ⟨ids', by simpa [scanner_calls, h] using hrest⟩
    · obtain ⟨ids', hrest⟩ := ih heap self err (ids ++ [-1]) hhalt
      exact ⟨ids', by simpa [scanner_calls, h] using hrest⟩

/-- When the scanner ends with the halt flag clear, no call raised: the error indicator is as
it was before the scan. -/
theorem scanner_calls_clean :
    ∀ (calls : List ScannerCall) (heap heap' : Heap) (self self' : PySyckParserObject)
      (err err' : Option PyErr) (ids ids' : List Int),
      scanner_calls heap self err ids calls = some (heap', self', err', ids') →
      self'.halt = 0 → err' = err := by
  intro calls
  induction calls with
  | nil =>
    intro heap heap' self self' err err' ids ids' h _
    simp only [scanner_calls, Option.some.injEq, Prod.mk.injEq] at h
    exact h.2.2.1.symm
  | cons call rest ih =>
    intro heap heap' self self' err err' ids ids' h hclear
    simp only [scanner_calls] at h
    cases hcall : scanner_call heap self call with
    | none => simp [hcall] at h
    | some r =>
      obtain ⟨heap1, self1, raised, id⟩ := r
      simp only [hcall] at h
      by_cases hr : raised.isSome
      · exfalso
        have h1 := scanner_call_raised_halts heap heap1 self self1 call raised id hcall hr
        obtain ⟨ids2, h2⟩ := scanner_calls_halted rest heap1 self1 _ _ h1
        rw [h2] at h
        simp only [Option.some.injEq, Prod.mk.injEq] at h
        rw [← h.2.1] at hclear
        exact h1 hclear
      · have := ih heap1 heap' self1 self' _ err' _ ids' h hclear
        rw [this, if_neg hr]

/-- C21, counterexample: on a parser that is not halted, an error that the scanner reports
while its line counter `linect` is 0 (the error is on the first line of the source) is recorded
with the line number 0, which is not a line number counted from 1. -/
theorem C21_counterexample_line_zero :
    PySyckParser_error_handler { linect := 0, lineptr := 0, cursor := 3, eof := 0 }
        parser_start (cstr "syntax error") =
      ({ parser_start with halt := 1 }, some (.PySyck_Error (cstr "syntax error") 0 3)) ∧
    parser_start.halt = 0 ∧
    ¬ ∃ e : PyErr,
      (PySyckParser_error_handler { linect := 0, lineptr := 0, cursor := 3, eof := 0 }
        parser_start (cstr "syntax error")).2 = some e ∧
      ∃ (str : List Nat) (line column : Int),
        e = .PySyck_Error str line column ∧ 1 ≤ line := by
  refine ⟨by decide, by decide, ?_⟩
  rintro ⟨e, he, str, line, column, hstr, hline⟩
  have h0 : (PySyckParser_error_handler { linect := 0, lineptr := 0, cursor := 3, eof := 0 }
      parser_start (cstr "syntax error")).2 =
      some (.PySyck_Error (cstr "syntax error") 0 3) := by decide
  rw [h0, hstr] at he
  simp only [Option.some.injEq, PyErr.PySyck_Error.injEq] at he
  omega

/-- C21, amended: on a parser that is not halted the error handler sets the halt flag, changes
no other field, and records one error that carries the scanner's message, the scanner's line
counter `linect` as it is (nothing is added to it) and the column offset `cursor - lineptr`;
on a halted parser it records nothing and changes nothing, so a second report after a first one
is dropped. -/
theorem C21_error_handler_records_scanner_position (parser : SyckParser)
    (self : PySyckParserObject) (str : List Nat) :
    (self.halt = 0 →
      PySyckParser_error_handler parser self str =
        ({ self with halt := 1 },
          some (.PySyck_Error str parser.linect (parser.cursor - parser.lineptr)))) ∧
    (self.halt ≠ 0 → PySyckParser_error_handler parser self str = (self, none)) ∧
    ∀ (parser2 : SyckParser) (str2 : List Nat),
      PySyckParser_error_handler parser2 (PySyckParser_error_handler parser self str).1 str2 =
        ((PySyckParser_error_handler parser self str).1, none) := by
  refine ⟨?_, ?_, ?_⟩
  · intro h
    simp [PySyckParser_error_handler, h]
  · intro h
    simp [PySyckParser_error_handler, h]
  · intro parser2 str2
    by_cases h : self.halt = 0
    · simp [PySyckParser_error_handler, h]
    · simp [PySyckParser_error_handler, h]

/-- C21, amended, worked example: a syntax error on the second line (`linect` is 1), two bytes
into the line, reported on a parser that is not halted and on a halted one. -/
theorem C21_error_handler_witness :
    PySyckParser_error_handler { linect := 1, lineptr := 4, cursor := 6, eof := 0 }
        parser_start (cstr "syntax error") =
      ({ parser_start with halt := 1 }, some (.PySyck_Error (cstr "syntax error") 1 2)) ∧
    PySyckParser_error_handler { linect := 1, lineptr := 4, cursor := 6, eof := 0 }
        parser_halted (cstr "syntax error") = (parser_halted, none) :=
  ⟨(C21_error_handler_records_scanner_position
      { linect := 1, lineptr := 4, cursor := 6, eof := 0 } parser_start
      (cstr "syntax error")).1 rfl,
    (C21_error_handler_records_scanner_position
      { linect := 1, lineptr := 4, cursor := 6, eof := 0 } parser_halted
      (cstr "syntax error")).2.1 (by decide)⟩

/-- A `parse()` call made with the flag `parsing` clear leaves it clear. -/
theorem parse_leaves_parsing_clear (heap heap' : Heap) (self self' : PySyckParserObject)
    (run : ScannerRun) (value : PyReturn) (err : Option PyErr)
    (hparsing : self.parsing = 0)
    (hparse : PySyckParser_parse heap self run = some (heap', self', value, err)) :
    self'.parsing = 0 := by
  by_cases hhalt : self.halt = 0
  · cases hp : self.parser with
    | none =>
      simp [PySyckParser_parse, syck_parse, hparsing, hhalt, hp] at hparse
    | some p =>
      have hparser : self.parser ≠ none := by simp [hp]
      obtain ⟨heap1, self1, err1, ids, syms1, hscan, hself1, _, _, _⟩ :=
        scanner_calls_spec run.calls heap { self with symbols := some PyList_New, parsing := 1 }
          none [] [] rfl (fun h => absurd hhalt h) (fun _ i hi => by simp at hi)
      have hsym1 : self1.symbols = some (.PyList syms1) := by rw [hself1]
      rw [parse_after_scan heap heap1 self self1 run err1 ids syms1 hparsing hhalt hparser
        hscan hsym1] at hparse
      split_ifs at hparse
      · simp only [Option.some.injEq, Prod.mk.injEq] at hparse
        rw [← hparse.2.1]
      · simp only [Option.some.injEq, Prod.mk.injEq] at hparse
        rw [← hparse.2.1]
      · cases hroot : syms1[run.root]? with
        | none =>
          simp only [hroot, Option.some.injEq, Prod.mk.injEq] at hparse
          rw [← hparse.2.1]
        | some node =>
          simp only [hroot, Option.some.injEq, Prod.mk.injEq] at hparse
          rw [← hparse.2.1]
  · rw [parse_halted heap self run hhalt hparsing] at hparse
    simp only [Option.some.injEq, Prod.mk.injEq] at hparse
    rw [← hparse.2.1]
    exact hparsing

/-- A `parse()` call on a parser that is not parsing, and that has a scanner handle unless it
is halted, returns. -/
theorem parse_returns (heap : Heap) (self : PySyckParserObject) (run : ScannerRun)
    (hparsing : self.parsing = 0) (hparser : self.halt = 0 → self.parser ≠ none) :
    ∃ (heap' : Heap) (self' : PySyckParserObject) (value : PyReturn) (err : Option PyErr),
      PySyckParser_parse heap self run = some (heap', self', value, err) := by
  by_cases hhalt : self.halt = 0
  · obtain ⟨heap1, self1, err1, ids, syms1, hscan, hself1, _, _, _⟩ :=
      scanner_calls_spec run.calls heap { self with symbols := some PyList_New, parsing := 1 }
        none [] [] rfl (fun h => absurd hhalt h) (fun _ i hi => by simp at hi)
    have hsym1 : self1.symbols = some (.PyList syms1) := by rw [hself1]
    rw [parse_after_scan heap heap1 self self1 run err1 ids syms1 hparsing hhalt
      (hparser hhalt) hscan hsym1]
    split_ifs
    · exact ⟨_, _, _, _, rfl⟩
    · exact ⟨_, _, _, _, rfl⟩
    · cases hroot : syms1[run.root]? with
      | none => exact ⟨_, _, _, _, rfl⟩
      | some node => exact ⟨_, _, _, _, rfl⟩
  · exact ⟨_, _, _, _, parse_halted heap self run hhalt hparsing⟩

/-- C22: on a parser with the flag `parsing` set, halted or not, `parse()` returns `NULL` with
the reentrancy error raised, whatever the scanner would do (it is not run), and leaves the heap
and every field of the parser as they were, among them `symbols`, `parsing` and `source`.  A
`parse()` call made with `parsing` clear (on a parser that has a scanner handle unless it is
halted) returns, and `parsing` is clear on return. -/
theorem C22_reentrant_parse_is_rejected (heap : Heap) (self : PySyckParserObject)
    (run : ScannerRun) :
    (self.parsing ≠ 0 →
      PySyckParser_parse heap self run =
        some (heap, self, .NULL,
          some (.RuntimeError "do not call Parser.parse while it is already parsing"))) ∧
    (self.parsing = 0 →
      (∀ (heap' : Heap) (self' : PySyckParserObject) (value : PyReturn) (err : Option PyErr),
        PySyckParser_parse heap self run = some (heap', self', value, err) →
        self'.parsing = 0) ∧
      ((self.halt = 0 → self.parser ≠ none) →
        ∃ (heap' : Heap) (self' : PySyckParserObject) (value : PyReturn) (err : Option PyErr),
          PySyckParser_parse heap self run = some (heap', self', value, err) ∧
          self'.parsing = 0)) := by
  refine ⟨?_, ?_⟩
  · intro h
    simp [PySyckParser_parse, h]
  · intro hparsing
    refine ⟨?_, ?_⟩
    · intro heap' self' value err hparse
      exact parse_leaves_parsing_clear heap heap' self self' run value err hparsing hparse
    · intro hparser
      obtain ⟨heap', self', value, err, hparse⟩ := parse_returns heap self run hparsing hparser
      exact ⟨heap', self', value, err, hparse,
        parse_leaves_parsing_clear heap heap' self self' run value err hparsing hparse⟩

/-- C22, worked example: `parse()` called on a parser that is inside `parse()` with two nodes
in its table, and `parse()` called on an idle parser. -/
theorem C22_reentrant_parse_witness :
    PySyckParser_parse heap_ab parser_ab run_document =
      some (heap_ab, parser_ab, .NULL,
        some (.RuntimeError "do not call Parser.parse while it is already parsing")) ∧
    ∃ (heap' : Heap) (self' : PySyckParserObject) (value : PyReturn) (err : Option PyErr),
      PySyckParser_parse [] parser_idle run_document = some (heap', self', value, err) ∧
      self'.parsing = 0 :=
  ⟨(C22_reentrant_parse_is_rejected heap_ab parser_ab run_document).1 (by decide),
    ((C22_reentrant_parse_is_rejected [] parser_idle run_document).2 rfl).2
      (fun _ => by decide)⟩

/-- C23, counterexample: `parse()` called on a parser that is inside `parse()` and not halted
is rejected with the reentrancy error and the halt flag is still clear afterwards; once the
enclosing call is over, `parse()` runs the scanner and returns a node, not `None`. -/
theorem C23_counterexample_reentrancy_keeps_halt_clear :
    PySyckParser_parse [] parser_start run_document =
      some ([], parser_start, .NULL,
        some (.RuntimeError "do not call Parser.parse while it is already parsing")) ∧
    parser_start.halt = 0 ∧
    (PySyckParser_parse [] { parser_start with symbols := none, parsing := 0 }
        run_document).map (fun r => r.2.2) = some (.object 2, none) := by
  decide

/-- C23, amended: every exception that a callback raises during the scan (a syntax error
reported to the error handler, a node that cannot be built, a failing read of the source)
comes with the halt flag set; a `parse()` call rejected with the reentrancy error leaves the
halt flag, like every other field, as it was. -/
theorem C23_callback_errors_halt_reentrancy_does_not (heap : Heap)
    (self : PySyckParserObject) :
    (∀ (call : ScannerCall) (heap' : Heap) (self' : PySyckParserObject)
        (raised : Option PyErr) (id : Option Int),
      scanner_call heap self call = some (heap', self', raised, id) →
      raised.isSome → self'.halt ≠ 0) ∧
    (self.parsing ≠ 0 →
      ∀ run : ScannerRun,
        PySyckParser_parse heap self run =
          some (heap, self, .NULL,
            some (.RuntimeError "do not call Parser.parse while it is already parsing"))) := by
  refine ⟨?_, ?_⟩
  · intro call heap' self' raised id hcall hraised
    exact scanner_call_raised_halts heap heap' self self' call raised id hcall hraised
  · intro h run
    simp [PySyckParser_parse, h]

/-- C23, amended, worked example: a syntax error reported on a parser that is not halted sets
the halt flag, and a reentrant `parse()` on the same parser does not. -/
theorem C23_callback_errors_witness :
    ({ parser_start with halt := 1 } : PySyckParserObject).halt ≠ 0 ∧
    PySyckParser_parse [] parser_start run_document =
      some ([], parser_start, .NULL,
        some (.RuntimeError "do not call Parser.parse while it is already parsing")) :=
  ⟨(C23_callback_errors_halt_reentrancy_does_not [] parser_start).1
      (.error_handler { linect := 1, lineptr := 4, cursor := 6, eof := 0 }
        (cstr "syntax error"))
      [] { parser_start with halt := 1 } (some (.PySyck_Error (cstr "syntax error") 1 2)) none
      (by decide) rfl,
    (C23_callback_errors_halt_reentrancy_does_not [] parser_start).2 (by decide) run_document⟩

/-- The three effects one call of the scanner can have on a parser whose symbol table is a
list: the error or read handler ran (heap and table as they were, no index), the node handler
refused or failed (heap and table as they were, index -1, halt flag set), or the node handler
built a node (the new node is at the end of the heap, its address at the end of the table, its
index is the old size of the table, and the halt flag stays clear). -/
theorem scanner_call_cases (heap : Heap) (self : PySyckParserObject) (syms : List Addr)
    (call : ScannerCall) (hsym : self.symbols = some (.PyList syms)) :
    (∃ (self' : PySyckParserObject) (raised : Option PyErr),
      scanner_call heap self call = some (heap, self', raised, none) ∧
      self'.symbols = some (.PyList syms)) ∨
    (∃ (self' : PySyckParserObject) (raised : Option PyErr),
      scanner_call heap self call = some (heap, self', raised, some (-1)) ∧
      self'.symbols = some (.PyList syms) ∧ self'.halt ≠ 0) ∨
    (∃ (object : PySyckObject) (self' : PySyckParserObject),
      scanner_call heap self call =
        some (heap ++ [object], self', none, some (syms.length : Int)) ∧
      self'.symbols = some (.PyList (syms ++ [heap.length])) ∧
      self.halt = 0 ∧ self'.halt = 0) := by
  cases call with
  | handler node =>
    by_cases hhalt : self.halt = 0
    · cases hsw : node_handler_switch (.PyList syms) node with
      | none =>
        right; left
        refine ⟨{ self with halt := 1 }, some (.IndexError "list index out of range"),
          ?_, ?_, ?_⟩
        · simp [scanner_call, node_handler_failed heap self node _ hhalt hsym hsw, hhalt]
        · simp [hsym]
        · simp
      | some object =>
        right; right
        refine ⟨node_handler_attach object node,
          { self with symbols := some (.PyList (syms ++ [heap.length])) }, ?_, rfl, hhalt, hhalt⟩
        have hne : ¬ ((syms.length : Int) = -1) := by omega
        simp [scanner_call, node_handler_built heap self node syms object hhalt hsym hsw, hne]
    · right; left
      refine ⟨self, none, ?_, hsym, hhalt⟩
      simp [scanner_call, node_handler_halted heap self node hhalt, hhalt]
  | error_handler parser str =>
    left
    refine ⟨(PySyckParser_error_handler parser self str).1,
      (PySyckParser_error_handler parser self str).2, rfl, ?_⟩
    unfold PySyckParser_error_handler
    split_ifs
    · exact hsym
    · exact hsym
  | read_handler buf max_size skip read =>
    left
    refine ⟨(PySyckParser_read_handler buf self max_size skip read).2.1,
      (PySyckParser_read_handler buf self max_size skip read).2.2.2.1, rfl, ?_⟩
    rcases read_handler_self buf self max_size skip read with ⟨h, _⟩ | ⟨_, h, _⟩
    · rw [h]; exact hsym
    · rw [h]; exact hsym

/-- The indices that the node handler returns during a scan, given that those returned so far
are none, or start with 0 for the node that is first in the table, or are all -1 on a halted
parser: the same holds at the end of the scan. -/
theorem scanner_calls_first_index (first : Addr) :
    ∀ (calls : List ScannerCall) (heap : Heap) (self : PySyckParserObject)
      (err : Option PyErr) (ids : List Int) (syms : List Addr),
      self.symbols = some (.PyList syms) →
      ((ids = [] ∧ syms = [] ∧ heap.length = first) ∨
        (ids.head? = some 0 ∧ syms.head? = some first) ∨
        ((∀ i ∈ ids, i = -1) ∧ self.halt ≠ 0)) →
      ∃ (heap' : Heap) (self' : PySyckParserObject) (err' : Option PyErr) (ids' : List Int)
          (syms' : List Addr),
        scanner_calls heap self err ids calls = some (heap', self', err', ids') ∧
        self'.symbols = some (.PyList syms') ∧
        ((ids' = [] ∧ syms' = []) ∨
          (ids'.head? = some 0 ∧ syms'.head? = some first) ∨
          ((∀ i ∈ ids', i = -1) ∧ self'.halt ≠ 0)) := by
  intro calls
  induction calls with
  | nil =>
    intro heap self err ids syms hsym hinv
    refine ⟨heap, self, err, ids, syms, rfl, hsym, ?_⟩
    rcases hinv with ⟨h1, h2, _⟩ | h | h
    · exact Or.inl ⟨h1, h2⟩
    · exact Or.inr (Or.inl h)
    · exact Or.inr (Or.inr h)
  | cons call rest ih =>
    intro heap self err ids syms hsym hinv
    rcases scanner_call_cases heap self syms call hsym with
      ⟨self1, raised, hcall, hsym1⟩ | ⟨self1, raised, hcall, hsym1, hhalt1⟩ |
      ⟨object, self1, hcall, hsym1, hhalt, hhalt1⟩
    · have hinv1 : (ids = [] ∧ syms = [] ∧ heap.length = first) ∨
          (ids.head? = some 0 ∧ syms.head? = some first) ∨
          ((∀ i ∈ ids, i = -1) ∧ self1.halt ≠ 0) := by
        rcases hinv with h | h | ⟨h1, h2⟩
        · exact Or.inl h
        · exact Or.inr (Or.inl h)
        · refine Or.inr (Or.inr ⟨h1, ?_⟩)
          rcases scanner_call_halted heap self call h2 with h | h
          · rw [h] at hcall
            simp only [Option.some.injEq, Prod.mk.injEq] at hcall
            rw [← hcall.2.1]
            exact h2
          · rw [h] at hcall
            simp at hcall
      obtain ⟨heap', self', err', ids', syms', hrun, hres⟩ :=
        ih heap self1 (if raised.isSome then raised else err) ids syms hsym1 hinv1
      exact ⟨heap', self', err', ids', syms', by simpa [scanner_calls, hcall] using hrun, hres⟩
    · have hinv1 : ((ids ++ [-1] : List Int) = [] ∧ syms = [] ∧ heap.length = first) ∨
          ((ids ++ [-1] : List Int).head? = some 0 ∧ syms.head? = some first) ∨
          ((∀ i ∈ (ids ++ [-1] : List Int), i = -1) ∧ self1.halt ≠ 0) := by
        rcases hinv with ⟨h, _, _⟩ | ⟨h1, h2⟩ | ⟨h1, _⟩
        · subst h
          exact Or.inr (Or.inr ⟨by simp, hhalt1⟩)
        · refine Or.inr (Or.inl ⟨?_, h2⟩)
          cases ids with
          | nil => simp at h1
          | cons a l => simpa using h1
        · refine Or.inr (Or.inr ⟨?_, hhalt1⟩)
          intro i hi
          simp only [List.mem_append, List.mem_singleton] at hi
          rcases hi with hi | hi
          · exact h1 i hi
          · exact hi
      obtain ⟨heap', self', err', ids', syms', hrun, hres⟩ :=
        ih heap self1 (if raised.isSome then raised else err) (ids ++ [-1]) syms hsym1 hinv1
      exact ⟨heap', self', err', ids', syms', by simpa [scanner_calls, hcall] using hrun, hres⟩
    · have hinv1 : ((ids ++ [(syms.length : Int)] : List Int) = [] ∧
            syms ++ [heap.length] = [] ∧ (heap ++ [object]).length = first) ∨
          ((ids ++ [(syms.length : Int)] : List Int).head? = some 0 ∧
            (syms ++ [heap.length]).head? = some first) ∨
          ((∀ i ∈ (ids ++ [(syms.length : Int)] : List Int), i = -1) ∧ self1.halt ≠ 0) := by
        rcases hinv with ⟨h1, h2, h3⟩ | ⟨h1, h2⟩ | ⟨_, h2⟩
        · subst h1 h2 h3
          exact Or.inr (Or.inl ⟨by simp, by simp⟩)
        · refine Or.inr (Or.inl ⟨?_, ?_⟩)
          · cases ids with
            | nil => simp at h1
            | cons a l => simpa using h1
          · cases syms with
            | nil => simp at h2
            | cons a l => simpa using h2
        · exact absurd hhalt h2
      obtain ⟨heap', self', err', ids', syms', hrun, hres⟩ :=
        ih (heap ++ [object]) self1 (if (none : Option PyErr).isSome then none else err)
          (ids ++ [(syms.length : Int)]) (syms ++ [heap.length]) hsym1 hinv1
      exact ⟨heap', self', err', ids', syms', by simpa [scanner_calls, hcall] using hrun, hres⟩

/-- C24: when `parse()` is called on a parser that is neither parsing nor halted and the
scanner ends with the halt flag clear and its flag `eof` set, the call returns `None` with no
exception raised; on return the halt flag is set, the symbol table is gone, and no other field
of the parser differs from before the call except the scanner's own struct.  The attribute
`eof` then reads true, and every later `parse()` returns `None` and changes nothing. -/
theorem C24_end_of_stream_returns_none (heap heap1 : Heap)
    (self self1 : PySyckParserObject) (run : ScannerRun) (err : Option PyErr) (ids : List Int)
    (hparsing : self.parsing = 0) (hhalt : self.halt = 0) (hparser : self.parser ≠ none)
    (hscan : scanner_calls heap { self with symbols := some PyList_New, parsing := 1 } none []
      run.calls = some (heap1, self1, err, ids))
    (hclear : self1.halt = 0) (heof : run.parser.eof ≠ 0) :
    PySyckParser_parse heap self run =
      some (heap1, { self with parser := some run.parser, symbols := none, halt := 1 },
        .Py_None, none) ∧
    PySyckParser_geteof { self with parser := some run.parser, symbols := none, halt := 1 } =
      .PyBool true ∧
    ∀ runs : List ScannerRun,
      parse_calls heap1 { self with parser := some run.parser, symbols := none, halt := 1 }
          runs =
        some (heap1, { self with parser := some run.parser, symbols := none, halt := 1 },
          List.replicate runs.length .Py_None) := by
  obtain ⟨heap', self', err', ids', syms', hrun, hself', _, _, _⟩ :=
    scanner_calls_spec run.calls heap { self with symbols := some PyList_New, parsing := 1 }
      none [] [] rfl (fun h => absurd hhalt h) (fun _ i hi => by simp at hi)
  rw [hscan] at hrun
  simp only [Option.some.injEq, Prod.mk.injEq] at hrun
  obtain ⟨_, hs, _, _⟩ := hrun
  subst hs
  have hsym1 : self1.symbols = some (.PyList syms') := by rw [hself']
  have herr : err = none :=
    scanner_calls_clean run.calls heap heap1 _ self1 none err [] ids hscan hclear
  have hfin :
      { self1 with parser := some run.parser, parsing := 0, symbols := none, halt := 1 } =
      { self with parser := some run.parser, symbols := none, halt := 1 } := by
    have hsource : self1.source = self.source := by rw [hself']
    have himplicit : self1.implicit_typing = self.implicit_typing := by rw [hself']
    have htaguri : self1.taguri_expansion = self.taguri_expansion := by rw [hself']
    simp only [hsource, himplicit, htaguri, hparsing]
  refine ⟨?_, ?_, ?_⟩
  · rw [parse_after_scan heap heap1 self self1 run err ids syms' hparsing hhalt hparser hscan
      hsym1, if_neg (not_not.mpr hclear), if_pos heof, hfin, herr]
  · simp [PySyckParser_geteof]
  · intro runs
    exact parse_calls_halted heap1
      { self with parser := some run.parser, symbols := none, halt := 1 } (by simp) hparsing
      runs

/-- C24, worked example: the scanner reaches the end of the stream at once. -/
theorem C24_end_of_stream_witness :
    PySyckParser_parse heap_ab parser_idle run_eof =
      some (heap_ab,
        { parser_idle with parser := some run_eof.parser, symbols := none, halt := 1 },
        .Py_None, none) ∧
    PySyckParser_geteof
        { parser_idle with parser := some run_eof.parser, symbols := none, halt := 1 } =
      .PyBool true ∧
    ∀ runs : List ScannerRun,
      parse_calls heap_ab
          { parser_idle with parser := some run_eof.parser, symbols := none, halt := 1 } runs =
        some (heap_ab,
          { parser_idle with parser := some run_eof.parser, symbols := none, halt := 1 },
          List.replicate runs.length .Py_None) :=
  C24_end_of_stream_returns_none heap_ab heap_ab parser_idle
    { parser_idle with symbols := some PyList_New, parsing := 1 } run_eof none []
    rfl rfl (by decide) rfl rfl (by decide)

/-- C25: on a parser with the halt flag set, the node handler, the error handler, the read
handler and `parse()` leave the parser object, and with it the halt flag, as it was;
`PySyckParser_clear` and an initialisation that rejects its arguments leave the flag as it
was; an initialisation that accepts its arguments clears it.  An object that was only
constructed has the flag set. -/
theorem C25_halt_is_sticky (heap : Heap) (self : PySyckParserObject)
    (hhalt : self.halt ≠ 0) :
    (∀ node : SyckNode, PySyckParser_node_handler heap self node = some (heap, self, -1)) ∧
    (∀ (parser : SyckParser) (str : List Nat),
      PySyckParser_error_handler parser self str = (self, none)) ∧
    (∀ (buf : Int → Nat) (max_size skip : Int) (read : Int → ReadResult),
      (PySyckParser_read_handler buf self max_size skip read).2.1 = self) ∧
    (∀ run : ScannerRun, ∃ (value : PyReturn) (err : Option PyErr),
      PySyckParser_parse heap self run = some (heap, self, value, err)) ∧
    (PySyckParser_clear self).halt = self.halt ∧
    (∀ (e : PyErr) (fresh : SyckParser),
      (PySyckParser_init self (.error e) fresh).1.halt = self.halt) ∧
    (∀ (source : PyObject) (implicit_typing taguri_expansion : Int) (fresh : SyckParser),
      (PySyckParser_init self (.ok (source, implicit_typing, taguri_expansion)) fresh).1.halt =
        0) ∧
    PySyckParser_new.halt ≠ 0 := by
  refine ⟨?_, ?_, ?_, ?_, rfl, ?_, ?_, by decide⟩
  · intro node
    exact node_handler_halted heap self node hhalt
  · intro parser str
    simp [PySyckParser_error_handler, hhalt]
  · intro buf max_size skip read
    simp [PySyckParser_read_handler, hhalt]
  · intro run
    by_cases hparsing : self.parsing = 0
    · exact ⟨_, _, parse_halted heap self run hhalt hparsing⟩
    · exact ⟨.NULL, some (.RuntimeError "do not call Parser.parse while it is already parsing"),
        by simp [PySyckParser_parse, hparsing]⟩
  · intro e fresh
    rfl
  · intro source implicit_typing taguri_expansion fresh
    rfl

/-- C25, worked example: a halted parser inside `parse()`. -/
theorem C25_halt_is_sticky_witness :
    (∀ node : SyckNode,
      PySyckParser_node_handler heap_ab parser_halted node =
        some (heap_ab, parser_halted, -1)) ∧
    (∀ (parser : SyckParser) (str : List Nat),
      PySyckParser_error_handler parser parser_halted str = (parser_halted, none)) ∧
    (∀ (buf : Int → Nat) (max_size skip : Int) (read : Int → ReadResult),
      (PySyckParser_read_handler buf parser_halted max_size skip read).2.1 = parser_halted) ∧
    (∀ run : ScannerRun, ∃ (value : PyReturn) (err : Option PyErr),
      PySyckParser_parse heap_ab parser_halted run =
        some (heap_ab, parser_halted, value, err)) ∧
    (PySyckParser_clear parser_halted).halt = parser_halted.halt ∧
    (∀ (e : PyErr) (fresh : SyckParser),
      (PySyckParser_init parser_halted (.error e) fresh).1.halt = parser_halted.halt) ∧
    (∀ (source : PyObject) (implicit_typing taguri_expansion : Int) (fresh : SyckParser),
      (PySyckParser_init parser_halted (.ok (source, implicit_typing, taguri_expansion))
        fresh).1.halt = 0) ∧
    PySyckParser_new.halt ≠ 0 :=
  C25_halt_is_sticky heap_ab parser_halted (by decide)

/-- C26: a `parse()` call on a parser that is neither parsing nor halted (and has a scanner
handle) does not depend on what the field `symbols` held before the call: the scanner runs on
the empty table.  The indices the node handler returns during the call start with 0, and the
first entry of the table is then the first node added to the heap during the call; otherwise
no node was built (no index, or only -1 with the halt flag set).  The call returns, and on
return the parser holds no table, whatever the returned value. -/
theorem C26_symbol_table_is_per_call (heap : Heap) (self : PySyckParserObject)
    (run : ScannerRun)
    (hparsing : self.parsing = 0) (hhalt : self.halt = 0) (hparser : self.parser ≠ none) :
    (∀ old : Option PyObject,
      PySyckParser_parse heap { self with symbols := old } run =
        PySyckParser_parse heap self run) ∧
    ∃ (heap1 : Heap) (self1 : PySyckParserObject) (err1 : Option PyErr) (ids : List Int)
        (syms1 : List Addr) (self' : PySyckParserObject) (value : PyReturn)
        (err : Option PyErr),
      scanner_calls heap { self with symbols := some (.PyList []), parsing := 1 } none []
        run.calls = some (heap1, self1, err1, ids) ∧
      self1.symbols = some (.PyList syms1) ∧
      ((ids.head? = some 0 ∧ syms1.head? = some heap.length) ∨ ids = [] ∨
        ((∀ i ∈ ids, i = -1) ∧ self1.halt ≠ 0)) ∧
      PySyckParser_parse heap self run = some (heap1, self', value, err) ∧
      self'.symbols = none := by
  refine ⟨?_, ?_⟩
  · intro old
    simp only [PySyckParser_parse, hparsing, hhalt, ne_eq, not_true_eq_false, if_false]
  · obtain ⟨heap1, self1, err1, ids, syms1, hscan, hsym1, hids⟩ :=
      scanner_calls_first_index heap.length run.calls heap
        { self with symbols := some (.PyList []), parsing := 1 } none [] [] rfl
        (Or.inl ⟨rfl, rfl, rfl⟩)
    have hparse := parse_after_scan heap heap1 self self1 run err1 ids syms1 hparsing hhalt
      hparser hscan hsym1
    have hids1 : (ids.head? = some 0 ∧ syms1.head? = some heap.length) ∨ ids = [] ∨
        ((∀ i ∈ ids, i = -1) ∧ self1.halt ≠ 0) := by
      rcases hids with ⟨h, _⟩ | h | h
      · exact Or.inr (Or.inl h)
      · exact Or.inl h
      · exact Or.inr (Or.inr h)
    split_ifs at hparse
    · exact ⟨heap1, self1, err1, ids, syms1, _, _, _, hscan, hsym1, hids1, hparse, rfl⟩
    · exact ⟨heap1, self1, err1, ids, syms1, _, _, _, hscan, hsym1, hids1, hparse, rfl⟩
    · cases hroot : syms1[run.root]? with
      | none =>
        rw [hroot] at hparse
        exact ⟨heap1, self1, err1, ids, syms1, _, _, _, hscan, hsym1, hids1, hparse, rfl⟩
      | some node =>
        rw [hroot] at hparse
        exact ⟨heap1, self1, err1, ids, syms1, _, _, _, hscan, hsym1, hids1, hparse, rfl⟩

/-- C26, worked example: a document of two scalars and their sequence parsed while the heap
holds the two nodes of an earlier document; the first node of the call has index 0 and is at
address 2, the root is at address 4, and the parser holds no table on return. -/
theorem C26_symbol_table_witness :
    (PySyckParser_parse heap_ab parser_idle run_document).map
        (fun r => (r.2.2.1, r.2.1.symbols)) = some (.object 4, none) ∧
    ((∀ old : Option PyObject,
      PySyckParser_parse heap_ab { parser_idle with symbols := old } run_document =
        PySyckParser_parse heap_ab parser_idle run_document) ∧
    ∃ (heap1 : Heap) (self1 : PySyckParserObject) (err1 : Option PyErr) (ids : List Int)
        (syms1 : List Addr) (self' : PySyckParserObject) (value : PyReturn)
        (err : Option PyErr),
      scanner_calls heap_ab { parser_idle with symbols := some (.PyList []), parsing := 1 }
        none [] run_document.calls = some (heap1, self1, err1, ids) ∧
      self1.symbols = some (.PyList syms1) ∧
      ((ids.head? = some 0 ∧ syms1.head? = some heap_ab.length) ∨ ids = [] ∨
        ((∀ i ∈ ids, i = -1) ∧ self1.halt ≠ 0)) ∧
      PySyckParser_parse heap_ab parser_idle run_document = some (heap1, self', value, err) ∧
      self'.symbols = none) :=
  ⟨by decide,
    C26_symbol_table_is_per_call heap_ab parser_idle run_document rfl rfl (by decide)⟩

/-- The read handler on a parser that is not halted and has a source, when `read` gives back a
string of `L` bytes: with `L` converted to `int`, a length of 0 ends the call, a length above the
request is an error, and otherwise that many bytes are copied behind the `skip` bytes and
followed by a zero byte. -/
theorem read_handler_string (buf : Int → Nat) (self : PySyckParserObject)
    (max_size skip : Int) (read : Int → ReadResult) (s : List Nat)
    (hhalt : self.halt = 0) (hsource : self.source ≠ none)
    (hread : read (max_size - skip) = .returned (.PyString s)) :
    PySyckParser_read_handler buf self max_size skip read =
      if long_to_int s.length = 0 then
        (Function.update buf skip 0, self, skip, none, [max_size - skip])
      else if long_to_int s.length > max_size - skip then
        (Function.update buf skip 0, { self with halt := 1 }, skip,
          some (.ValueError "read returns an overly long string"), [max_size - skip])
      else
        (Function.update (memcpy (Function.update buf skip 0) skip s (long_to_int s.length))
            (long_to_int (long_to_int s.length + skip)) 0,
          self, long_to_int (long_to_int s.length + skip), none, [max_size - skip]) := by
  obtain ⟨src, hsrc⟩ := Option.ne_none_iff_exists'.mp hsource
  unfold PySyckParser_read_handler
  simp only [hhalt, ne_eq, not_true_eq_false, if_false, hsrc, hread, PyString_CheckExact,
    PyString_AS_STRING, PyString_GET_SIZE, Bool.not_true, Bool.false_eq_true]

/-- The conversion to `int` gives back a value of the signed 32-bit range. -/
theorem long_to_int_of_fits (n : Int) (hlo : -2 ^ 31 ≤ n) (hhi : n < 2 ^ 31) :
    long_to_int n = n := by
  unfold long_to_int
  omega

/-- The read handler on a parser that is not halted, when the read fails or gives back an
object that is not a string: the halt flag is set, the exception is that of the read or the
`TypeError` of the handler, and `skip` is returned. -/
theorem read_handler_failed (buf : Int → Nat) (self : PySyckParserObject)
    (max_size skip : Int) (read : Int → ReadResult)
    (hhalt : self.halt = 0) (hfail : read_fails (read (max_size - skip)) = true) :
    ∃ (e : PyErr) (log : List Int),
      PySyckParser_read_handler buf self max_size skip read =
        (Function.update buf skip 0, { self with halt := 1 }, skip, some e, log) ∧
      (self.source ≠ none → log = [max_size - skip] ∧
        (∀ e', read (max_size - skip) = .raised e' → e = e') ∧
        (∀ value, read (max_size - skip) = .returned value →
          e = .TypeError "file-like object should return a string")) := by
  unfold PySyckParser_read_handler
  simp only [hhalt, ne_eq, not_true_eq_false, if_false]
  cases hsrc : self.source with
  | none => exact ⟨_, _, rfl, fun h => absurd rfl h⟩
  | some src =>
    dsimp only
    cases hread : read (max_size - skip) with
    | raised e =>
      refine ⟨e, [max_size - skip], rfl, fun _ => ⟨rfl, ?_, ?_⟩⟩
      · intro e' he'
        cases he'
        rfl
      · intro value hv
        cases hv
    | returned value =>
      rw [hread] at hfail
      simp only [read_fails] at hfail
      simp only [hfail, if_true]
      refine ⟨_, [max_size - skip], rfl, fun _ => ⟨rfl, ?_, ?_⟩⟩
      · intro e' he'
        cases he'
      · intro value' _
        rfl

/-- A scan in which the read handler is called with a read that fails ends with the halt flag
set. -/
theorem scanner_calls_failing_read (buf : Int → Nat) (max_size skip : Int)
    (read : Int → ReadResult) (hfail : read_fails (read (max_size - skip)) = true) :
    ∀ (calls : List ScannerCall) (heap heap' : Heap) (self self' : PySyckParserObject)
      (err err' : Option PyErr) (ids ids' : List Int),
      ScannerCall.read_handler buf max_size skip read ∈ calls →
      scanner_calls heap self err ids calls = some (heap', self', err', ids') →
      self'.halt ≠ 0 := by
  intro calls
  induction calls with
  | nil =>
    intro heap heap' self self' err err' ids ids' hmem
    simp at hmem
  | cons call rest ih =>
    intro heap heap' self self' err err' ids ids' hmem hrun
    simp only [scanner_calls] at hrun
    cases hcall : scanner_call heap self call with
    | none => simp [hcall] at hrun
    | some r =>
      obtain ⟨heap1, self1, raised, id⟩ := r
      simp only [hcall] at hrun
      have hstay : self1.halt ≠ 0 → self'.halt ≠ 0 := by
        intro h1
        obtain ⟨ids2, h2⟩ := scanner_calls_halted rest heap1 self1 _ _ h1
        rw [h2] at hrun
        simp only [Option.some.injEq, Prod.mk.injEq] at hrun
        rw [← hrun.2.1]
        exact h1
      rcases List.mem_cons.mp hmem with hhead | htail
      · apply hstay
        subst hhead
        simp only [scanner_call, Option.some.injEq, Prod.mk.injEq] at hcall
        rw [← hcall.2.1]
        by_cases hhalt : self.halt = 0
        · obtain ⟨e, log, hres, _⟩ :=
            read_handler_failed buf self max_size skip read hhalt hfail
          rw [hres]
          simp
        · simp [PySyckParser_read_handler, hhalt]
      · exact ih heap1 heap' self1 self' _ err' _ ids' htail hrun

/-- C27: the read handler stores the size of the string that `read` gives back in the `int`
variable `length`, so it compares the size converted to 32 bits with the request.  For a string
longer than `max_size - skip` whose size fits an `int` the handler sets the halt flag, raises
the `ValueError` of an overly long string, returns `skip` and writes only the zero byte at
offset `skip` (so it does when it is asked for 2 bytes and given 5).  A
longer string is not told apart from a short one: asked for 6 bytes behind 2 buffered ones and
given `2 ^ 32 + 3` bytes, the handler copies 3 of them to the offsets 2 to 4, stores a zero
byte at offset 5, returns 5, raises nothing and leaves the halt flag clear; a string of a
multiple of `2 ^ 32` bytes is taken for the empty string. -/
theorem C27_overlong_read_is_compared_as_int :
    (∀ (buf : Int → Nat) (self : PySyckParserObject) (max_size skip : Int)
        (read : Int → ReadResult) (s : List Nat),
      self.halt = 0 → self.source ≠ none →
      read (max_size - skip) = .returned (.PyString s) →
      PySyckParser_read_handler buf self max_size skip read =
        if long_to_int s.length = 0 then
          (Function.update buf skip 0, self, skip, none, [max_size - skip])
        else if long_to_int s.length > max_size - skip then
          (Function.update buf skip 0, { self with halt := 1 }, skip,
            some (.ValueError "read returns an overly long string"), [max_size - skip])
        else
          (Function.update (memcpy (Function.update buf skip 0) skip s (long_to_int s.length))
              (long_to_int (long_to_int s.length + skip)) 0,
            self, long_to_int (long_to_int s.length + skip), none, [max_size - skip])) ∧
    (∀ (buf : Int → Nat) (self : PySyckParserObject) (max_size skip : Int)
        (read : Int → ReadResult) (s : List Nat),
      self.halt = 0 → self.source ≠ none → skip ≤ max_size →
      read (max_size - skip) = .returned (.PyString s) →
      max_size - skip < s.length → (s.length : Int) < 2 ^ 31 →
      PySyckParser_read_handler buf self max_size skip read =
        (Function.update buf skip 0, { self with halt := 1 }, skip,
          some (.ValueError "read returns an overly long string"), [max_size - skip]) ∧
      ∀ p : Int, p ≠ skip →
        (PySyckParser_read_handler buf self max_size skip read).1 p = buf p) ∧
    (∀ (buf : Int → Nat) (self : PySyckParserObject) (max_size skip : Int)
        (read : Int → ReadResult) (s : List Nat) (k : Nat),
      self.halt = 0 → self.source ≠ none →
      read (max_size - skip) = .returned (.PyString s) →
      s.length = 2 ^ 32 * k →
      PySyckParser_read_handler buf self max_size skip read =
        (Function.update buf skip 0, self, skip, none, [max_size - skip])) ∧
    (PySyckParser_read_handler buf_sevens parser_file 4 2 read_five).2 =
      ({ parser_file with halt := 1 }, 2,
        some (.ValueError "read returns an overly long string"), [2]) ∧
    huge_reply.length = 2 ^ 32 + 3 ∧
    (PySyckParser_read_handler buf_sevens parser_file 8 2 read_huge).2 =
      (parser_file, 5, none, [6]) ∧
    parser_file.halt = 0 ∧
    (PySyckParser_read_handler buf_sevens parser_file 8 2 read_huge).1 2 = 97 ∧
    (PySyckParser_read_handler buf_sevens parser_file 8 2 read_huge).1 3 = 97 ∧
    (PySyckParser_read_handler buf_sevens parser_file 8 2 read_huge).1 4 = 97 ∧
    (PySyckParser_read_handler buf_sevens parser_file 8 2 read_huge).1 5 = 0 := by
  have hlen : huge_reply.length = 2 ^ 32 + 3 := by
    simp only [huge_reply, List.length_replicate]
  have hnarrow : long_to_int (huge_reply.length : Int) = 3 := by
    rw [hlen]
    norm_num [long_to_int]
  have hsum : long_to_int (3 + 2) = 5 := by decide
  have hres : PySyckParser_read_handler buf_sevens parser_file 8 2 read_huge =
      (Function.update (memcpy (Function.update buf_sevens 2 0) 2 huge_reply 3) 5 0,
        parser_file, 5, none, [6]) := by
    have h := read_handler_string buf_sevens parser_file 8 2 read_huge huge_reply rfl
      (by decide) rfl
    rw [hnarrow, hsum] at h
    rw [h, if_neg (by decide), if_neg (by decide)]
    rfl
  have hbyte : ∀ i : Nat, i < 3 → huge_reply.getD i 0 = 97 := by
    intro i hi
    have hlt : i < 2 ^ 32 + 3 := by omega
    simp only [huge_reply, List.getD_eq_getElem?_getD, List.getElem?_replicate, if_pos hlt,
      Option.getD_some]
  refine ⟨?_, ?_, ?_, by decide, hlen, ?_, by decide, ?_, ?_, ?_, ?_⟩
  · intro buf self max_size skip read s hhalt hsource hread
    exact read_handler_string buf self max_size skip read s hhalt hsource hread
  · intro buf self max_size skip read s hhalt hsource hmax hread hlong hint
    have hfit : long_to_int (s.length : Int) = s.length :=
      long_to_int_of_fits _ (by omega) hint
    have hres := read_handler_string buf self max_size skip read s hhalt hsource hread
    rw [hfit, if_neg (by omega), if_pos hlong] at hres
    refine ⟨hres, ?_⟩
    intro p hp
    rw [hres]
    exact Function.update_noteq hp 0 buf
  · intro buf self max_size skip read s k hhalt hsource hread hk
    have hzero : long_to_int (s.length : Int) = 0 := by
      rw [hk]
      unfold long_to_int
      push_cast
      omega
    have hres := read_handler_string buf self max_size skip read s hhalt hsource hread
    rw [if_pos hzero] at hres
    exact hres
  · rw [hres]
  · rw [hres]
    have h := hbyte 0 (by omega)
    simpa [memcpy] using h
  · rw [hres]
    have h := hbyte 1 (by omega)
    simpa [memcpy] using h
  · rw [hres]
    have h := hbyte 2 (by omega)
    simpa [memcpy] using h
  · rw [hres]
    simp only [Function.update_same]

/-- C29: when the read handler is called on a parser that is not halted and has a source and
`read` gives back the empty string, the handler returns `skip`, raises nothing and leaves the
parser as it was, with the halt flag clear; the only byte of the buffer it writes is the zero
byte at offset `skip`, so the offsets below `skip` hold what they held before. -/
theorem C29_empty_read_is_not_an_error (buf : Int → Nat) (self : PySyckParserObject)
    (max_size skip : Int) (read : Int → ReadResult)
    (hhalt : self.halt = 0) (hsource : self.source ≠ none)
    (hread : read (max_size - skip) = .returned (.PyString [])) :
    PySyckParser_read_handler buf self max_size skip read =
      (Function.update buf skip 0, self, skip, none, [max_size - skip]) ∧
    (PySyckParser_read_handler buf self max_size skip read).2.1.halt = 0 ∧
    ∀ p : Int, p ≠ skip →
      (PySyckParser_read_handler buf self max_size skip read).1 p = buf p := by
  have hres := read_handler_string buf self max_size skip read [] hhalt hsource hread
  rw [if_pos (by decide)] at hres
  refine ⟨hres, ?_, ?_⟩
  · rw [hres]
    exact hhalt
  · intro p hp
    rw [hres]
    exact Function.update_noteq hp 0 buf

/-- C29, worked example: a request for six bytes behind two buffered ones is answered with the
empty string. -/
theorem C29_empty_read_witness :
    PySyckParser_read_handler buf_sevens parser_file 8 2 read_empty =
      (Function.update buf_sevens 2 0, parser_file, 2, none, [8 - 2]) ∧
    (PySyckParser_read_handler buf_sevens parser_file 8 2 read_empty).2.1.halt = 0 ∧
    ∀ p : Int, p ≠ 2 →
      (PySyckParser_read_handler buf_sevens parser_file 8 2 read_empty).1 p = buf_sevens p :=
  C29_empty_read_is_not_an_error buf_sevens parser_file 8 2 read_empty rfl (by decide) rfl

/-- C30: when the read handler is called on a parser that is not halted and the call of `read`
raises, or gives back an object that is not a string, the handler sets the halt flag, returns
`skip` and raises (the exception of `read`, or a `TypeError`); the only byte of the buffer it
writes is the zero byte at offset `skip`.  A `parse()` call, on a parser that is not parsing
and has a scanner handle, during which the scanner makes such a call of the read handler
returns `NULL` with an exception raised and the halt flag set. -/
theorem C30_failed_read_halts (buf : Int → Nat) (self : PySyckParserObject)
    (max_size skip : Int) (read : Int → ReadResult)
    (hhalt : self.halt = 0) (hfail : read_fails (read (max_size - skip)) = true) :
    (∃ e : PyErr,
      (PySyckParser_read_handler buf self max_size skip read).1 = Function.update buf skip 0 ∧
      (PySyckParser_read_handler buf self max_size skip read).2.1 = { self with halt := 1 } ∧
      (PySyckParser_read_handler buf self max_size skip read).2.2.1 = skip ∧
      (PySyckParser_read_handler buf self max_size skip read).2.2.2.1 = some e ∧
      (self.source ≠ none →
        (∀ e', read (max_size - skip) = .raised e' → e = e') ∧
        (∀ value, read (max_size - skip) = .returned value →
          e = .TypeError "file-like object should return a string"))) ∧
    ∀ (heap : Heap) (run : ScannerRun),
      self.parsing = 0 → self.parser ≠ none →
      ScannerCall.read_handler buf max_size skip read ∈ run.calls →
      ∃ (heap' : Heap) (self' : PySyckParserObject) (e : PyErr),
        PySyckParser_parse heap self run = some (heap', self', .NULL, some e) ∧
        self'.halt ≠ 0 := by
  refine ⟨?_, ?_⟩
  · obtain ⟨e, log, hres, hsrc⟩ := read_handler_failed buf self max_size skip read hhalt hfail
    refine ⟨e, ?_, ?_, ?_, ?_, ?_⟩
    · rw [hres]
    · rw [hres]
    · rw [hres]
    · rw [hres]
    · intro h
      exact (hsrc h).2
  · intro heap run hparsing hparser hmem
    obtain ⟨heap1, self1, err1, ids, syms1, hscan, hself1, _, herr1, _⟩ :=
      scanner_calls_spec run.calls heap { self with symbols := some PyList_New, parsing := 1 }
        none [] [] rfl (fun h => absurd hhalt h) (fun _ i hi => by simp at hi)
    have hsym1 : self1.symbols = some (.PyList syms1) := by rw [hself1]
    have hset : self1.halt ≠ 0 :=
      scanner_calls_failing_read buf max_size skip read hfail run.calls heap heap1 _ self1
        none err1 [] ids hmem hscan
    obtain ⟨e, he⟩ := Option.isSome_iff_exists.mp (herr1 hset)
    refine ⟨heap1, { self1 with parser := some run.parser, parsing := 0, symbols := none }, e,
      ?_, hset⟩
    rw [parse_after_scan heap heap1 self self1 run err1 ids syms1 hparsing hhalt hparser hscan
      hsym1, if_pos hset, he]

/-- C30, worked example: the read of the source raises during the only call of the read
handler of a `parse()` call; the call raises that exception. -/
theorem C30_failed_read_witness :
    (PySyckParser_parse [] { parser_file with symbols := none, parsing := 0 }
        run_read_raises).map (fun r => (r.2.1.halt, r.2.2)) =
      some (1, .NULL, some (.RuntimeError "read failed")) ∧
    ∃ (heap' : Heap) (self' : PySyckParserObject) (e : PyErr),
      PySyckParser_parse [] { parser_file with symbols := none, parsing := 0 }
        run_read_raises = some (heap', self', .NULL, some e) ∧
      self'.halt ≠ 0 :=
  ⟨by decide,
    (C30_failed_read_halts buf_sevens { parser_file with symbols := none, parsing := 0 } 8 2
      read_raises rfl rfl).2 [] run_read_raises rfl (by decide) (by simp [run_read_raises])⟩

/-- C31, counterexample: the read handler called on a halted parser with `skip = 2` and a
buffer that holds the byte 7 at every offset stores a zero byte at offset 2: the buffer is
modified. -/
theorem C31_counterexample_buffer_is_written :
    parser_halted.halt ≠ 0 ∧
    buf_sevens 2 = 7 ∧
    (PySyckParser_read_handler buf_sevens parser_halted 8 2 read_ab).1 2 = 0 ∧
    (PySyckParser_read_handler buf_sevens parser_halted 8 2 read_ab).1 ≠ buf_sevens := by
  refine ⟨by decide, by decide, by decide, ?_⟩
  intro h
  have h2 : (PySyckParser_read_handler buf_sevens parser_halted 8 2 read_ab).1 2 = 0 := by
    decide
  rw [h] at h2
  exact absurd h2 (by decide)

/-- C31, amended: on a parser with the halt flag set the read handler returns `skip`, does not
call `read`, raises nothing and leaves the parser object as it was; in the buffer it stores a
zero byte at offset `skip` and leaves every other offset as it was. -/
theorem C31_halted_read_writes_one_zero_byte (buf : Int → Nat)
    (self : PySyckParserObject) (max_size skip : Int) (read : Int → ReadResult)
    (hhalt : self.halt ≠ 0) :
    PySyckParser_read_handler buf self max_size skip read =
      (Function.update buf skip 0, self, skip, none, []) ∧
    (PySyckParser_read_handler buf self max_size skip read).1 skip = 0 ∧
    ∀ p : Int, p ≠ skip →
      (PySyckParser_read_handler buf self max_size skip read).1 p = buf p := by
  have hres : PySyckParser_read_handler buf self max_size skip read =
      (Function.update buf skip 0, self, skip, none, []) := by
    simp [PySyckParser_read_handler, hhalt]
  refine ⟨hres, ?_, ?_⟩
  · rw [hres]
    exact Function.update_same _ _ _
  · intro p hp
    rw [hres]
    exact Function.update_noteq hp 0 buf

/-- C31, amended, worked example: a halted parser, two buffered bytes, and a source whose
`read` would give back `"ab"`. -/
theorem C31_halted_read_witness :
    PySyckParser_read_handler buf_sevens parser_halted 8 2 read_ab =
      (Function.update buf_sevens 2 0, parser_halted, 2, none, []) ∧
    (PySyckParser_read_handler buf_sevens parser_halted 8 2 read_ab).1 2 = 0 ∧
    ∀ p : Int, p ≠ 2 →
      (PySyckParser_read_handler buf_sevens parser_halted 8 2 read_ab).1 p = buf_sevens p :=
  C31_halted_read_writes_one_zero_byte buf_sevens parser_halted 8 2 read_ab (by decide)

/-- C32: for every Scalar and each of the six values `None`, `"1quote"`, `"2quote"`, `"fold"`,
`"literal"`, `"plain"`, `PySyckScalar_setstyle` accepts the value and `PySyckScalar_getstyle`
then returns it; two of the six values that leave the same code in the field `style` are the
same value. -/
theorem C32_style_round_trip (self : PySyckScalarObject) :
    (∀ s ∈ style_values,
      (PySyckScalar_setstyle self (some s)).2 = none ∧
      PySyckScalar_getstyle (PySyckScalar_setstyle self (some s)).1 = s) ∧
    (∀ s ∈ style_values, ∀ t ∈ style_values,
      (PySyckScalar_setstyle self (some s)).1.style =
        (PySyckScalar_setstyle self (some t)).1.style → s = t) := by
  have hcode : ∀ s ∈ style_values, ∃ code : Int,
      PySyckScalar_setstyle self (some s) = ({ self with style := code }, none) ∧
      PySyckScalar_getstyle { self with style := code } = s ∧
      (PySyckScalar_setstyle PySyckScalar_new (some s)).1.style = code := by
    intro s hs
    simp only [style_values, style_names, List.map_cons, List.map_nil, List.mem_cons,
      List.mem_singleton, List.not_mem_nil, or_false] at hs
    rcases hs with rfl | rfl | rfl | rfl | rfl | rfl
    · exact ⟨scalar_none, rfl, rfl, rfl⟩
    · exact ⟨scalar_1quote, rfl, rfl, rfl⟩
    · exact ⟨scalar_2quote, rfl, rfl, rfl⟩
    · exact ⟨scalar_fold, rfl, rfl, rfl⟩
    · exact ⟨scalar_literal, rfl, rfl, rfl⟩
    · exact ⟨scalar_plain, rfl, rfl, rfl⟩
  refine ⟨?_, ?_⟩
  · intro s hs
    obtain ⟨code, hset, hget, _⟩ := hcode s hs
    rw [hset]
    exact ⟨rfl, hget⟩
  · intro s hs t ht h
    obtain ⟨cs, hsets, _, hs0⟩ := hcode s hs
    obtain ⟨ct, hsett, _, ht0⟩ := hcode t ht
    rw [hsets, hsett] at h
    have hc : cs = ct := h
    rw [← hs0, ← ht0] at hc
    have hinj : ∀ a ∈ style_values, ∀ b ∈ style_values,
        (PySyckScalar_setstyle PySyckScalar_new (some a)).1.style =
          (PySyckScalar_setstyle PySyckScalar_new (some b)).1.style → a = b := by
      decide
    exact hinj s hs t ht hc

/-- C33: for every Scalar and each of the three values `None` (clip), `"-"` (strip) and `"+"`
(keep), `PySyckScalar_setchomp` accepts the value and `PySyckScalar_getchomp` then returns it;
two of the three values that leave the same code in the field `chomp` are the same value. -/
theorem C33_chomp_round_trip (self : PySyckScalarObject) :
    (∀ c ∈ chomp_values,
      (PySyckScalar_setchomp self (some c)).2 = none ∧
      PySyckScalar_getchomp (PySyckScalar_setchomp self (some c)).1 = c) ∧
    (∀ c ∈ chomp_values, ∀ d ∈ chomp_values,
      (PySyckScalar_setchomp self (some c)).1.chomp =
        (PySyckScalar_setchomp self (some d)).1.chomp → c = d) := by
  have hcode : ∀ c ∈ chomp_values, ∃ code : Int,
      PySyckScalar_setchomp self (some c) = ({ self with chomp := code }, none) ∧
      PySyckScalar_getchomp { self with chomp := code } = c ∧
      (PySyckScalar_setchomp PySyckScalar_new (some c)).1.chomp = code := by
    intro c hc
    simp only [chomp_values, chomp_names, List.map_cons, List.map_nil, List.mem_cons,
      List.mem_singleton, List.not_mem_nil, or_false] at hc
    rcases hc with rfl | rfl | rfl
    · exact ⟨0, rfl, rfl, rfl⟩
    · exact ⟨NL_CHOMP, rfl, rfl, rfl⟩
    · exact ⟨NL_KEEP, rfl, rfl, rfl⟩
  refine ⟨?_, ?_⟩
  · intro c hc
    obtain ⟨code, hset, hget, _⟩ := hcode c hc
    rw [hset]
    exact ⟨rfl, hget⟩
  · intro c hc d hd h
    obtain ⟨cc, hsetc, _, hc0⟩ := hcode c hc
    obtain ⟨cd, hsetd, _, hd0⟩ := hcode d hd
    rw [hsetc, hsetd] at h
    have heq : cc = cd := h
    rw [← hc0, ← hd0] at heq
    have hinj : ∀ a ∈ chomp_values, ∀ b ∈ chomp_values,
        (PySyckScalar_setchomp PySyckScalar_new (some a)).1.chomp =
          (PySyckScalar_setchomp PySyckScalar_new (some b)).1.chomp → a = b := by
      decide
    exact hinj c hc d hd heq

/-- The conversion to `int` gives a value of the signed 32-bit range that differs from its
argument by a multiple of `2 ^ 32`, and gives back an argument of that range. -/
theorem long_to_int_spec (n : Int) :
    -2 ^ 31 ≤ long_to_int n ∧ long_to_int n < 2 ^ 31 ∧
    (long_to_int n - n) % 2 ^ 32 = 0 ∧
    (-2 ^ 31 ≤ n → n < 2 ^ 31 → long_to_int n = n) := by
  unfold long_to_int
  refine ⟨by omega, by omega, by omega, ?_⟩
  intro h1 h2
  omega

/-- C35: for every Scalar and every integer `n`, `PySyckScalar_setindent` accepts `n` and
stores `n` converted to `int`, a value of the signed 32-bit range that differs from `n` by a
multiple of `2 ^ 32`, and `PySyckScalar_getindent` returns the stored value.  So for `n` in the
signed 32-bit range the round trip returns `n`, and for `n` outside it does not.  The same
holds for `PySyckScalar_setwidth` and `PySyckScalar_getwidth`. -/
theorem C35_indent_and_width_round_trip (self : PySyckScalarObject) (n : Int) :
    PySyckScalar_setindent self (some (.PyInt n)) =
      ({ self with indent := long_to_int n }, none) ∧
    PySyckScalar_getindent (PySyckScalar_setindent self (some (.PyInt n))).1 =
      .PyInt (long_to_int n) ∧
    PySyckScalar_setwidth self (some (.PyInt n)) =
      ({ self with width := long_to_int n }, none) ∧
    PySyckScalar_getwidth (PySyckScalar_setwidth self (some (.PyInt n))).1 =
      .PyInt (long_to_int n) ∧
    -2 ^ 31 ≤ long_to_int n ∧ long_to_int n < 2 ^ 31 ∧
    (long_to_int n - n) % 2 ^ 32 = 0 ∧
    (-2 ^ 31 ≤ n ∧ n < 2 ^ 31 →
      PySyckScalar_getindent (PySyckScalar_setindent self (some (.PyInt n))).1 = .PyInt n ∧
      PySyckScalar_getwidth (PySyckScalar_setwidth self (some (.PyInt n))).1 = .PyInt n) ∧
    (¬ (-2 ^ 31 ≤ n ∧ n < 2 ^ 31) →
      PySyckScalar_getindent (PySyckScalar_setindent self (some (.PyInt n))).1 ≠ .PyInt n ∧
      PySyckScalar_getwidth (PySyckScalar_setwidth self (some (.PyInt n))).1 ≠ .PyInt n) := by
  obtain ⟨hlo, hhi, hmod, hid⟩ := long_to_int_spec n
  have hindent : PySyckScalar_setindent self (some (.PyInt n)) =
      ({ self with indent := long_to_int n }, none) := rfl
  have hwidth : PySyckScalar_setwidth self (some (.PyInt n)) =
      ({ self with width := long_to_int n }, none) := rfl
  refine ⟨hindent, by rw [hindent]; rfl, hwidth, by rw [hwidth]; rfl, hlo, hhi, hmod, ?_, ?_⟩
  · rintro ⟨h1, h2⟩
    rw [hindent, hwidth]
    simp only [PySyckScalar_getindent, PySyckScalar_getwidth, hid h1 h2, and_self]
  · intro hout
    rw [hindent, hwidth]
    simp only [PySyckScalar_getindent, PySyckScalar_getwidth, ne_eq, PyObject.PyInt.injEq]
    have hne : long_to_int n ≠ n := by
      intro heq
      rw [heq] at hlo hhi
      exact hout ⟨hlo, hhi⟩
    exact ⟨hne, hne⟩

/-- C35, worked example: 80 is read back as 80; `2 ^ 31` is stored as `-2 ^ 31` and
`2 ^ 32 + 5` as 5. -/
theorem C35_indent_and_width_witness :
    PySyckScalar_getindent (PySyckScalar_setindent PySyckScalar_new (some (.PyInt 80))).1 =
      .PyInt 80 ∧
    PySyckScalar_getwidth (PySyckScalar_setwidth PySyckScalar_new (some (.PyInt 80))).1 =
      .PyInt 80 ∧
    PySyckScalar_getindent
        (PySyckScalar_setindent PySyckScalar_new (some (.PyInt (2 ^ 31)))).1 =
      .PyInt (-2 ^ 31) ∧
    PySyckScalar_getwidth
        (PySyckScalar_setwidth PySyckScalar_new (some (.PyInt (2 ^ 32 + 5)))).1 = .PyInt 5 :=
  ⟨((C35_indent_and_width_round_trip PySyckScalar_new 80).2.2.2.2.2.2.2.1
      ⟨by decide, by decide⟩).1,
    ((C35_indent_and_width_round_trip PySyckScalar_new 80).2.2.2.2.2.2.2.1
      ⟨by decide, by decide⟩).2,
    by decide, by decide⟩

/-- C37: the function `PySyckNode_clear` returns 0 and leaves `value` and `tag` absent, but it
leaves `anchor` as it was: its third block assigns `NULL` to `value` a second time.  A node
that has an anchor therefore still has it after the call, as the Scalar built from the event
`a` with the anchor `x` shows. -/
theorem C37_clear_keeps_anchor :
    (∀ self : PySyckNodeObject,
      PySyckNode_clear self = ({ value := none, tag := none, anchor := self.anchor }, 0)) ∧
    (∀ self : PySyckNodeObject,
      (PySyckNode_clear self).1.anchor = none ↔ self.anchor = none) ∧
    PySyckNode_clear scalar_a.toPySyckNodeObject =
      ({ value := none, tag := none, anchor := some (.PyString (cstr "x")) }, 0) := by
  refine ⟨fun _ => rfl, fun _ => Iff.rfl, by decide⟩

/-- A call of the scanner leaves the source and the scanner handle of the parser object as
they were. -/
theorem scanner_call_keeps_source (heap heap' : Heap) (self self' : PySyckParserObject)
    (call : ScannerCall) (raised : Option PyErr) (id : Option Int)
    (hcall : scanner_call heap self call = some (heap', self', raised, id)) :
    self'.source = self.source ∧ self'.parser = self.parser := by
  cases call with
  | handler node =>
    simp only [scanner_call] at hcall
    cases hres : PySyckParser_node_handler heap self node with
    | none => simp [hres] at hcall
    | some r =>
      obtain ⟨heap1, self1, index⟩ := r
      simp only [hres, Option.some.injEq, Prod.mk.injEq] at hcall
      obtain ⟨_, hs, _, _⟩ := hcall
      subst hs
      unfold PySyckParser_node_handler at hres
      split_ifs at hres
      · simp only [Option.some.injEq, Prod.mk.injEq] at hres
        rw [← hres.2.1]
        exact ⟨rfl, rfl⟩
      · cases hsym : self.symbols with
        | none => simp [hsym] at hres
        | some symbols =>
          simp only [hsym] at hres
          cases hsw : node_handler_switch symbols node with
          | none =>
            simp only [hsw, Option.some.injEq, Prod.mk.injEq] at hres
            rw [← hres.2.1]
            exact ⟨rfl, rfl⟩
          | some object =>
            simp only [hsw] at hres
            cases happ : PyList_Append symbols heap.length with
            | none =>
              simp only [happ, Option.some.injEq, Prod.mk.injEq] at hres
              rw [← hres.2.1]
              exact ⟨rfl, rfl⟩
            | some symbols' =>
              simp only [happ, Option.some.injEq, Prod.mk.injEq] at hres
              rw [← hres.2.1]
              exact ⟨rfl, rfl⟩
  | error_handler parser str =>
    simp only [scanner_call, PySyckParser_error_handler, Option.some.injEq,
      Prod.mk.injEq] at hcall
    obtain ⟨_, hs, _, _⟩ := hcall
    rw [← hs]
    split_ifs
    · exact ⟨rfl, rfl⟩
    · exact ⟨rfl, rfl⟩
  | read_handler buf max_size skip read =>
    simp only [scanner_call, Option.some.injEq, Prod.mk.injEq] at hcall
    obtain ⟨_, hs, _, _⟩ := hcall
    rw [← hs]
    rcases read_handler_self buf self max_size skip read with ⟨h, _⟩ | ⟨_, h, _⟩
    · rw [h]
      exact ⟨rfl, rfl⟩
    · rw [h]
      exact ⟨rfl, rfl⟩

/-- A `parse()` call leaves the source as it was and a parser that has a scanner handle with a
scanner handle. -/
theorem parse_keeps_source (heap heap' : Heap) (self self' : PySyckParserObject)
    (run : ScannerRun) (value : PyReturn) (err : Option PyErr)
    (hparse : PySyckParser_parse heap self run = some (heap', self', value, err)) :
    self'.source = self.source ∧ (self.parser ≠ none → self'.parser ≠ none) := by
  by_cases hparsing : self.parsing = 0
  · by_cases hhalt : self.halt = 0
    · cases hp : self.parser with
      | none => simp [PySyckParser_parse, syck_parse, hparsing, hhalt, hp] at hparse
      | some p =>
        have hparser : self.parser ≠ none := by simp [hp]
        obtain ⟨heap1, self1, err1, ids, syms1, hscan, hself1, _, _, _⟩ :=
          scanner_calls_spec run.calls heap
            { self with symbols := some PyList_New, parsing := 1 }
            none [] [] rfl (fun h => absurd hhalt h) (fun _ i hi => by simp at hi)
        have hsym1 : self1.symbols = some (.PyList syms1) := by rw [hself1]
        have hsource : self1.source = self.source := by rw [hself1]
        rw [parse_after_scan heap heap1 self self1 run err1 ids syms1 hparsing hhalt hparser
          hscan hsym1] at hparse
        split_ifs at hparse
        · simp only [Option.some.injEq, Prod.mk.injEq] at hparse
          rw [← hparse.2.1]
          exact ⟨hsource, fun _ => by simp⟩
        · simp only [Option.some.injEq, Prod.mk.injEq] at hparse
          rw [← hparse.2.1]
          exact ⟨hsource, fun _ => by simp⟩
        · cases hroot : syms1[run.root]? with
          | none =>
            simp only [hroot, Option.some.injEq, Prod.mk.injEq] at hparse
            rw [← hparse.2.1]
            exact ⟨hsource, fun _ => by simp⟩
          | some node =>
            simp only [hroot, Option.some.injEq, Prod.mk.injEq] at hparse
            rw [← hparse.2.1]
            exact ⟨hsource, fun _ => by simp⟩
    · rw [parse_halted heap self run hhalt hparsing] at hparse
      simp only [Option.some.injEq, Prod.mk.injEq] at hparse
      rw [← hparse.2.1]
      exact ⟨rfl, id⟩
  · simp only [PySyckParser_parse, ne_eq, hparsing, not_false_eq_true, if_true,
      Option.some.injEq, Prod.mk.injEq] at hparse
    rw [← hparse.2.1]
    exact ⟨rfl, id⟩

/-- Operations that are `parse()` or an accepted `__init__` keep a parser object outside
`parse()` whose source and scanner handle are present unless it is halted in such a state, and
none of them crashes. -/
theorem Parser_after_keeps_handle :
    ∀ (calls : List ParserCall) (heap : Heap) (self : PySyckParserObject),
      (∀ c ∈ calls, c.keeps_handle = true) →
      self.parsing = 0 →
      (self.halt = 0 → self.source ≠ none ∧ self.parser ≠ none) →
      ∃ (heap' : Heap) (self' : PySyckParserObject),
        Parser_after heap self calls = some (heap', self') ∧
        self'.parsing = 0 ∧
        (self'.halt = 0 → self'.source ≠ none ∧ self'.parser ≠ none) := by
  intro calls
  induction calls with
  | nil =>
    intro heap self _ hparsing hinv
    exact ⟨heap, self, rfl, hparsing, hinv⟩
  | cons call rest ih =>
    intro heap self hgood hparsing hinv
    have hrest : ∀ c ∈ rest, c.keeps_handle = true :=
      fun c hc => hgood c (List.mem_cons_of_mem _ hc)
    have hcall := hgood call (List.mem_cons_self _ _)
    cases call with
    | init args fresh =>
      cases args with
      | error e => simp [ParserCall.keeps_handle] at hcall
      | ok a =>
        obtain ⟨source, implicit_typing, taguri_expansion⟩ := a
        obtain ⟨heap', self', hafter, hres⟩ :=
          ih heap (PySyckParser_init self (.ok (source, implicit_typing, taguri_expansion))
            fresh).1 hrest rfl (fun _ => ⟨by simp [PySyckParser_init], by
              simp [PySyckParser_init]⟩)
        exact ⟨heap', self', by simpa [Parser_after, ParserCall.run] using hafter, hres⟩
    | clear => simp [ParserCall.keeps_handle] at hcall
    | parse run =>
      obtain ⟨heap1, self1, value, err, hparse⟩ :=
        parse_returns heap self run hparsing (fun h => (hinv h).2)
      have hparsing1 :=
        parse_leaves_parsing_clear heap heap1 self self1 run value err hparsing hparse
      obtain ⟨hsource, hhandle⟩ := parse_keeps_source heap heap1 self self1 run value err hparse
      have hinv1 : self1.halt = 0 → self1.source ≠ none ∧ self1.parser ≠ none := by
        intro h1
        by_cases hhalt : self.halt = 0
        · exact ⟨by rw [hsource]; exact (hinv hhalt).1, hhandle (hinv hhalt).2⟩
        · exfalso
          rw [parse_halted heap self run hhalt hparsing] at hparse
          simp only [Option.some.injEq, Prod.mk.injEq] at hparse
          rw [← hparse.2.1] at h1
          exact hhalt h1
      obtain ⟨heap', self', hafter, hres⟩ := ih heap1 self1 hrest hparsing1 hinv1
      exact ⟨heap', self', by simpa [Parser_after, ParserCall.run, hparse] using hafter, hres⟩

/-- C34: a parser object that was only constructed is halted and its `parse()` returns `None`;
an accepted `__init__` leaves the halt flag clear with the source and the scanner handle
present; and after any sequence of `parse()` calls and accepted `__init__` calls on a
constructed parser, a clear halt flag comes with both.  But `PySyckParser_clear` and an
`__init__` that rejects its arguments set the scanner handle and the source to `NULL` and leave
the halt flag as it was: after an accepted `__init__` followed by a rejected one the halt flag
is clear without source and handle, and the next `parse()` runs the scanner on the missing
handle. -/
theorem C34_rejected_init_leaves_halt_clear_without_handle :
    (PySyckParser_new.halt ≠ 0 ∧
      ∀ (heap : Heap) (run : ScannerRun),
        PySyckParser_parse heap PySyckParser_new run =
          some (heap, PySyckParser_new, .Py_None, none)) ∧
    (∀ (self : PySyckParserObject) (source : PyObject) (implicit_typing taguri_expansion : Int)
        (fresh : SyckParser),
      (PySyckParser_init self (.ok (source, implicit_typing, taguri_expansion)) fresh).1 =
        { source := some source
          implicit_typing := implicit_typing
          taguri_expansion := taguri_expansion
          symbols := none
          parser := some fresh
          parsing := 0
          halt := 0 }) ∧
    (∀ (calls : List ParserCall) (heap : Heap),
      (∀ c ∈ calls, c.keeps_handle = true) →
      ∃ (heap' : Heap) (self' : PySyckParserObject),
        Parser_after heap PySyckParser_new calls = some (heap', self') ∧
        (self'.halt = 0 → self'.source ≠ none ∧ self'.parser ≠ none)) ∧
    (∀ (self : PySyckParserObject) (e : PyErr) (fresh : SyckParser),
      PySyckParser_clear self = { self with parser := none, source := none, symbols := none } ∧
      PySyckParser_init self (.error e) fresh = (PySyckParser_clear self, some e)) ∧
    (∀ (heap : Heap) (self : PySyckParserObject) (e : PyErr) (fresh : SyckParser)
        (run : ScannerRun),
      self.halt = 0 → self.parsing = 0 →
      PySyckParser_parse heap (PySyckParser_init self (.error e) fresh).1 run = none) ∧
    Parser_after [] PySyckParser_new
        [.init (.ok (.PyString (cstr "- a\n- b\n"), 1, 1))
            { linect := 0, lineptr := 0, cursor := 0, eof := 0 },
          .init (.error (.TypeError "Required argument 'source' (pos 1) not found"))
            { linect := 0, lineptr := 0, cursor := 0, eof := 0 }] =
      some ([],
        { source := none
          implicit_typing := 1
          taguri_expansion := 1
          symbols := none
          parser := none
          parsing := 0
          halt := 0 }) ∧
    Parser_after [] PySyckParser_new
        [.init (.ok (.PyString (cstr "- a\n- b\n"), 1, 1))
            { linect := 0, lineptr := 0, cursor := 0, eof := 0 },
          .init (.error (.TypeError "Required argument 'source' (pos 1) not found"))
            { linect := 0, lineptr := 0, cursor := 0, eof := 0 },
          .parse run_document] = none := by
  refine ⟨⟨by decide, fun heap run => parse_halted heap _ run (by decide) rfl⟩,
    fun _ _ _ _ _ => rfl, ?_, fun _ _ _ => ⟨rfl, rfl⟩, ?_, by decide, by decide⟩
  · intro calls heap hgood
    obtain ⟨heap', self', hafter, _, hinv⟩ :=
      Parser_after_keeps_handle calls heap PySyckParser_new hgood rfl
        (fun h => absurd h (by decide))
    exact ⟨heap', self', hafter, hinv⟩
  · intro heap self e fresh run hhalt hparsing
    simp [PySyckParser_parse, syck_parse, PySyckParser_init, PySyckParser_clear, hhalt,
      hparsing]

end PySyck
